import Mathlib

/-!
# NewsHub data layer: retry, cache, list/search service and the state store

A shallow embedding of `src/services/httpClient.js`, `src/services/newsApi.js`,
`src/hooks/useNews.js` and `src/contexts/AppContext.jsx`.

Asynchronous code is embedded by explicit state passing: an awaited operation is a
function from the state of the outside world to its outcome and the next state.
JavaScript numbers that are used as integers are `Int` or `Nat`; `null`/`undefined`
results are `Option.none`.
-/

namespace NewsHub

/-! ## Errors -/

/-- The `code` property of a thrown error object: absent, a number (an HTTP status)
or a string (such as `'NETWORK_ERROR'`). -/
inductive ErrorCode where
  | undefined
  | num (n : Int)
  | str (s : String)
  deriving DecidableEq, Repr

/-- An `Error` object as the data layer sees it: its message and its `code`. -/
structure JsError where
  message : String
  code : ErrorCode
  deriving DecidableEq, Repr

/-- How an awaited call ended: it returned a value, it threw an error object, or it
threw the value `undefined` (`throw lastError` with `lastError` never assigned). -/
inductive Completion (α : Type) where
  | returned (v : α)
  | threw (e : JsError)
  | threwUndefined
  deriving DecidableEq, Repr

/-! ## `withRetry` (httpClient.js, lines 110-132) -/

/-- The observable run of `withRetry`: how it completed, how many times `requestFn`
was invoked, the `setTimeout` delays it waited for (in order), and the state of the
outside world when it completed. -/
structure RetryRun (σ α : Type) where
  result : Completion α
  calls : Nat
  waits : List Nat
  final : σ

/-- Records one more invocation of `requestFn`, followed by a wait of `ms`, in front
of the rest of a run. -/
def RetryRun.afterRetry {σ α : Type} (ms : Nat) (r : RetryRun σ α) : RetryRun σ α :=
  { r with calls := r.calls + 1, waits := ms :: r.waits }

/-- What `throw lastError` after the loop throws. -/
def throwLast {α : Type} : Option JsError → Completion α
  | some e => Completion.threw e
  | none => Completion.threwUndefined

/-- The `for (let i = 0; i <= maxRetries; i++)` loop of `withRetry`, entered at
index `i` with the current value of `lastError`. The first argument is the number of
iterations the loop condition still admits, `maxRetries + 1 - i`: the condition
`i <= maxRetries` holds exactly when it is not zero. `requestFn` is the awaited
operation; `sleep ms` is what the outside world does while the `setTimeout(ms)`
promise is pending. -/
def withRetryLoop {σ α : Type} (sleep : Nat → σ → σ)
    (requestFn : σ → Except JsError α × σ) (maxRetries delay : Nat) :
    Nat → Nat → Option JsError → σ → RetryRun σ α
  | 0, _, lastError, s =>
    { result := throwLast lastError, calls := 0, waits := [], final := s }
  | remaining + 1, i, _, s =>
    match requestFn s with
    | (Except.ok v, s') =>
      { result := Completion.returned v, calls := 1, waits := [], final := s' }
    | (Except.error error, s') =>
      if i = maxRetries ∨ error.code = ErrorCode.num 401 ∨ error.code = ErrorCode.num 403 then
        { result := Completion.threw error, calls := 1, waits := [], final := s' }
      else
        (withRetryLoop sleep requestFn maxRetries delay remaining (i + 1) (some error)
          (sleep (delay * 2 ^ i) s')).afterRetry (delay * 2 ^ i)

/-- Models `withRetry(requestFn, maxRetries, delay)`; the source's defaults are
`maxRetries = 3` and `delay = 1000`. The loop starts at `i = 0` with `lastError`
unassigned. -/
def withRetry {σ α : Type} (sleep : Nat → σ → σ)
    (requestFn : σ → Except JsError α × σ) (maxRetries delay : Nat)
    (s : σ) : RetryRun σ α :=
  withRetryLoop sleep requestFn maxRetries delay (maxRetries + 1) 0 none s

/-- The state of the outside world just before the `k`-th invocation (counted from 0)
of `requestFn` in a run of `withRetry` in which every earlier attempt was retried:
attempt `k` runs in the state left by attempt `k - 1` and the wait of
`delay * 2 ^ (k - 1)` that followed it. -/
def attemptState {σ α : Type} (sleep : Nat → σ → σ)
    (requestFn : σ → Except JsError α × σ) (delay : Nat) (s : σ) : Nat → σ
  | 0 => s
  | k + 1 =>
    sleep (delay * 2 ^ k) (requestFn (attemptState sleep requestFn delay s k)).2

/-- The outcome of the `k`-th invocation (counted from 0) of `requestFn`. -/
def attemptOutcome {σ α : Type} (sleep : Nat → σ → σ)
    (requestFn : σ → Except JsError α × σ) (delay : Nat) (s : σ) (k : Nat) :
    Except JsError α :=
  (requestFn (attemptState sleep requestFn delay s k)).1

/-- An error that `withRetry` retries: its code is neither the number 401 nor 403. -/
def JsError.retryable (e : JsError) : Prop :=
  e.code ≠ ErrorCode.num 401 ∧ e.code ≠ ErrorCode.num 403

instance (e : JsError) : Decidable e.retryable := by
  unfold JsError.retryable; infer_instance

/-- The backoff delays after `m` consecutive retried failures starting at loop index
`i`: `delay * 2 ^ i, ..., delay * 2 ^ (i + m - 1)`. -/
def waitsFrom (delay i m : Nat) : List Nat :=
  (List.range m).map (fun j => delay * 2 ^ (i + j))

/-- Records `ws.length` retried invocations and the waits `ws` that followed them in
front of the rest of a run. -/
def RetryRun.afterRetries {σ α : Type} (ws : List Nat) (r : RetryRun σ α) : RetryRun σ α :=
  { r with calls := r.calls + ws.length, waits := ws ++ r.waits }

/-! ## JavaScript objects, key order and `JSON.stringify` -/

/-- The parameter values the data layer passes around: `undefined`, `null`, booleans,
integral numbers and strings. -/
inductive JsVal where
  | undefined
  | null
  | bool (b : Bool)
  | num (n : Int)
  | str (s : String)
  deriving DecidableEq, Repr

/-- A plain object: its own properties, in property order. -/
abbrev JsObject (V : Type) := List (String × V)

/-- Own-property read `o[key]`; `none` when `o` has no own property `key`. What a
read of a name inherited from `Object.prototype` gives is added where the code reads
a plain object with an arbitrary key (`getCategoryByType`, `fetchNews`). -/
def objGet {V : Type} (o : JsObject V) (key : String) : Option V :=
  (o.find? (fun p => p.1 == key)).map Prod.snd

/-- Models `Object.keys(o)`. -/
def objectKeys {V : Type} (o : JsObject V) : List String := o.map Prod.fst

/-- The value of a string of decimal digits. -/
def digitsValue (cs : List Char) : Nat :=
  cs.foldl (fun acc c => 10 * acc + (c.toNat - 48)) 0

/-- The array index a property key denotes, if it is one: a canonical decimal numeral
(no leading zero) below `2 ^ 32 - 1`. Such keys come first in property order. -/
def arrayIndex? (key : String) : Option Nat :=
  let cs := key.toList
  if cs ≠ [] ∧ cs.all Char.isDigit ∧ (cs = ['0'] ∨ cs.head? ≠ some '0') ∧
      digitsValue cs < 4294967295 then
    some (digitsValue cs)
  else none

/-- Places a new array-index property among the leading array-index properties, in
ascending numeric order. -/
def insertIndexKey {V : Type} (n : Nat) (key : String) (v : V) : JsObject V → JsObject V
  | [] => [(key, v)]
  | p :: rest =>
    match arrayIndex? p.1 with
    | some m => if m < n then p :: insertIndexKey n key v rest else (key, v) :: p :: rest
    | none => (key, v) :: p :: rest

/-- Property write `o[key] = v`: an existing property keeps its place; a new
array-index key goes among the array-index keys; any other new key goes last. -/
def objSet {V : Type} (o : JsObject V) (key : String) (v : V) : JsObject V :=
  if o.any (fun p => p.1 == key) then
    o.map (fun p => if p.1 == key then (key, v) else p)
  else
    match arrayIndex? key with
    | some n => insertIndexKey n key v o
    | none => o ++ [(key, v)]

/-- The UTF-16 code units of a character. -/
def utf16Units (c : Char) : List Nat :=
  if c.toNat < 65536 then [c.toNat]
  else [55296 + (c.toNat - 65536) / 1024, 56320 + (c.toNat - 65536) % 1024]

/-- The UTF-16 code units of a string. -/
def utf16 : List Char → List Nat
  | [] => []
  | c :: cs => utf16Units c ++ utf16 cs

/-- Lexicographic `≤` on code-unit sequences. -/
def unitsLe : List Nat → List Nat → Bool
  | [], _ => true
  | _ :: _, [] => false
  | a :: as, b :: bs => a < b || (a == b && unitsLe as bs)

/-- The order `Array.prototype.sort()` uses without a comparator: strings compared by
their UTF-16 code units. -/
def jsStringLe (a b : String) : Prop := unitsLe (utf16 a.toList) (utf16 b.toList) = true

instance : DecidableRel jsStringLe := fun a b => by
  unfold jsStringLe; infer_instance

/-- Models `keys.sort()` on an array of strings (a stable sort). -/
def jsSort (keys : List String) : List String := keys.insertionSort jsStringLe

/-- A hexadecimal digit, lower case. -/
def hexDigit (n : Nat) : Char :=
  if n < 10 then Char.ofNat (48 + n) else Char.ofNat (87 + n)

/-- Models `JSON.stringify` of one character inside a string. -/
def jsonEscapeChar (c : Char) : List Char :=
  if c = '"' then ['\\', '"']
  else if c = '\\' then ['\\', '\\']
  else if c.toNat = 8 then ['\\', 'b']
  else if c.toNat = 12 then ['\\', 'f']
  else if c.toNat = 10 then ['\\', 'n']
  else if c.toNat = 13 then ['\\', 'r']
  else if c.toNat = 9 then ['\\', 't']
  else if c.toNat < 32 then ['\\', 'u', '0', '0', hexDigit (c.toNat / 16), hexDigit (c.toNat % 16)]
  else [c]

/-- Models `JSON.stringify` of a string. -/
def jsonQuote (s : String) : String :=
  String.mk (['"'] ++ (s.toList.map jsonEscapeChar).flatten ++ ['"'])

/-- Models `JSON.stringify` of a property value; `none` for `undefined`, whose property is
left out. -/
def jsonValue : JsVal → Option String
  | JsVal.undefined => none
  | JsVal.null => some "null"
  | JsVal.bool true => some "true"
  | JsVal.bool false => some "false"
  | JsVal.num n => some (toString n)
  | JsVal.str s => some (jsonQuote s)

/-- Models `JSON.stringify(o)` for a plain object of parameter values. -/
def jsonStringify (o : JsObject JsVal) : String :=
  "\x7b" ++ ",".intercalate (o.filterMap (fun p =>
    (jsonValue p.2).map (fun v => jsonQuote p.1 ++ ":" ++ v))) ++ "\x7d"

/-! ## `CacheManager` (httpClient.js, lines 137-217) -/

/-- A cache entry: the stored `data` (`none` is `null`) and the `Date.now()` reading
at the time it was stored. -/
structure CacheEntry (α : Type) where
  data : Option α
  timestamp : Int
  deriving DecidableEq, Repr

/-- The `Map` held in `this.cache`: its entries in insertion order. -/
abbrev Cache (α : Type) := List (String × CacheEntry α)

/-- Models `this.cacheTimeout`, five minutes in milliseconds. -/
def cacheTimeout : Int := 5 * 60 * 1000

/-- Models `Map.prototype.get`. -/
def mapGet {α : Type} (c : Cache α) (key : String) : Option (CacheEntry α) :=
  (c.find? (fun p => p.1 == key)).map Prod.snd

/-- Models `Map.prototype.set`: an existing key keeps its place, a new one goes last. -/
def mapSet {α : Type} (c : Cache α) (key : String) (e : CacheEntry α) : Cache α :=
  if c.any (fun p => p.1 == key) then
    c.map (fun p => if p.1 == key then (key, e) else p)
  else c ++ [(key, e)]

/-- Models `Map.prototype.delete`. -/
def mapDelete {α : Type} (c : Cache α) (key : String) : Cache α :=
  c.filter (fun p => !(p.1 == key))

/-- Models `generateKey(url, params)`: the keys are sorted, the parameters are copied into a
fresh object in that order, and the signature is the url, `?` and the JSON text of
that object. -/
def CacheManager.generateKey (url : String) (params : JsObject JsVal) : String :=
  let sortedParams : JsObject JsVal :=
    (jsSort (objectKeys params)).foldl
      (fun result key => objSet result key ((objGet params key).getD JsVal.undefined)) []
  url ++ "?" ++ jsonStringify sortedParams

/-- Models `get(key)` at clock reading `now`: the stored data when the entry is younger than
the timeout; otherwise `null`, and an entry that was found is deleted. Returns the
result and the cache afterwards. -/
def CacheManager.get {α : Type} (c : Cache α) (now : Int) (key : String) :
    Option α × Cache α :=
  match mapGet c key with
  | some cached =>
    if now - cached.timestamp < cacheTimeout then (cached.data, c)
    else (none, mapDelete c key)
  | none => (none, c)

/-- Models `set(key, data)` at clock reading `now`. -/
def CacheManager.set {α : Type} (c : Cache α) (now : Int) (key : String) (data : Option α) :
    Cache α :=
  mapSet c key { data := data, timestamp := now }

/-- Models `clear(key)`: a truthy key (a non-empty string) deletes that entry; a missing or
empty key empties the cache. -/
def CacheManager.clear {α : Type} (c : Cache α) (key : Option String) : Cache α :=
  match key with
  | some k => if k ≠ "" then mapDelete c k else []
  | none => []

/-- Models `clearExpired()` at clock reading `now`. -/
def CacheManager.clearExpired {α : Type} (c : Cache α) (now : Int) : Cache α :=
  c.filter (fun p => !decide (now - p.2.timestamp ≥ cacheTimeout))

/-- A call on the cache manager. -/
inductive CacheOp (α : Type) where
  | get (key : String)
  | set (key : String) (data : Option α)
  | clear (key : Option String)
  | clearExpired

/-- The cache after a call made at clock reading `now`. -/
def CacheOp.run {α : Type} (c : Cache α) (now : Int) : CacheOp α → Cache α
  | CacheOp.get key => (CacheManager.get c now key).2
  | CacheOp.set key data => CacheManager.set c now key data
  | CacheOp.clear key => CacheManager.clear c key
  | CacheOp.clearExpired => CacheManager.clearExpired c now

/-- The cache after a sequence of calls, each with the clock reading it was made at. -/
def runCacheOps {α : Type} (c : Cache α) (ops : List (Int × CacheOp α)) : Cache α :=
  ops.foldl (fun c p => p.2.run c p.1) c

/-- Whether a call sets the entry of signature `s` or clears it (alone or with all
others). -/
def CacheOp.setsOrClears {α : Type} (s : String) : CacheOp α → Bool
  | CacheOp.get _ => false
  | CacheOp.set key _ => key == s
  | CacheOp.clear (some k) => k == "" || k == s
  | CacheOp.clear none => true
  | CacheOp.clearExpired => false

/-- Whether a call sets the entry of signature `s`. -/
def CacheOp.sets {α : Type} (s : String) : CacheOp α → Bool
  | CacheOp.set key _ => key == s
  | _ => false

/-! ## Constants (utils/constants.js) -/

/-- Models `API_CONFIG.BASE_URL`. -/
def BASE_URL : String := "https://jsonplaceholder.typicode.com"

/-- Models `ERROR_MESSAGES.API_ERROR`. -/
def API_ERROR : String := "API请求失败，请稍后重试"

/-- Models `ERROR_MESSAGES.NO_DATA`. -/
def NO_DATA : String := "暂无数据"

/-- Models `ERROR_MESSAGES.SEARCH_ERROR`. -/
def SEARCH_ERROR : String := "搜索失败，请重试"

/-- Models `ERROR_MESSAGES.LOAD_MORE_ERROR`. -/
def LOAD_MORE_ERROR : String := "加载更多失败"

/-! ## The news service (newsApi.js) -/

/-- A raw post record of the provider, `{id, title, body, userId}`. -/
structure Post where
  id : Int
  title : String
  body : String
  userId : Int
  deriving DecidableEq, Repr

/-- What the awaited HTTP call resolves to (`response.data`): an array, whose elements
are post records or `null`/`undefined` (`none`), or anything that is not an array. -/
inductive RawResponse where
  | array (items : List (Option Post))
  | notArray
  deriving DecidableEq, Repr

/-- The `category` field of an article: a label of the category map, or, for a type
that names a member of `Object.prototype` (such as `constructor`), that inherited
member, which `categoryMap[type]` yields. -/
inductive CategoryValue where
  | label (s : String)
  | inheritedMember (name : String)
  deriving DecidableEq, Repr

/-- An article as `processJSONPlaceholderData` builds it. -/
structure Article where
  uniquekey : String
  title : String
  date : String
  category : CategoryValue
  author_name : String
  url : String
  thumbnail_pic_s : Option String
  thumbnail_pic_s02 : Option String
  thumbnail_pic_s03 : Option String
  images : List String
  hasMultipleImages : Bool
  body : String
  userId : Int
  processedAt : String
  deriving DecidableEq, Repr

/-- What `Math.random()`, `Date.now()` and `new Date(..).toISOString()` gave while one
post was transformed: `Math.floor(Math.random() * 5)`, `Math.floor(Math.random() * 8)`,
`Math.random() > 0.7`, the `Date.now()` of the `uniquekey`, and the two ISO strings. -/
structure PostDraw where
  imageIndex : Fin 5
  authorIndex : Fin 8
  hasMultiple : Bool
  now : Int
  date : String
  processedAt : String

/-- The result object of the list service. -/
structure NewsResult where
  success : Bool
  message : Option String
  data : List Article
  total : Nat
  stat : Option String
  deriving DecidableEq, Repr

/-- The `mockImages` table. -/
def mockImages : List String :=
  [ "https://picsum.photos/400/300?random=1",
    "https://picsum.photos/400/300?random=2",
    "https://picsum.photos/400/300?random=3",
    "https://picsum.photos/400/300?random=4",
    "https://picsum.photos/400/300?random=5" ]

/-- The `mockAuthors` table. -/
def mockAuthors : List String :=
  ["张三", "李四", "王五", "赵六", "钱七", "孙八", "周九", "吴十"]

/-- The own properties of the `categoryMap` literal. -/
def categoryMap : JsObject String :=
  [ ("top", "头条"), ("guonei", "国内"), ("guoji", "国际"), ("yule", "娱乐"),
    ("tiyu", "体育"), ("junshi", "军事"), ("keji", "科技"), ("caijing", "财经"),
    ("shishang", "时尚") ]

/-- The property names every plain object inherits from `Object.prototype`; each of
them reads as a truthy value. -/
def objectPrototypeKeys : List String :=
  [ "constructor", "__defineGetter__", "__defineSetter__", "hasOwnProperty",
    "__lookupGetter__", "__lookupSetter__", "isPrototypeOf", "propertyIsEnumerable",
    "toString", "valueOf", "__proto__", "toLocaleString" ]

/-- Models `getCategoryByType(type)`: `categoryMap[type] || '头条'`. -/
def getCategoryByType (type : String) : CategoryValue :=
  match objGet categoryMap type with
  | some label => if label ≠ "" then CategoryValue.label label else CategoryValue.label "头条"
  | none =>
    if type ∈ objectPrototypeKeys then CategoryValue.inheritedMember type
    else CategoryValue.label "头条"

/-- Models `x || null` for an array element that may be missing. -/
def orNull (x : Option String) : Option String := x.filter (fun v => v ≠ "")

/-- The body of the `response.map((post) => ...)` callback. -/
def processPost (type : String) (d : PostDraw) (post : Post) : Article :=
  let randomImageIndex : Nat := d.imageIndex
  let randomAuthorIndex : Nat := d.authorIndex
  let images : List String :=
    if d.hasMultiple then
      [ mockImages.getD randomImageIndex "",
        mockImages.getD ((randomImageIndex + 1) % mockImages.length) "" ]
    else [mockImages.getD randomImageIndex ""]
  { uniquekey := "news_" ++ toString post.id ++ "_" ++ toString d.now
    title := post.title
    date := d.date
    category := getCategoryByType type
    author_name := mockAuthors.getD randomAuthorIndex ""
    url := "https://jsonplaceholder.typicode.com/posts/" ++ toString post.id
    thumbnail_pic_s := images.get? 0
    thumbnail_pic_s02 := orNull (images.get? 1)
    thumbnail_pic_s03 := orNull (images.get? 2)
    images := images
    hasMultipleImages := decide (images.length > 1)
    body := post.body
    userId := post.userId
    processedAt := d.processedAt }

/-- Transforms the posts from position `i` on; `none` when an element is
`null`/`undefined`, where reading `post.id` throws. -/
def processPosts (type : String) (draw : Nat → PostDraw) : Nat → List (Option Post) →
    Option (List Article)
  | _, [] => some []
  | _, none :: _ => none
  | i, some post :: rest =>
    (processPosts type draw (i + 1) rest).map (fun as => processPost type (draw i) post :: as)

/-- Models `processJSONPlaceholderData(response, type)`; `draw i` is what the random source
and the clock gave for the post at position `i`. An exception inside the `try` gives
the `'数据处理失败'` result. -/
def processJSONPlaceholderData (draw : Nat → PostDraw) (response : RawResponse)
    (type : String) : NewsResult :=
  match response with
  | RawResponse.notArray =>
    { success := false, message := some NO_DATA, data := [], total := 0, stat := none }
  | RawResponse.array items =>
    match processPosts type draw 0 items with
    | some processedNews =>
      { success := true, message := none, data := processedNews,
        total := processedNews.length, stat := some "1" }
    | none =>
      { success := false, message := some "数据处理失败", data := [], total := 0, stat := none }

/-- The request configuration handed to the transport. -/
structure HttpRequest where
  method : String
  url : String
  params : JsObject JsVal
  deriving DecidableEq, Repr

/-- The outside world of the data layer, over its state `σ`: the clock, what happens
during a `setTimeout` wait, the HTTP transport (with the response interceptor: it
resolves to `response.data` or rejects with the normalised error), and the random
source and clock readings seen while a response is transformed. -/
structure World (σ : Type) where
  now : σ → Int
  sleep : Nat → σ → σ
  transport : HttpRequest → σ → Except JsError RawResponse × σ
  draws : σ → Nat → PostDraw

/-- Models `httpClient.get(url, { params })`: the request interceptor stamps a GET with
`_t: Date.now()` and the transport performs it. -/
def httpClientGet {σ : Type} (w : World σ) (url : String) (params : JsObject JsVal) :
    σ → Except JsError RawResponse × σ := fun s =>
  w.transport { method := "get", url := url,
                params := objSet params "_t" (JsVal.num (w.now s)) } s

/-- The argument object of `getNewsList`; a missing property is `none`. -/
structure ListParams where
  type : Option String
  page : Option Int
  pageSize : Option Int
  useCache : Option Bool
  deriving DecidableEq, Repr

/-- A run of a service method: the value it resolved to or the error it rejected
with, the cache and the outside world afterwards, and the number of HTTP calls. -/
structure ServiceRun (σ β : Type) where
  result : Except JsError β
  cache : Cache NewsResult
  world : σ
  networkCalls : Nat

/-- Models `new Error(message || fallback)`. -/
def errorWithFallback (message fallback : String) : JsError :=
  { message := if message ≠ "" then message else fallback, code := ErrorCode.undefined }

/-- The `requestParams` object of `getNewsList`. -/
def listRequestParams (page pageSize : Int) : JsObject JsVal :=
  [("_page", JsVal.num page), ("_limit", JsVal.num pageSize)]

/-- The `cacheKey` computed by `getNewsList` for a request. -/
def listCacheKey (params : ListParams) : String :=
  CacheManager.generateKey (BASE_URL ++ "/posts")
    (listRequestParams (params.page.getD 1) (params.pageSize.getD 20))

/-- Models `getNewsList(params)` run on a cache and an outside world. -/
def getNewsList {σ : Type} (w : World σ) (params : ListParams) (cache : Cache NewsResult)
    (s : σ) : ServiceRun σ NewsResult :=
  let type := params.type.getD "top"
  let page := params.page.getD 1
  let pageSize := params.pageSize.getD 20
  let useCache := params.useCache.getD true
  let requestParams := listRequestParams page pageSize
  let cacheKey := listCacheKey params
  let looked : Option NewsResult × Cache NewsResult :=
    if useCache then CacheManager.get cache (w.now s) cacheKey else (none, cache)
  match looked with
  | (some cachedData, cache1) =>
    { result := Except.ok cachedData, cache := cache1, world := s, networkCalls := 0 }
  | (none, cache1) =>
    let run := withRetry w.sleep (httpClientGet w (BASE_URL ++ "/posts") requestParams) 2 1000 s
    match run.result with
    | Completion.returned response =>
      let processedData := processJSONPlaceholderData (w.draws run.final) response type
      { result := Except.ok processedData,
        cache := if useCache && processedData.success then
            CacheManager.set cache1 (w.now run.final) cacheKey (some processedData)
          else cache1,
        world := run.final, networkCalls := run.calls }
    | Completion.threw error =>
      { result := Except.error (errorWithFallback error.message API_ERROR),
        cache := cache1, world := run.final, networkCalls := run.calls }
    | Completion.threwUndefined =>
      { result := Except.error
          { message := "Cannot read properties of undefined (reading message)",
            code := ErrorCode.undefined },
        cache := cache1, world := run.final, networkCalls := run.calls }

/-- Models `clearCache(type)`: for a truthy type the pattern string is handed to
`cacheManager.clear` as a key; otherwise everything is cleared. -/
def clearCache (type : Option String) (cache : Cache NewsResult) : Cache NewsResult :=
  match type with
  | some t =>
    if t ≠ "" then
      CacheManager.clear cache (some (BASE_URL ++ "/index?.*\"type\":\"" ++ t ++ "\""))
    else CacheManager.clear cache none
  | none => CacheManager.clear cache none

/-- The argument object of `searchNews`; a missing property is `none`. -/
structure SearchParams where
  keyword : Option String
  type : Option String
  page : Option Int
  pageSize : Option Int
  deriving DecidableEq, Repr

/-- The result object of `searchNews`; the failure object has no `page`, `pageSize`,
`hasMore` and `keyword`. -/
structure SearchResult where
  success : Bool
  message : Option String
  data : List Article
  total : Nat
  page : Option Int
  pageSize : Option Int
  hasMore : Option Bool
  keyword : Option String
  deriving DecidableEq, Repr

/-- The characters `String.prototype.trim` removes: white space and line
terminators. -/
def isJsWhitespace (c : Char) : Bool :=
  c.toNat ∈ [9, 10, 11, 12, 13, 32, 160, 5760, 8232, 8233, 8239, 8287, 12288, 65279] ||
    (8192 ≤ c.toNat && c.toNat ≤ 8202)

/-- Models `!keyword.trim()`: nothing is left of the keyword after trimming. -/
def trimIsEmpty (keyword : String) : Bool := keyword.toList.all isJsWhitespace

/-- Models `hay.includes(needle)`. -/
def jsIncludes (hay needle : String) : Bool := decide (needle.toList <:+: hay.toList)

/-- Models `Array.prototype.slice(start, stop)`: a negative index counts from the end, and
both are clamped to the array. -/
def jsSlice {α : Type} (l : List α) (start stop : Int) : List α :=
  let len : Int := l.length
  let k : Int := if start < 0 then max (len + start) 0 else min start len
  let final : Int := if stop < 0 then max (len + stop) 0 else min stop len
  (l.drop k.toNat).take (final - k).toNat

/-- The filter callback of `searchNews`; `toLowerCase` is the platform's
`String.prototype.toLowerCase`. -/
def searchMatches (toLowerCase : String → String) (keyword : String) (article : Article) :
    Bool :=
  jsIncludes (toLowerCase article.title) (toLowerCase keyword) ||
    (decide (article.author_name ≠ "") &&
      jsIncludes (toLowerCase article.author_name) (toLowerCase keyword))

/-- Models `searchNews(params)` run on a cache and an outside world. The keyword check is
outside the `try`; an error of the list fetch is rethrown with its message. -/
def searchNews {σ : Type} (toLowerCase : String → String) (w : World σ)
    (params : SearchParams) (cache : Cache NewsResult) (s : σ) : ServiceRun σ SearchResult :=
  let type := params.type.getD "top"
  let page := params.page.getD 1
  let pageSize := params.pageSize.getD 20
  match params.keyword with
  | none =>
    { result := Except.error { message := "搜索关键词不能为空", code := ErrorCode.undefined },
      cache := cache, world := s, networkCalls := 0 }
  | some keyword =>
    if keyword = "" ∨ trimIsEmpty keyword = true then
      { result := Except.error { message := "搜索关键词不能为空", code := ErrorCode.undefined },
        cache := cache, world := s, networkCalls := 0 }
    else
      let fetched := getNewsList w
        { type := some type, page := some 1, pageSize := some 100, useCache := some false }
        cache s
      match fetched.result with
      | Except.error error =>
        { result := Except.error (errorWithFallback error.message SEARCH_ERROR),
          cache := fetched.cache, world := fetched.world,
          networkCalls := fetched.networkCalls }
      | Except.ok newsData =>
        if newsData.success = false then
          { result := Except.ok
              { success := false, message := some SEARCH_ERROR, data := [], total := 0,
                page := none, pageSize := none, hasMore := none, keyword := none },
            cache := fetched.cache, world := fetched.world,
            networkCalls := fetched.networkCalls }
        else
          let filteredNews := newsData.data.filter (searchMatches toLowerCase keyword)
          let startIndex : Int := (page - 1) * pageSize
          let endIndex : Int := startIndex + pageSize
          let paginatedNews := jsSlice filteredNews startIndex endIndex
          { result := Except.ok
              { success := true, message := none, data := paginatedNews,
                total := filteredNews.length, page := some page, pageSize := some pageSize,
                hasMore := some (decide (endIndex < (filteredNews.length : Int))),
                keyword := some keyword },
            cache := fetched.cache, world := fetched.world,
            networkCalls := fetched.networkCalls }

/-- Whether `hay` contains `keyword` as a case-insensitive substring: the lower-cased
keyword occurs in the lower-cased text. -/
def containsIgnoringCase (toLowerCase : String → String) (hay keyword : String) : Prop :=
  (toLowerCase keyword).toList <:+: (toLowerCase hay).toList

instance (f : String → String) (hay keyword : String) :
    Decidable (containsIgnoringCase f hay keyword) := by
  unfold containsIgnoringCase; infer_instance

/-- An article matches a keyword when its title or its author name contains the
keyword as a case-insensitive substring. -/
def articleMatches (toLowerCase : String → String) (keyword : String) (a : Article) : Prop :=
  containsIgnoringCase toLowerCase a.title keyword ∨
    containsIgnoringCase toLowerCase a.author_name keyword

instance (f : String → String) (keyword : String) (a : Article) :
    Decidable (articleMatches f keyword a) := by
  unfold articleMatches; infer_instance

/-! ## The application state store (AppContext.jsx) -/

/-- A favorite: the article's fields and `favoriteTime`. -/
structure FavoriteRecord extends Article where
  favoriteTime : String
  deriving DecidableEq, Repr

/-- Models `state.pagination`. -/
structure Pagination where
  page : Int
  hasMore : Bool
  deriving DecidableEq, Repr

/-- The payload of `SET_PAGINATION`: the properties it carries. -/
structure PaginationPatch where
  page : Option Int
  hasMore : Option Bool
  deriving DecidableEq, Repr

/-- The application state. -/
structure AppState where
  theme : String
  currentCategory : String
  newsData : JsObject (List Article)
  loading : Bool
  error : Option String
  searchKeyword : String
  searchResults : List Article
  searchLoading : Bool
  favorites : List FavoriteRecord
  sidebarOpen : Bool
  showScrollTop : Bool
  pagination : Pagination
  deriving DecidableEq, Repr

/-- Models `initialState`. -/
def initialState : AppState :=
  { theme := "light", currentCategory := "top", newsData := [], loading := false,
    error := none, searchKeyword := "", searchResults := [], searchLoading := false,
    favorites := [], sidebarOpen := false, showScrollTop := false,
    pagination := { page := 1, hasMore := true } }

/-- The actions: one constructor per declared `ActionTypes` member, with its payload,
and `other` for an action of any other type. -/
inductive Action where
  | SET_THEME (payload : String)
  | TOGGLE_THEME
  | SET_CURRENT_CATEGORY (payload : String)
  | SET_NEWS_DATA (category : String) (data : List Article)
  | APPEND_NEWS_DATA (category : String) (data : List Article)
  | SET_LOADING (payload : Bool)
  | SET_ERROR (payload : Option String)
  | CLEAR_ERROR
  | SET_SEARCH_KEYWORD (payload : String)
  | SET_SEARCH_RESULTS (payload : List Article)
  | SET_SEARCH_LOADING (payload : Bool)
  | CLEAR_SEARCH
  | SET_FAVORITES (payload : List FavoriteRecord)
  | ADD_FAVORITE (payload : FavoriteRecord)
  | REMOVE_FAVORITE (payload : String)
  | TOGGLE_SIDEBAR
  | SET_SHOW_SCROLL_TOP (payload : Bool)
  | SET_PAGINATION (payload : PaginationPatch)
  | RESET_PAGINATION
  | other (type : String)
  deriving DecidableEq, Repr

/-- Models `appReducer(state, action)`. Categories are keys of the plain object
`newsData`; `APPEND_NEWS_DATA` reads `state.newsData[category] || []` as an own
property, which is what it is for every category that does not name a member of
`Object.prototype`. -/
def appReducer (state : AppState) : Action → AppState
  | Action.SET_THEME payload => { state with theme := payload }
  | Action.TOGGLE_THEME =>
    { state with theme := if state.theme = "light" then "dark" else "light" }
  | Action.SET_CURRENT_CATEGORY payload =>
    { state with currentCategory := payload, error := none }
  | Action.SET_NEWS_DATA category data =>
    { state with
      newsData := objSet state.newsData category data, loading := false, error := none }
  | Action.APPEND_NEWS_DATA category data =>
    { state with
      newsData := objSet state.newsData category
        (((objGet state.newsData category).getD []) ++ data),
      loading := false, error := none }
  | Action.SET_LOADING payload => { state with loading := payload }
  | Action.SET_ERROR payload => { state with error := payload, loading := false }
  | Action.CLEAR_ERROR => { state with error := none }
  | Action.SET_SEARCH_KEYWORD payload => { state with searchKeyword := payload }
  | Action.SET_SEARCH_RESULTS payload =>
    { state with searchResults := payload, searchLoading := false }
  | Action.SET_SEARCH_LOADING payload => { state with searchLoading := payload }
  | Action.CLEAR_SEARCH =>
    { state with searchKeyword := "", searchResults := [], searchLoading := false }
  | Action.SET_FAVORITES payload => { state with favorites := payload }
  | Action.ADD_FAVORITE payload => { state with favorites := payload :: state.favorites }
  | Action.REMOVE_FAVORITE payload =>
    { state with favorites := state.favorites.filter (fun item => item.uniquekey ≠ payload) }
  | Action.TOGGLE_SIDEBAR => { state with sidebarOpen := !state.sidebarOpen }
  | Action.SET_SHOW_SCROLL_TOP payload => { state with showScrollTop := payload }
  | Action.SET_PAGINATION payload =>
    { state with
      pagination :=
        { page := payload.page.getD state.pagination.page,
          hasMore := payload.hasMore.getD state.pagination.hasMore } }
  | Action.RESET_PAGINATION => { state with pagination := { page := 1, hasMore := true } }
  | Action.other _ => state

/-! ## The orchestration hooks (useNews.js) -/

/-- A run of a hook function: the store state after the actions it dispatched, the
cache and the outside world afterwards, and the number of HTTP calls it made. -/
structure HookRun (σ : Type) where
  state : AppState
  cache : Cache NewsResult
  world : σ
  networkCalls : Nat

/-- The `length` of the member of `Object.prototype` a key names, when it has one that
is a number: the arity of the inherited function. -/
def inheritedLength (key : String) : Option Nat :=
  if key ∈ ["__defineGetter__", "__defineSetter__"] then some 2
  else if key ∈ ["constructor", "hasOwnProperty", "__lookupGetter__", "__lookupSetter__",
      "isPrototypeOf", "propertyIsEnumerable"] then some 1
  else if key ∈ ["toString", "valueOf", "toLocaleString"] then some 0
  else none

/-- Models `state.newsData[category]?.length` as a number, 0 standing for `undefined`
(both fail the test `> 0`): the length of the list stored under `category`, or of the
inherited member when there is no own property. -/
def newsDataLength (newsData : JsObject (List Article)) (category : String) : Nat :=
  match objGet newsData category with
  | some l => l.length
  | none => (inheritedLength category).getD 0

/-- Models `response.message || ERROR_MESSAGES.API_ERROR`. -/
def messageOr (message : Option String) (fallback : String) : String :=
  match message with
  | some m => if m ≠ "" then m else fallback
  | none => fallback

/-- Models `fetchNews(category, refresh)` called on the store state `state` (the state the
hook closed over). The early `return` sits inside the `try`, so the `finally` block
dispatches `SET_LOADING false` on that path as well. -/
def fetchNews {σ : Type} (w : World σ) (category : String) (refresh : Bool)
    (state : AppState) (cache : Cache NewsResult) (s : σ) : HookRun σ :=
  if !refresh && decide (newsDataLength state.newsData category > 0) then
    { state := appReducer state (Action.SET_LOADING false),
      cache := cache, world := s, networkCalls := 0 }
  else
    let st1 := appReducer (appReducer state (Action.SET_LOADING true)) Action.CLEAR_ERROR
    let run := getNewsList w
      { type := some category, page := some 1, pageSize := some 20, useCache := some (!refresh) }
      cache s
    let st2 := match run.result with
      | Except.ok response =>
        if response.success then
          appReducer (appReducer st1 (Action.SET_NEWS_DATA category response.data))
            Action.RESET_PAGINATION
        else
          appReducer st1 (Action.SET_ERROR (some (messageOr response.message API_ERROR)))
      | Except.error error => appReducer st1 (Action.SET_ERROR (some error.message))
    { state := appReducer st2 (Action.SET_LOADING false),
      cache := run.cache, world := run.world, networkCalls := run.networkCalls }

/-- Models `loadMoreNews(category)` called on the store state `state` (the state the hook
closed over). As in `fetchNews`, the early `return` sits inside the `try`, so the
`finally` block dispatches `SET_LOADING false` on that path as well. -/
def loadMoreNews {σ : Type} (w : World σ) (category : String)
    (state : AppState) (cache : Cache NewsResult) (s : σ) : HookRun σ :=
  if state.loading || !state.pagination.hasMore then
    { state := appReducer state (Action.SET_LOADING false),
      cache := cache, world := s, networkCalls := 0 }
  else
    let st1 := appReducer state (Action.SET_LOADING true)
    let nextPage := state.pagination.page + 1
    let run := getNewsList w
      { type := some category, page := some nextPage, pageSize := some 20,
        useCache := some false }
      cache s
    let st2 := match run.result with
      | Except.ok response =>
        if response.success && decide (response.data.length > 0) then
          appReducer (appReducer st1 (Action.APPEND_NEWS_DATA category response.data))
            (Action.SET_PAGINATION
              { page := some nextPage, hasMore := some (decide (response.data.length = 20)) })
        else
          appReducer st1 (Action.SET_PAGINATION { page := none, hasMore := some false })
      | Except.error _ => appReducer st1 (Action.SET_ERROR (some LOAD_MORE_ERROR))
    { state := appReducer st2 (Action.SET_LOADING false),
      cache := run.cache, world := run.world, networkCalls := run.networkCalls }

/-- Models `switchCategory(category)`. The `fetchNews` it awaits closed over the same
render; the two actions dispatched before it do not touch `newsData`, the only
field `fetchNews` reads from its closure, so it is run on the store state they left. -/
def switchCategory {σ : Type} (w : World σ) (category : String)
    (state : AppState) (cache : Cache NewsResult) (s : σ) : HookRun σ :=
  if category = state.currentCategory then
    { state := state, cache := cache, world := s, networkCalls := 0 }
  else
    fetchNews w category false
      (appReducer (appReducer state (Action.SET_CURRENT_CATEGORY category))
        Action.RESET_PAGINATION)
      cache s

/-- Models `SUCCESS_MESSAGES.FAVORITE_ADDED`. -/
def FAVORITE_ADDED : String := "已添加到收藏"

/-- Models `SUCCESS_MESSAGES.FAVORITE_REMOVED`. -/
def FAVORITE_REMOVED : String := "已从收藏中移除"

/-- The message `addFavorite` returns for an article that is a favorite already. -/
def ALREADY_FAVORITE : String := "已经在收藏列表中"

/-- Models `addFavorite(article)` of `useFavorites`; `nowIso` is
`new Date().toISOString()`. Returns the message and the store state afterwards. -/
def useFavorites.addFavorite (state : AppState) (article : Article) (nowIso : String) :
    String × AppState :=
  let isAlreadyFavorite :=
    state.favorites.any (fun item => decide (item.uniquekey = article.uniquekey))
  if !isAlreadyFavorite then
    (FAVORITE_ADDED,
      appReducer state (Action.ADD_FAVORITE { toArticle := article, favoriteTime := nowIso }))
  else (ALREADY_FAVORITE, state)

/-- Models `removeFavorite(uniquekey)` of `useFavorites`. -/
def useFavorites.removeFavorite (state : AppState) (uniquekey : String) : String × AppState :=
  (FAVORITE_REMOVED, appReducer state (Action.REMOVE_FAVORITE uniquekey))

/-- Models `toggleFavorite(article)` of `useFavorites`; `addFavorite` and `removeFavorite`
closed over the same `state.favorites`. -/
def useFavorites.toggleFavorite (state : AppState) (article : Article) (nowIso : String) :
    String × AppState :=
  let isFavorite :=
    state.favorites.any (fun item => decide (item.uniquekey = article.uniquekey))
  if isFavorite then useFavorites.removeFavorite state article.uniquekey
  else useFavorites.addFavorite state article nowIso

/-- Models `isFavorite(uniquekey)` of `useFavorites`. -/
def useFavorites.isFavorite (state : AppState) (uniquekey : String) : Bool :=
  state.favorites.any (fun item => decide (item.uniquekey = uniquekey))

/-! ## Observing the requests -/

/-- The world `w` with a log: its state carries the list of the request configurations
handed to the transport so far, oldest first. Nothing else differs from `w`. -/
def World.logged {σ : Type} (w : World σ) : World (σ × List HttpRequest) :=
  { now := fun s => w.now s.1
    sleep := fun ms s => (w.sleep ms s.1, s.2)
    transport := fun req s => ((w.transport req s.1).1, ((w.transport req s.1).2, s.2 ++ [req]))
    draws := fun s => w.draws s.1 }

/-- The request configuration `getNewsList` hands to the transport for a page and a page
size when the clock reads `now`. -/
def listRequest (page pageSize now : Int) : HttpRequest :=
  { method := "get", url := BASE_URL ++ "/posts",
    params := objSet (listRequestParams page pageSize) "_t" (JsVal.num now) }

/-- The `_page` parameter of a request. -/
def requestedPage (req : HttpRequest) : Option JsVal := objGet req.params "_page"

/-- The `_limit` parameter of a request. -/
def requestedLimit (req : HttpRequest) : Option JsVal := objGet req.params "_limit"

/-- One more `loadMoreNews(category)` after a run, on the state, cache and world that
run left; the network calls are added up. -/
def thenLoadMore {σ : Type} (w : World σ) (category : String) (r : HookRun σ) : HookRun σ :=
  { loadMoreNews w category r.state r.cache r.world with
    networkCalls := r.networkCalls +
      (loadMoreNews w category r.state r.cache r.world).networkCalls }

/-- A run followed by `n` sequential calls of `loadMoreNews(category)`. -/
def loadMoreTimes {σ : Type} (w : World σ) (category : String) : Nat → HookRun σ → HookRun σ
  | 0, r => r
  | n + 1, r => thenLoadMore w category (loadMoreTimes w category n r)

/-- A session on the logged world: `fetchNews(category)` on the initial state with an
empty cache and an empty log, then `n` sequential calls of `loadMoreNews(category)`. -/
def scrollSession {σ : Type} (w : World σ) (category : String) (s : σ) (n : Nat) :
    HookRun (σ × List HttpRequest) :=
  loadMoreTimes w.logged category n
    (fetchNews w.logged category false initialState [] (s, []))

/-- The pages requested during a run on a logged world, in order. -/
def pagesRequested {σ : Type} (r : HookRun (σ × List HttpRequest)) : List (Option JsVal) :=
  r.world.2.map requestedPage

/-- A provider with `k` full pages: for a request of page `j` with `1 <= j <= k` it
resolves to exactly 20 post records, and for page `k + 1` to fewer than 20, whatever
the state of the world. -/
def fullPagesProvider {σ : Type} (w : World σ) (k : Nat) : Prop :=
  ∀ (req : HttpRequest) (s : σ) (j : Int),
    requestedPage req = some (JsVal.num j) → 1 ≤ j → j ≤ (k : Int) + 1 →
    ∃ posts : List Post,
      (w.transport req s).1 = Except.ok (RawResponse.array (posts.map some)) ∧
      (j ≤ (k : Int) → posts.length = 20) ∧ (j = (k : Int) + 1 → posts.length < 20)

/-! ## Local storage and the domain managers (utils/storage.js) -/

/-- An element of a stored array: `null`, a boolean, a number, a string, a favorite
record (an object with a `uniquekey`), or any other object or array, which has no
`uniquekey` property. -/
inductive JsonElem where
  | null
  | bool (b : Bool)
  | num (n : Int)
  | str (s : String)
  | record (r : FavoriteRecord)
  | other
  deriving DecidableEq, Repr

/-- A value `JSON.parse` yields for a stored text: a primitive, an object, or an array
of elements. -/
inductive JsonValue where
  | null
  | bool (b : Bool)
  | num (n : Int)
  | str (s : String)
  | object
  | array (items : List JsonElem)
  deriving DecidableEq, Repr

/-- What `localStorage` holds under a key: a text that is the JSON serialisation of a
value (kept as that value, `JSON.parse` undoing `JSON.stringify`), or a text that is
empty or that `JSON.parse` rejects. -/
inductive StoredItem where
  | json (v : JsonValue)
  | text (raw : String)
  deriving DecidableEq, Repr

/-- The `localStorage` of the browser: its items, whether every access throws (storage
disabled) and whether `setItem` throws (quota exceeded). -/
structure LocalStorage where
  items : List (String × StoredItem)
  failing : Bool
  full : Bool
  deriving DecidableEq, Repr

/-- Models `localStorage.setItem` on the items: an existing key is overwritten, a new one
is added. -/
def setItem (items : List (String × StoredItem)) (key : String) (v : StoredItem) :
    List (String × StoredItem) :=
  if items.any (fun p => p.1 == key) then
    items.map (fun p => if p.1 == key then (key, v) else p)
  else items ++ [(key, v)]

/-- Models `Storage.set(key, value)`: an exception of `setItem` is swallowed. -/
def Storage.set (store : LocalStorage) (key : String) (value : JsonValue) : LocalStorage :=
  if store.failing || store.full then store
  else { store with items := setItem store.items key (StoredItem.json value) }

/-- Models `Storage.get(key, defaultValue)`: the default when the item is missing, is the
empty text, cannot be parsed, or the access throws. -/
def Storage.get (store : LocalStorage) (key : String) (defaultValue : JsonValue) :
    JsonValue :=
  if store.failing then defaultValue
  else
    match objGet store.items key with
    | some (StoredItem.json v) => v
    | some (StoredItem.text _) => defaultValue
    | none => defaultValue

/-- Models `Storage.remove(key)`. -/
def Storage.remove (store : LocalStorage) (key : String) : LocalStorage :=
  if store.failing then store
  else { store with items := store.items.filter (fun p => !(p.1 == key)) }

/-- A run of a manager method: what it returned or the error it threw, and the storage
afterwards. -/
structure ManagerRun (β : Type) where
  result : Except JsError β
  store : LocalStorage

/-- A `TypeError` with the given message. -/
def typeError (message : String) : JsError :=
  { message := message, code := ErrorCode.undefined }

/-- The error of calling an array method on `null`. -/
def nullReceiver : JsError := typeError "Cannot read properties of null"

/-- The error of calling an array method on a value that has none. -/
def notAFunction : JsError := typeError "is not a function"

/-- Models `FavoriteManager.KEY`. -/
def FavoriteManager.KEY : String := "news_favorites"

/-- Models `SearchHistoryManager.KEY`. -/
def SearchHistoryManager.KEY : String := "search_history"

/-- Models `SearchHistoryManager.MAX_HISTORY`. -/
def SearchHistoryManager.MAX_HISTORY : Nat := 10

/-- Models `ReadHistoryManager.KEY`. -/
def ReadHistoryManager.KEY : String := "read_articles"

/-- Models `ReadHistoryManager.MAX_HISTORY`. -/
def ReadHistoryManager.MAX_HISTORY : Nat := 100

/-- Models `FavoriteManager.getAll()`. -/
def FavoriteManager.getAll (store : LocalStorage) : JsonValue :=
  Storage.get store FavoriteManager.KEY (JsonValue.array [])

/-- Models `items.some((item) => item.uniquekey === uniquekey)`: reading `uniquekey` of
`null` throws; on a primitive or an object without the property it is `undefined`,
which is not the string. The scan stops at the first match. -/
def someUniquekey : List JsonElem → String → Except JsError Bool
  | [], _ => Except.ok false
  | JsonElem.null :: _, _ => Except.error nullReceiver
  | JsonElem.record r :: rest, uniquekey =>
    if r.uniquekey = uniquekey then Except.ok true else someUniquekey rest uniquekey
  | _ :: rest, uniquekey => someUniquekey rest uniquekey

/-- Models `items.filter((item) => item.uniquekey !== uniquekey)`. -/
def filterUniquekey : List JsonElem → String → Except JsError (List JsonElem)
  | [], _ => Except.ok []
  | JsonElem.null :: _, _ => Except.error nullReceiver
  | JsonElem.record r :: rest, uniquekey =>
    match filterUniquekey rest uniquekey with
    | Except.ok kept =>
      if r.uniquekey ≠ uniquekey then Except.ok (JsonElem.record r :: kept) else Except.ok kept
    | Except.error e => Except.error e
  | item :: rest, uniquekey =>
    match filterUniquekey rest uniquekey with
    | Except.ok kept => Except.ok (item :: kept)
    | Except.error e => Except.error e

/-- Models `FavoriteManager.add(article)`; `nowIso` is `new Date().toISOString()`. -/
def FavoriteManager.add (store : LocalStorage) (article : Article) (nowIso : String) :
    ManagerRun Unit :=
  match FavoriteManager.getAll store with
  | JsonValue.array favorites =>
    match someUniquekey favorites article.uniquekey with
    | Except.error e => { result := Except.error e, store := store }
    | Except.ok true => { result := Except.ok (), store := store }
    | Except.ok false =>
      { result := Except.ok (),
        store := Storage.set store FavoriteManager.KEY
          (JsonValue.array
            (JsonElem.record { toArticle := article, favoriteTime := nowIso } :: favorites)) }
  | JsonValue.null => { result := Except.error nullReceiver, store := store }
  | _ => { result := Except.error notAFunction, store := store }

/-- Models `FavoriteManager.remove(uniquekey)`. -/
def FavoriteManager.remove (store : LocalStorage) (uniquekey : String) : ManagerRun Unit :=
  match FavoriteManager.getAll store with
  | JsonValue.array favorites =>
    match filterUniquekey favorites uniquekey with
    | Except.error e => { result := Except.error e, store := store }
    | Except.ok filtered =>
      { result := Except.ok (),
        store := Storage.set store FavoriteManager.KEY (JsonValue.array filtered) }
  | JsonValue.null => { result := Except.error nullReceiver, store := store }
  | _ => { result := Except.error notAFunction, store := store }

/-- Models `FavoriteManager.isFavorite(uniquekey)`. -/
def FavoriteManager.isFavorite (store : LocalStorage) (uniquekey : String) :
    ManagerRun Bool :=
  match FavoriteManager.getAll store with
  | JsonValue.array favorites =>
    { result := someUniquekey favorites uniquekey, store := store }
  | JsonValue.null => { result := Except.error nullReceiver, store := store }
  | _ => { result := Except.error notAFunction, store := store }

/-- Models `FavoriteManager.count()`: the `length` of what is stored; `none` is
`undefined`, the `length` of a boolean, a number or an object. -/
def FavoriteManager.count (store : LocalStorage) : ManagerRun (Option Nat) :=
  match FavoriteManager.getAll store with
  | JsonValue.array favorites => { result := Except.ok (some favorites.length), store := store }
  | JsonValue.str text =>
    { result := Except.ok (some (utf16 text.toList).length), store := store }
  | JsonValue.null => { result := Except.error nullReceiver, store := store }
  | _ => { result := Except.ok none, store := store }

/-- Models `SearchHistoryManager.getAll()`. -/
def SearchHistoryManager.getAll (store : LocalStorage) : JsonValue :=
  Storage.get store SearchHistoryManager.KEY (JsonValue.array [])

/-- Models `SearchHistoryManager.add(keyword)`. -/
def SearchHistoryManager.add (store : LocalStorage) (keyword : String) : ManagerRun Unit :=
  if trimIsEmpty keyword then { result := Except.ok (), store := store }
  else
    match SearchHistoryManager.getAll store with
    | JsonValue.array items =>
      let filtered := items.filter (fun item => decide (item ≠ JsonElem.str keyword))
      let history := JsonElem.str keyword :: filtered
      let history :=
        if history.length > SearchHistoryManager.MAX_HISTORY then
          jsSlice history 0 SearchHistoryManager.MAX_HISTORY
        else history
      { result := Except.ok (),
        store := Storage.set store SearchHistoryManager.KEY (JsonValue.array history) }
    | JsonValue.null => { result := Except.error nullReceiver, store := store }
    | _ => { result := Except.error notAFunction, store := store }

/-- Models `SearchHistoryManager.remove(keyword)`. -/
def SearchHistoryManager.remove (store : LocalStorage) (keyword : String) :
    ManagerRun Unit :=
  match SearchHistoryManager.getAll store with
  | JsonValue.array items =>
    { result := Except.ok (),
      store := Storage.set store SearchHistoryManager.KEY
        (JsonValue.array (items.filter (fun item => decide (item ≠ JsonElem.str keyword)))) }
  | JsonValue.null => { result := Except.error nullReceiver, store := store }
  | _ => { result := Except.error notAFunction, store := store }

/-- The keywords added one after the other, first to last. -/
def SearchHistoryManager.addAll (store : LocalStorage) (keywords : List String) :
    LocalStorage :=
  keywords.foldl (fun st keyword => (SearchHistoryManager.add st keyword).store) store

/-- Models `readArticles.includes(uniquekey)` on what `Storage.get` returned: the array
method on an array, the substring test on a string, a `TypeError` otherwise. -/
def readIncludes (readArticles : JsonValue) (uniquekey : String) : Except JsError Bool :=
  match readArticles with
  | JsonValue.array items => Except.ok (items.contains (JsonElem.str uniquekey))
  | JsonValue.str text => Except.ok (jsIncludes text uniquekey)
  | JsonValue.null => Except.error nullReceiver
  | _ => Except.error notAFunction

/-- Models `ReadHistoryManager.markAsRead(uniquekey)`. -/
def ReadHistoryManager.markAsRead (store : LocalStorage) (uniquekey : String) :
    ManagerRun Unit :=
  let readArticles := Storage.get store ReadHistoryManager.KEY (JsonValue.array [])
  match readIncludes readArticles uniquekey with
  | Except.error e => { result := Except.error e, store := store }
  | Except.ok true => { result := Except.ok (), store := store }
  | Except.ok false =>
    match readArticles with
    | JsonValue.array items =>
      let unshifted := JsonElem.str uniquekey :: items
      let kept :=
        if unshifted.length > ReadHistoryManager.MAX_HISTORY then
          jsSlice unshifted 0 ReadHistoryManager.MAX_HISTORY
        else unshifted
      { result := Except.ok (),
        store := Storage.set store ReadHistoryManager.KEY (JsonValue.array kept) }
    | _ => { result := Except.error notAFunction, store := store }

/-- Models `ReadHistoryManager.isRead(uniquekey)`. -/
def ReadHistoryManager.isRead (store : LocalStorage) (uniquekey : String) : ManagerRun Bool :=
  { result := readIncludes (Storage.get store ReadHistoryManager.KEY (JsonValue.array []))
      uniquekey,
    store := store }

/-! ## The response error interceptor (httpClient.js, lines 59-100) -/

/-- Models `ERROR_MESSAGES.NETWORK_ERROR`. -/
def NETWORK_ERROR : String := "网络连接失败，请检查网络设置"

/-- The message of the timeout branch of the interceptor. -/
def TIMEOUT_MESSAGE : String := "请求超时，请检查网络连接"

/-- The error object axios rejects with, as the interceptor reads it: the status of
`error.response` when a response arrived, whether `error.request` is set, and
`error.code` (`'ECONNABORTED'` for an exceeded deadline). -/
structure AxiosError where
  response : Option Int
  request : Bool
  code : Option String
  deriving DecidableEq, Repr

/-- The `switch (status)` of the interceptor. -/
def statusMessage (status : Int) : String :=
  if status = 400 then "请求参数错误"
  else if status = 401 then "API密钥无效"
  else if status = 403 then "访问被拒绝"
  else if status = 404 then "接口不存在"
  else if status = 429 then "请求过于频繁，请稍后重试"
  else if status = 500 then "服务器内部错误"
  else "服务器错误 (" ++ toString status ++ ")"

/-- The rejection handler of the response interceptor: it builds `customError` with
the message of the first branch that applies (`error.response`, then
`error.request`, then `error.code === 'ECONNABORTED'`) and with
`code = error.response?.status || 'NETWORK_ERROR'`. -/
def responseErrorInterceptor (error : AxiosError) : JsError :=
  { message :=
      match error.response with
      | some status => statusMessage status
      | none =>
        if error.request then NETWORK_ERROR
        else if error.code = some "ECONNABORTED" then TIMEOUT_MESSAGE
        else NETWORK_ERROR,
    code :=
      match error.response with
      | some status => if status ≠ 0 then ErrorCode.num status else ErrorCode.str "NETWORK_ERROR"
      | none => ErrorCode.str "NETWORK_ERROR" }

/-! ## The reducer with its exceptions -/

/-- The `type` string of an action. -/
def Action.type : Action → String
  | Action.SET_THEME _ => "SET_THEME"
  | Action.TOGGLE_THEME => "TOGGLE_THEME"
  | Action.SET_CURRENT_CATEGORY _ => "SET_CURRENT_CATEGORY"
  | Action.SET_NEWS_DATA _ _ => "SET_NEWS_DATA"
  | Action.APPEND_NEWS_DATA _ _ => "APPEND_NEWS_DATA"
  | Action.SET_LOADING _ => "SET_LOADING"
  | Action.SET_ERROR _ => "SET_ERROR"
  | Action.CLEAR_ERROR => "CLEAR_ERROR"
  | Action.SET_SEARCH_KEYWORD _ => "SET_SEARCH_KEYWORD"
  | Action.SET_SEARCH_RESULTS _ => "SET_SEARCH_RESULTS"
  | Action.SET_SEARCH_LOADING _ => "SET_SEARCH_LOADING"
  | Action.CLEAR_SEARCH => "CLEAR_SEARCH"
  | Action.SET_FAVORITES _ => "SET_FAVORITES"
  | Action.ADD_FAVORITE _ => "ADD_FAVORITE"
  | Action.REMOVE_FAVORITE _ => "REMOVE_FAVORITE"
  | Action.TOGGLE_SIDEBAR => "TOGGLE_SIDEBAR"
  | Action.SET_SHOW_SCROLL_TOP _ => "SET_SHOW_SCROLL_TOP"
  | Action.SET_PAGINATION _ => "SET_PAGINATION"
  | Action.RESET_PAGINATION => "RESET_PAGINATION"
  | Action.other type => type

/-- The values of `ActionTypes`. -/
def declaredActionTypes : List String :=
  [ "SET_THEME", "TOGGLE_THEME", "SET_CURRENT_CATEGORY", "SET_NEWS_DATA", "APPEND_NEWS_DATA",
    "SET_LOADING", "SET_ERROR", "CLEAR_ERROR", "SET_SEARCH_KEYWORD", "SET_SEARCH_RESULTS",
    "SET_SEARCH_LOADING", "CLEAR_SEARCH", "SET_FAVORITES", "ADD_FAVORITE", "REMOVE_FAVORITE",
    "TOGGLE_SIDEBAR", "SET_SHOW_SCROLL_TOP", "SET_PAGINATION", "RESET_PAGINATION" ]

/-- Whether `state.newsData[category] || []` is a list: the category is an own key of
`newsData`, or it names no member of `Object.prototype` (the read is `undefined`). -/
def readsAsList (newsData : JsObject (List Article)) (category : String) : Prop :=
  (objGet newsData category).isSome = true ∨ category ∉ objectPrototypeKeys

instance (newsData : JsObject (List Article)) (category : String) :
    Decidable (readsAsList newsData category) := by
  unfold readsAsList; infer_instance

/-- Models `appReducer(state, action)` together with the one exception it can throw on a
state and a payload of the right types: `APPEND_NEWS_DATA` spreads
`state.newsData[category] || []`, which is a function or `Object.prototype` itself,
and not iterable, when the category is no own key and names a member of
`Object.prototype`. Everywhere else the result is that of `appReducer`. -/
def appReducerChecked (state : AppState) (action : Action) : Except JsError AppState :=
  match action with
  | Action.APPEND_NEWS_DATA category _ =>
    if readsAsList state.newsData category then Except.ok (appReducer state action)
    else Except.error (typeError "is not iterable")
  | _ => Except.ok (appReducer state action)

/-! ## The storage primitives and the `try` blocks of `Storage` -/

/-- Models `localStorage.getItem(key)`: `none` is `null`; it throws when storage is
disabled. -/
def localStorageGetItem (store : LocalStorage) (key : String) :
    Except JsError (Option StoredItem) :=
  if store.failing then Except.error { message := "SecurityError", code := ErrorCode.undefined }
  else Except.ok (objGet store.items key)

/-- Models `localStorage.setItem(key, text)`: it throws when storage is disabled or the
quota is exceeded. -/
def localStorageSetItem (store : LocalStorage) (key : String) (v : StoredItem) :
    Except JsError LocalStorage :=
  if store.failing then Except.error { message := "SecurityError", code := ErrorCode.undefined }
  else if store.full then
    Except.error { message := "QuotaExceededError", code := ErrorCode.undefined }
  else Except.ok { store with items := setItem store.items key v }

/-- Models `localStorage.removeItem(key)`. -/
def localStorageRemoveItem (store : LocalStorage) (key : String) : Except JsError LocalStorage :=
  if store.failing then Except.error { message := "SecurityError", code := ErrorCode.undefined }
  else Except.ok { store with items := store.items.filter (fun p => !(p.1 == key)) }

/-- Models `JSON.parse(item)`. -/
def jsonParse : StoredItem → Except JsError JsonValue
  | StoredItem.json v => Except.ok v
  | StoredItem.text _ => Except.error { message := "SyntaxError", code := ErrorCode.undefined }

/-- The `try` block of `Storage.get`: `item ? JSON.parse(item) : defaultValue`. -/
def Storage.getBody (store : LocalStorage) (key : String) (defaultValue : JsonValue) :
    Except JsError JsonValue :=
  match localStorageGetItem store key with
  | Except.error e => Except.error e
  | Except.ok none => Except.ok defaultValue
  | Except.ok (some item) =>
    if item = StoredItem.text "" then Except.ok defaultValue else jsonParse item

/-- The `try` block of `Storage.set`. -/
def Storage.setBody (store : LocalStorage) (key : String) (value : JsonValue) :
    Except JsError LocalStorage :=
  localStorageSetItem store key (StoredItem.json value)

/-- The `try` block of `Storage.remove`. -/
def Storage.removeBody (store : LocalStorage) (key : String) : Except JsError LocalStorage :=
  localStorageRemoveItem store key

/-- Models `try { body } catch (error) { handler }` for a body and a handler that yield
a value. -/
def tryCatch {ε α : Type} (body : Except ε α) (handler : ε → α) : α :=
  match body with
  | Except.ok v => v
  | Except.error e => handler e

/-- A store content that yields no value under a key: the access throws, the item is
missing, or its text is empty or cannot be parsed. -/
def noValueUnder (store : LocalStorage) (key : String) : Prop :=
  store.failing = true ∨ objGet store.items key = none ∨
    ∃ raw, objGet store.items key = some (StoredItem.text raw)

/-- Models `Array.isArray(value)` on a parsed value. -/
def JsonValue.isArray : JsonValue → Bool
  | JsonValue.array _ => true
  | _ => false

/-- The `TypeError` of calling one of the array methods `some`, `filter` or `unshift` on
a parsed value that is not an array: reading the method of `null` throws, and on
every other value the method is `undefined`, which cannot be called. -/
def nonListError : JsonValue → JsError
  | JsonValue.null => nullReceiver
  | _ => notAFunction

/-- Favorites with pairwise distinct `uniquekey`s. -/
def distinctFavorites (favorites : List FavoriteRecord) : Prop :=
  (favorites.map (fun item => item.uniquekey)).Nodup

instance (favorites : List FavoriteRecord) : Decidable (distinctFavorites favorites) := by
  unfold distinctFavorites; infer_instance

/-! ## Example worlds -/

/-- An example draw. -/
def exampleDraw : PostDraw :=
  { imageIndex := 0, authorIndex := 0, hasMultiple := false, now := 1700000000000,
    date := "2023-11-14T00:00:00.000Z", processedAt := "2023-11-14T22:13:20.000Z" }

/-- An example world over a millisecond clock: every request takes 50 ms and resolves
to the same two posts; a wait advances the clock. -/
def exampleWorld : World Int :=
  { now := fun s => s
    sleep := fun ms s => s + ms
    transport := fun _ s =>
      (Except.ok (RawResponse.array
        [ some { id := 1, title := "Alpha launch", body := "b1", userId := 1 },
          some { id := 2, title := "Beta", body := "b2", userId := 1 } ]), s + 50)
    draws := fun _ _ => exampleDraw }

/-- ASCII lower-casing, used as `toLowerCase` in examples. -/
def asciiLower (s : String) : String := String.mk (s.toList.map Char.toLower)

/-- The request `{ type, page: 1, pageSize: 20, useCache }`. -/
def firstPage (type : String) (useCache : Bool) : ListParams :=
  { type := some type, page := some 1, pageSize := some 20, useCache := some useCache }

/-- A wait that leaves the outside world as it is (used in examples). -/
def noSleep {σ : Type} : Nat → σ → σ := fun _ s => s

/-- An example operation over a call counter: it fails with a 500 error while fewer
than `m` calls have been made and returns 42 afterwards. -/
def flakyOp (m : Nat) : Nat → Except JsError Nat × Nat := fun n =>
  (if n < m then Except.error { message := "server", code := ErrorCode.num 500 }
   else Except.ok 42, n + 1)

/-- An example operation that fails with a 500 error on every call; the message
carries the number of the call. -/
def failingOp : Nat → Except JsError Nat × Nat := fun n =>
  (Except.error { message := toString n, code := ErrorCode.num 500 }, n + 1)

/-- An example operation that fails with a 401 error on every call. -/
def unauthorizedOp : Nat → Except JsError Nat × Nat := fun n =>
  (Except.error { message := "API密钥无效", code := ErrorCode.num 401 }, n + 1)

/-- The example run `getNewsList({ type: 'top', page: 1, pageSize: 20, useCache: true })`
on an empty cache at clock reading 0. -/
def exampleTopRun : ServiceRun Int NewsResult :=
  getNewsList exampleWorld (firstPage "top" true) [] 0

/-- The example run `getNewsList({ type: 'guonei', page: 1, pageSize: 20, useCache: true })`
made right after `exampleTopRun`. -/
def exampleGuoneiRun : ServiceRun Int NewsResult :=
  getNewsList exampleWorld (firstPage "guonei" true) exampleTopRun.cache exampleTopRun.world

/-- The example run `getNewsList({ type: 'top', page: 1, pageSize: 20, useCache: false })`
on an empty cache at clock reading 0. -/
def exampleUncachedRun : ServiceRun Int NewsResult :=
  getNewsList exampleWorld (firstPage "top" false) [] 0

/-- An example article, the transform of post 1. -/
def exampleArticle : Article :=
  processPost "top" exampleDraw { id := 1, title := "Alpha launch", body := "b1", userId := 1 }

/-- An example state: `top` holds one article and a load is in flight
(`loading = true`). -/
def exampleLoadingState : AppState :=
  { initialState with newsData := [("top", [exampleArticle])], loading := true }

/-- An example world in which every request is rejected with a 500 error after 50 ms. -/
def failingWorld : World Int :=
  { now := fun s => s
    sleep := fun ms s => s + ms
    transport := fun _ s =>
      (Except.error { message := "服务器内部错误", code := ErrorCode.num 500 }, s + 50)
    draws := fun _ _ => exampleDraw }

/-- An example state: `top` holds one article, page 1 is loaded and nothing is in
flight. -/
def exampleLoadedState : AppState :=
  { initialState with newsData := [("top", [exampleArticle])] }

/-- An example state: the current category is `top`, and `keji` holds one article. -/
def exampleTwoCategoryState : AppState :=
  { initialState with
    newsData := [("top", [exampleArticle]), ("keji", [exampleArticle])],
    pagination := { page := 3, hasMore := false } }

/-- An example post record. -/
def examplePost : Post := { id := 7, title := "Gamma", body := "b7", userId := 2 }

/-- An example world over a millisecond clock whose provider answers a request for page
`j` with `count j` copies of the example post, after 50 ms. -/
def countWorld (count : Int → Nat) : World Int :=
  { now := fun s => s
    sleep := fun ms s => s + ms
    transport := fun req s =>
      match requestedPage req with
      | some (JsVal.num j) =>
        (Except.ok (RawResponse.array ((List.replicate (count j) examplePost).map some)), s + 50)
      | _ => (Except.ok RawResponse.notArray, s + 50)
    draws := fun _ _ => exampleDraw }

/-- The example provider with two full pages and a third page of three posts. -/
def twoFullPages : Int → Nat := fun j => if j ≤ 2 then 20 else 3

/-- An empty storage that works. -/
def emptyStorage : LocalStorage := { items := [], failing := false, full := false }

/-- Eleven pairwise distinct example keywords. -/
def elevenKeywords : List String :=
  ["k1", "k2", "k3", "k4", "k5", "k6", "k7", "k8", "k9", "k10", "k11"]

/-- A storage whose read history is `["n1", "n2"]`. -/
def readStore : LocalStorage :=
  { items :=
      [(ReadHistoryManager.KEY,
        StoredItem.json (JsonValue.array [JsonElem.str "n1", JsonElem.str "n2"]))],
    failing := false, full := false }

/-- A storage that holds the given value under the given key and nothing else. -/
def storeWith (key : String) (item : StoredItem) : LocalStorage :=
  { items := [(key, item)], failing := false, full := false }

/-- A storage in which every access throws. -/
def disabledStorage : LocalStorage := { items := [], failing := true, full := false }

/-- An example favorite record, of the example article. -/
def exampleFavorite : FavoriteRecord :=
  { toArticle := exampleArticle, favoriteTime := "2023-11-14T22:13:20.000Z" }

/-- An example state whose only favorite is the example favorite. -/
def exampleFavoriteState : AppState := { initialState with favorites := [exampleFavorite] }

/-- The draw of a later transform: the clock has advanced by a minute. -/
def laterDraw : PostDraw := { exampleDraw with now := 1700000060000 }

/-- A timeout as axios reports it: the request was sent, no response arrived, and the
code is `'ECONNABORTED'`. -/
def timeoutError : AxiosError :=
  { response := none, request := true, code := some "ECONNABORTED" }

/-! ## Theorems -/

section RetryLemmas

variable {σ α : Type}

theorem withRetryLoop_ok (sleep : Nat → σ → σ) (op : σ → Except JsError α × σ)
    (N D n i : Nat) (le : Option JsError) (s s' : σ) (v : α)
    (h : op s = (Except.ok v, s')) :
    withRetryLoop sleep op N D (n + 1) i le s =
      { result := Completion.returned v, calls := 1, waits := [], final := s' } := by
  simp [withRetryLoop, h]

theorem withRetryLoop_stop (sleep : Nat → σ → σ) (op : σ → Except JsError α × σ)
    (N D n i : Nat) (le : Option JsError) (s s' : σ) (e : JsError)
    (h : op s = (Except.error e, s'))
    (hstop : i = N ∨ e.code = ErrorCode.num 401 ∨ e.code = ErrorCode.num 403) :
    withRetryLoop sleep op N D (n + 1) i le s =
      { result := Completion.threw e, calls := 1, waits := [], final := s' } := by
  simp [withRetryLoop, h, hstop]

theorem withRetryLoop_retry (sleep : Nat → σ → σ) (op : σ → Except JsError α × σ)
    (N D n i : Nat) (le : Option JsError) (s s' : σ) (e : JsError)
    (hi : i ≠ N) (h : op s = (Except.error e, s')) (hr : e.retryable) :
    withRetryLoop sleep op N D (n + 1) i le s =
      (withRetryLoop sleep op N D n (i + 1) (some e) (sleep (D * 2 ^ i) s')).afterRetry
        (D * 2 ^ i) := by
  have h2 : ¬ (i = N ∨ e.code = ErrorCode.num 401 ∨ e.code = ErrorCode.num 403) := by
    rintro (h | h | h)
    · exact hi h
    · exact hr.1 h
    · exact hr.2 h
  simp [withRetryLoop, h, h2]

theorem waitsFrom_succ (D i m : Nat) :
    waitsFrom D i (m + 1) = (D * 2 ^ i) :: waitsFrom D (i + 1) m := by
  unfold waitsFrom
  rw [List.range_succ_eq_map]
  simp only [List.map_cons, List.map_map, Nat.add_zero]
  congr 1
  apply List.map_congr_left
  intro j _
  simp only [Function.comp]
  congr 2
  omega

theorem waitsFrom_length (D i m : Nat) : (waitsFrom D i m).length = m := by
  simp [waitsFrom]

theorem sum_waitsFrom_zero (D m : Nat) : (waitsFrom D 0 m).sum = D * (2 ^ m - 1) := by
  unfold waitsFrom
  induction m with
  | zero => simp
  | succ m ih =>
    rw [List.range_succ, List.map_append, List.sum_append, ih]
    simp only [List.map_cons, List.map_nil, List.sum_cons, List.sum_nil, Nat.zero_add,
      Nat.add_zero]
    have h1 : 1 ≤ 2 ^ m := Nat.one_le_two_pow
    have h2 : 2 ^ (m + 1) = 2 ^ m + 2 ^ m := by rw [pow_succ]; omega
    rw [h2, ← Nat.mul_add]
    congr 1
    omega

theorem afterRetry_afterRetries (w : Nat) (ws : List Nat) (r : RetryRun σ α) :
    (r.afterRetries ws).afterRetry w = r.afterRetries (w :: ws) := by
  simp [RetryRun.afterRetry, RetryRun.afterRetries]
  omega

theorem attemptOutcome_step (sleep : Nat → σ → σ) (op : σ → Except JsError α × σ)
    (D : Nat) (s : σ) (k : Nat) (r : Except JsError α)
    (h : attemptOutcome sleep op D s k = r) :
    op (attemptState sleep op D s k) = (r, (op (attemptState sleep op D s k)).2) := by
  unfold attemptOutcome at h
  exact Prod.ext h rfl

/-- After `m` retried failures from loop index `i`, the loop stands at index `i + m`
in the state before attempt `i + m`, having recorded `m` calls and the `m` waits. -/
theorem withRetryLoop_prefix (sleep : Nat → σ → σ) (op : σ → Except JsError α × σ)
    (N D : Nat) (s : σ) :
    ∀ (m i n : Nat) (le : Option JsError),
      (∀ k, i ≤ k → k < i + m →
        ∃ e, attemptOutcome sleep op D s k = Except.error e ∧ e.retryable) →
      i + m ≤ N →
      ∃ le', withRetryLoop sleep op N D (n + m) i le (attemptState sleep op D s i) =
        (withRetryLoop sleep op N D n (i + m) le'
          (attemptState sleep op D s (i + m))).afterRetries (waitsFrom D i m) := by
  intro m
  induction m with
  | zero =>
    intro i n le _ _
    exact ⟨le, by simp [waitsFrom, RetryRun.afterRetries]⟩
  | succ m ih =>
    intro i n le hfail hle
    obtain ⟨e, he, hr⟩ := hfail i (Nat.le_refl i) (by omega)
    have hstep := attemptOutcome_step sleep op D s i _ he
    have hne : i ≠ N := by omega
    obtain ⟨le', hrec⟩ := ih (i + 1) n (some e)
      (fun k hk1 hk2 => hfail k (by omega) (by omega)) (by omega)
    refine ⟨le', ?_⟩
    have hn : n + (m + 1) = (n + m) + 1 := by omega
    rw [hn, withRetryLoop_retry sleep op N D (n + m) i le _ _ e hne hstep hr]
    have hst : sleep (D * 2 ^ i) (op (attemptState sleep op D s i)).2 =
        attemptState sleep op D s (i + 1) := rfl
    rw [hst, hrec, afterRetry_afterRetries, waitsFrom_succ]
    have hi : i + 1 + m = i + (m + 1) := by omega
    rw [hi]

end RetryLemmas

section RetryClaims

variable {σ α : Type}

/-- C1: if each of the `N + 1` attempts fails with an error whose code is neither 401
nor 403, `withRetry(operation, N, D)` invokes the operation exactly `N + 1` times and
throws the error of the last attempt (after the `N` backoff waits). -/
theorem withRetry_exhausted (sleep : Nat → σ → σ) (op : σ → Except JsError α × σ)
    (N D : Nat) (s : σ)
    (hfail : ∀ k, k ≤ N →
      ∃ e, attemptOutcome sleep op D s k = Except.error e ∧ e.retryable) :
    (withRetry sleep op N D s).calls = N + 1 ∧
    (withRetry sleep op N D s).waits.length = N ∧
    ∃ e, attemptOutcome sleep op D s N = Except.error e ∧
      (withRetry sleep op N D s).result = Completion.threw e := by
  obtain ⟨le', hpre⟩ := withRetryLoop_prefix sleep op N D s N 0 1 none
    (fun k _ hk => hfail k (by omega)) (by omega)
  obtain ⟨e, he, _⟩ := hfail N (Nat.le_refl N)
  have hstep := attemptOutcome_step sleep op D s N _ he
  have hrun : withRetry sleep op N D s =
      (RetryRun.mk (Completion.threw e) 1 []
        (op (attemptState sleep op D s N)).2).afterRetries (waitsFrom D 0 N) := by
    unfold withRetry
    have h1 : N + 1 = 1 + N := by omega
    rw [h1]
    simp only [Nat.zero_add, attemptState] at hpre
    rw [hpre]
    have h2 : (1 : Nat) = 0 + 1 := rfl
    rw [h2, withRetryLoop_stop sleep op N D 0 N le' _ _ e hstep (Or.inl rfl)]
  refine ⟨?_, ?_, e, he, ?_⟩
  · rw [hrun]; simp [RetryRun.afterRetries, waitsFrom_length]; omega
  · rw [hrun]; simp [RetryRun.afterRetries, waitsFrom_length]
  · rw [hrun]; rfl

/-- Witness for C1: an operation that fails with a 500 error on every call, retried
with `maxRetries = 2`, is invoked three times and throws the third error. -/
theorem withRetry_exhausted_witness :
    (withRetry noSleep failingOp 2 1000 0).calls = 3 ∧
    (withRetry noSleep failingOp 2 1000 0).waits.length = 2 ∧
    ∃ e, attemptOutcome noSleep failingOp 1000 0 2 = Except.error e ∧
      (withRetry noSleep failingOp 2 1000 0).result = Completion.threw e :=
  withRetry_exhausted noSleep failingOp 2 1000 0
    (fun _ _ => ⟨_, rfl, by simp [JsError.retryable]⟩)

/-- C2: when the first `k` attempts fail with retryable errors and attempt `k + 1`
fails with an error `e` whose code is 401 or 403, `withRetry` throws exactly `e`
after `k + 1` invocations, with no wait after that failure (only the `k` earlier
waits, the outside world left as the failing attempt left it); an operation that
fails with 401 in every state is invoked exactly once. -/
theorem withRetry_fail_fast (sleep : Nat → σ → σ) (op : σ → Except JsError α × σ)
    (N D : Nat) (s : σ) :
    (∀ (k : Nat) (e : JsError), k ≤ N →
      (∀ j, j < k → ∃ e', attemptOutcome sleep op D s j = Except.error e' ∧ e'.retryable) →
      attemptOutcome sleep op D s k = Except.error e →
      (e.code = ErrorCode.num 401 ∨ e.code = ErrorCode.num 403) →
      (withRetry sleep op N D s).result = Completion.threw e ∧
      (withRetry sleep op N D s).calls = k + 1 ∧
      (withRetry sleep op N D s).waits = (List.range k).map (fun i => D * 2 ^ i) ∧
      (withRetry sleep op N D s).final = (op (attemptState sleep op D s k)).2) ∧
    ((∀ s', ∃ e, (op s').1 = Except.error e ∧ e.code = ErrorCode.num 401) →
      (withRetry sleep op N D s).calls = 1 ∧ (withRetry sleep op N D s).waits = []) := by
  have main : ∀ (k : Nat) (e : JsError), k ≤ N →
      (∀ j, j < k → ∃ e', attemptOutcome sleep op D s j = Except.error e' ∧ e'.retryable) →
      attemptOutcome sleep op D s k = Except.error e →
      (e.code = ErrorCode.num 401 ∨ e.code = ErrorCode.num 403) →
      withRetry sleep op N D s =
        (RetryRun.mk (Completion.threw e) 1 []
          (op (attemptState sleep op D s k)).2).afterRetries (waitsFrom D 0 k) := by
    intro k e hk hpre he hterm
    obtain ⟨le', hp⟩ := withRetryLoop_prefix sleep op N D s k 0 (N - k + 1) none
      (fun j _ hj => hpre j (by omega)) (by omega)
    have hstep := attemptOutcome_step sleep op D s k _ he
    unfold withRetry
    have h1 : N + 1 = N - k + 1 + k := by omega
    rw [h1]
    have h0 : attemptState sleep op D s 0 = s := rfl
    simp only [Nat.zero_add, h0] at hp
    rw [hp, withRetryLoop_stop sleep op N D (N - k) k le' _ _ e hstep (Or.inr hterm)]
  constructor
  · intro k e hk hpre he hterm
    rw [main k e hk hpre he hterm]
    refine ⟨rfl, ?_, ?_, rfl⟩
    · simp [RetryRun.afterRetries, waitsFrom_length]; omega
    · simp [RetryRun.afterRetries, waitsFrom]
  · intro hall
    obtain ⟨e, he, hcode⟩ := hall s
    have h0 := main 0 e (Nat.zero_le N) (fun j hj => absurd hj (Nat.not_lt_zero j)) he
      (Or.inl hcode)
    rw [h0]
    simp [RetryRun.afterRetries, waitsFrom]

/-- Witness for C2: an operation that always fails with 401, retried with
`maxRetries = 3`, is invoked once and nothing is waited for. -/
theorem withRetry_fail_fast_witness :
    (withRetry noSleep unauthorizedOp 3 1000 0).calls = 1 ∧
    (withRetry noSleep unauthorizedOp 3 1000 0).waits = [] :=
  (withRetry_fail_fast noSleep unauthorizedOp 3 1000 0).2
    (fun _ => ⟨_, rfl, rfl⟩)

/-- C3: when the first `m < N` attempts fail with retryable errors and attempt
`m + 1` succeeds with `v`, `withRetry(operation, N, D)` returns `v` after exactly
`m + 1` invocations, having waited `D * 2 ^ i` after the failure of attempt `i + 1`
for `i = 0 .. m - 1`, a cumulative wait of `D * (2 ^ m - 1)`. -/
theorem withRetry_succeeds_after (sleep : Nat → σ → σ) (op : σ → Except JsError α × σ)
    (N D m : Nat) (s : σ) (v : α) (hm : m < N)
    (hfail : ∀ j, j < m →
      ∃ e, attemptOutcome sleep op D s j = Except.error e ∧ e.retryable)
    (hok : attemptOutcome sleep op D s m = Except.ok v) :
    (withRetry sleep op N D s).result = Completion.returned v ∧
    (withRetry sleep op N D s).calls = m + 1 ∧
    (withRetry sleep op N D s).waits = (List.range m).map (fun i => D * 2 ^ i) ∧
    (withRetry sleep op N D s).waits.sum = D * (2 ^ m - 1) := by
  obtain ⟨le', hp⟩ := withRetryLoop_prefix sleep op N D s m 0 (N - m + 1) none
    (fun j _ hj => hfail j (by omega)) (by omega)
  have hstep := attemptOutcome_step sleep op D s m _ hok
  have hrun : withRetry sleep op N D s =
      (RetryRun.mk (Completion.returned v) 1 []
        (op (attemptState sleep op D s m)).2).afterRetries (waitsFrom D 0 m) := by
    unfold withRetry
    have h1 : N + 1 = N - m + 1 + m := by omega
    rw [h1]
    have h0 : attemptState sleep op D s 0 = s := rfl
    simp only [Nat.zero_add, h0] at hp
    rw [hp, withRetryLoop_ok sleep op N D (N - m) m le' _ _ v hstep]
  have hw : waitsFrom D 0 m = (List.range m).map (fun i => D * 2 ^ i) := by
    simp [waitsFrom]
  rw [hrun]
  refine ⟨rfl, ?_, ?_, ?_⟩
  · simp [RetryRun.afterRetries, waitsFrom_length]; omega
  · simp [RetryRun.afterRetries, hw]
  · simp only [RetryRun.afterRetries, List.append_nil]
    exact sum_waitsFrom_zero D m

/-- Witness for C3: an operation failing twice with a 500 error and then returning 42,
retried with `maxRetries = 3` and a base delay of 1000 ms, returns 42 after three
invocations and waits of 1000 and 2000 ms. -/
theorem withRetry_succeeds_after_witness :
    (2 < 3) ∧
    (withRetry noSleep (flakyOp 2) 3 1000 0).result = Completion.returned 42 ∧
    (withRetry noSleep (flakyOp 2) 3 1000 0).calls = 2 + 1 ∧
    (withRetry noSleep (flakyOp 2) 3 1000 0).waits =
      (List.range 2).map (fun i => 1000 * 2 ^ i) ∧
    (withRetry noSleep (flakyOp 2) 3 1000 0).waits.sum = 1000 * (2 ^ 2 - 1) :=
  ⟨by decide, withRetry_succeeds_after noSleep (flakyOp 2) 3 1000 2 0 42 (by decide)
    (fun j hj => by
      have hj' : j = 0 ∨ j = 1 := by omega
      rcases hj' with rfl | rfl <;> exact ⟨_, rfl, by decide⟩)
    rfl⟩

end RetryClaims

section CacheLemmas

variable {α : Type}

theorem mapGet_eq_none_iff (c : Cache α) (s : String) :
    mapGet c s = none ↔ ∀ e, (s, e) ∉ c := by
  unfold mapGet
  rw [Option.map_eq_none', List.find?_eq_none]
  constructor
  · intro h e he
    exact h (s, e) he (by simp)
  · intro h p hp hps
    have hk : p.1 = s := by simpa using hps
    exact h p.2 (by rw [← hk]; exact hp)

theorem mapGet_some_mem (c : Cache α) (s : String) (e : CacheEntry α)
    (h : mapGet c s = some e) : (s, e) ∈ c := by
  unfold mapGet at h
  rw [Option.map_eq_some'] at h
  obtain ⟨p, hp, he⟩ := h
  have hmem := List.mem_of_find?_eq_some hp
  have hk : p.1 = s := by simpa using List.find?_some hp
  rw [← hk, ← he]
  exact hmem

theorem mem_mapSet_self (c : Cache α) (k : String) (e : CacheEntry α) :
    (k, e) ∈ mapSet c k e := by
  unfold mapSet
  split
  · next h =>
    rw [List.any_eq_true] at h
    obtain ⟨p, hp, hk⟩ := h
    rw [List.mem_map]
    exact ⟨p, hp, by simp [hk]⟩
  · simp

theorem mem_mapSet_iff (c : Cache α) (k : String) (e : CacheEntry α)
    (k' : String) (e' : CacheEntry α) :
    (k', e') ∈ mapSet c k e ↔
      (k' = k ∧ e' = e) ∨ (k' ≠ k ∧ (k', e') ∈ c) := by
  constructor
  · intro h
    unfold mapSet at h
    split at h
    · rw [List.mem_map] at h
      obtain ⟨p, hp, hpe⟩ := h
      by_cases hk : p.1 = k
      · simp [hk] at hpe
        exact Or.inl ⟨hpe.1.symm, hpe.2.symm⟩
      · simp [hk] at hpe
        rw [hpe] at hp hk
        exact Or.inr ⟨hk, hp⟩
    · rw [List.mem_append] at h
      rcases h with h | h
      · by_cases hk : k' = k
        · next hany =>
          exfalso
          apply hany
          rw [List.any_eq_true]
          exact ⟨(k', e'), h, by simp [hk]⟩
        · exact Or.inr ⟨hk, h⟩
      · simp at h
        exact Or.inl h
  · rintro (⟨rfl, rfl⟩ | ⟨hk, h⟩)
    · exact mem_mapSet_self c k' e'
    · unfold mapSet
      split
      · rw [List.mem_map]
        exact ⟨(k', e'), h, by simp [hk]⟩
      · exact List.mem_append_left _ h

theorem mem_mapDelete_iff (c : Cache α) (k k' : String) (e' : CacheEntry α) :
    (k', e') ∈ mapDelete c k ↔ (k', e') ∈ c ∧ k' ≠ k := by
  unfold mapDelete
  simp [List.mem_filter]

theorem mapGet_mapSet_self (c : Cache α) (k : String) (e : CacheEntry α) :
    mapGet (mapSet c k e) k = some e := by
  cases h : mapGet (mapSet c k e) k with
  | none =>
    exact absurd (mem_mapSet_self c k e) ((mapGet_eq_none_iff _ _).1 h e)
  | some e' =>
    have hm := mapGet_some_mem _ _ _ h
    rw [mem_mapSet_iff] at hm
    rcases hm with ⟨_, rfl⟩ | ⟨hk, _⟩
    · rfl
    · exact absurd rfl hk

/-- A call that neither sets nor clears the entry of `s`, made no later than `t'`,
keeps this invariant: every entry under `s` is `E`, and if there is none then `E` is
expired at `t'`. -/
theorem cacheOp_keeps_entry (s : String) (E : CacheEntry α) (t' : Int) (c : Cache α)
    (τ : Int) (op : CacheOp α) (hτ : τ ≤ t') (hop : op.setsOrClears s = false)
    (h1 : ∀ e', (s, e') ∈ c → e' = E)
    (h2 : (∀ e', (s, e') ∉ c) → cacheTimeout ≤ t' - E.timestamp) :
    (∀ e', (s, e') ∈ op.run c τ → e' = E) ∧
    ((∀ e', (s, e') ∉ op.run c τ) → cacheTimeout ≤ t' - E.timestamp) := by
  cases op with
  | get key =>
    simp only [CacheOp.run, CacheManager.get]
    cases hg : mapGet c key with
    | none => exact ⟨h1, h2⟩
    | some cached =>
      by_cases hf : τ - cached.timestamp < cacheTimeout
      · simp only [hf, if_true]
        exact ⟨h1, h2⟩
      · simp only [hf, if_false]
        constructor
        · intro e' he'
          exact h1 e' ((mem_mapDelete_iff _ _ _ _).1 he').1
        · intro hnone
          by_cases hk : s = key
          · have hm := mapGet_some_mem c key cached hg
            rw [← hk] at hm
            have hE := h1 cached hm
            rw [hE] at hf
            omega
          · apply h2
            intro e' he'
            exact hnone e' ((mem_mapDelete_iff _ _ _ _).2 ⟨he', hk⟩)
  | set key data =>
    have hk : s ≠ key := by
      intro h
      simp [CacheOp.setsOrClears, h] at hop
    simp only [CacheOp.run, CacheManager.set]
    constructor
    · intro e' he'
      rcases (mem_mapSet_iff _ _ _ _ _).1 he' with ⟨h, _⟩ | ⟨_, h⟩
      · exact absurd h hk
      · exact h1 e' h
    · intro hnone
      apply h2
      intro e' he'
      exact hnone e' ((mem_mapSet_iff _ _ _ _ _).2 (Or.inr ⟨hk, he'⟩))
  | clear key =>
    cases key with
    | none => simp [CacheOp.setsOrClears] at hop
    | some k =>
      simp only [CacheOp.setsOrClears, Bool.or_eq_false_iff, beq_eq_false_iff_ne] at hop
      have hk : s ≠ k := fun h => hop.2 h.symm
      simp only [CacheOp.run, CacheManager.clear, hop.1, ne_eq, not_false_eq_true, if_true]
      constructor
      · intro e' he'
        exact h1 e' ((mem_mapDelete_iff _ _ _ _).1 he').1
      · intro hnone
        apply h2
        intro e' he'
        exact hnone e' ((mem_mapDelete_iff _ _ _ _).2 ⟨he', hk⟩)
  | clearExpired =>
    simp only [CacheOp.run, CacheManager.clearExpired]
    constructor
    · intro e' he'
      exact h1 e' (List.mem_filter.1 he').1
    · intro hnone
      by_cases hex : ∃ e', (s, e') ∈ c
      · obtain ⟨e', he'⟩ := hex
        have hE := h1 e' he'
        have hnot := hnone e'
        rw [List.mem_filter] at hnot
        simp only [he', true_and, Bool.not_eq_true', decide_eq_false_iff_not, not_not] at hnot
        rw [hE] at hnot
        omega
      · apply h2
        intro e' he'
        exact hex ⟨e', he'⟩

theorem runCacheOps_keeps_entry (s : String) (E : CacheEntry α) (t' : Int)
    (ops : List (Int × CacheOp α)) :
    ∀ (c : Cache α),
      (∀ p, p ∈ ops → p.1 ≤ t' ∧ p.2.setsOrClears s = false) →
      (∀ e', (s, e') ∈ c → e' = E) →
      ((∀ e', (s, e') ∉ c) → cacheTimeout ≤ t' - E.timestamp) →
      (∀ e', (s, e') ∈ runCacheOps c ops → e' = E) ∧
      ((∀ e', (s, e') ∉ runCacheOps c ops) → cacheTimeout ≤ t' - E.timestamp) := by
  induction ops with
  | nil => intro c _ h1 h2; exact ⟨h1, h2⟩
  | cons p ops ih =>
    intro c hops h1 h2
    have hp := hops p (List.mem_cons_self _ _)
    obtain ⟨k1, k2⟩ := cacheOp_keeps_entry s E t' c p.1 p.2 hp.1 hp.2 h1 h2
    exact ih (p.2.run c p.1) (fun q hq => hops q (List.mem_cons_of_mem _ hq)) k1 k2

/-- A call that does not set `s` keeps the cache free of entries under `s`. -/
theorem cacheOp_keeps_absent (s : String) (c : Cache α) (τ : Int) (op : CacheOp α)
    (hop : op.sets s = false) (h : ∀ e', (s, e') ∉ c) :
    ∀ e', (s, e') ∉ op.run c τ := by
  intro e' he'
  cases op with
  | get key =>
    simp only [CacheOp.run, CacheManager.get] at he'
    split at he'
    · split at he'
      · exact h e' he'
      · exact h e' ((mem_mapDelete_iff _ _ _ _).1 he').1
    · exact h e' he'
  | set key data =>
    have hk : s ≠ key := by
      intro h
      simp [CacheOp.sets, h] at hop
    simp only [CacheOp.run, CacheManager.set] at he'
    rcases (mem_mapSet_iff _ _ _ _ _).1 he' with ⟨h', _⟩ | ⟨_, h'⟩
    · exact hk h'
    · exact h e' h'
  | clear key =>
    simp only [CacheOp.run, CacheManager.clear] at he'
    split at he'
    · split at he'
      · exact h e' ((mem_mapDelete_iff _ _ _ _).1 he').1
      · simp at he'
    · simp at he'
  | clearExpired =>
    simp only [CacheOp.run, CacheManager.clearExpired] at he'
    exact h e' (List.mem_filter.1 he').1

theorem runCacheOps_keeps_absent (s : String) (ops : List (Int × CacheOp α)) :
    ∀ (c : Cache α), (∀ p, p ∈ ops → p.2.sets s = false) → (∀ e', (s, e') ∉ c) →
      ∀ e', (s, e') ∉ runCacheOps c ops := by
  induction ops with
  | nil => intro c _ h; exact h
  | cons p ops ih =>
    intro c hops h
    exact ih (p.2.run c p.1) (fun q hq => hops q (List.mem_cons_of_mem _ hq))
      (cacheOp_keeps_absent s c p.1 p.2 (hops p (List.mem_cons_self _ _)) h)

end CacheLemmas

section SortLemmas

theorem unitsLe_refl : ∀ a : List Nat, unitsLe a a = true
  | [] => rfl
  | x :: xs => by simp [unitsLe, unitsLe_refl xs]

theorem unitsLe_total : ∀ a b : List Nat, unitsLe a b = true ∨ unitsLe b a = true
  | [], _ => Or.inl rfl
  | _ :: _, [] => Or.inr rfl
  | x :: xs, y :: ys => by
    simp only [unitsLe, Bool.or_eq_true, decide_eq_true_eq, Bool.and_eq_true, beq_iff_eq]
    rcases Nat.lt_trichotomy x y with h | h | h
    · exact Or.inl (Or.inl h)
    · rcases unitsLe_total xs ys with h' | h'
      · exact Or.inl (Or.inr ⟨h, h'⟩)
      · exact Or.inr (Or.inr ⟨h.symm, h'⟩)
    · exact Or.inr (Or.inl h)

theorem unitsLe_trans : ∀ a b c : List Nat,
    unitsLe a b = true → unitsLe b c = true → unitsLe a c = true
  | [], _, _ => fun _ _ => by simp [unitsLe]
  | _ :: _, [], _ => fun h _ => by simp [unitsLe] at h
  | _ :: _, _ :: _, [] => fun _ h => by simp [unitsLe] at h
  | x :: xs, y :: ys, z :: zs => by
    simp only [unitsLe, Bool.or_eq_true, decide_eq_true_eq, Bool.and_eq_true, beq_iff_eq]
    rintro (h1 | ⟨h1, h1'⟩) (h2 | ⟨h2, h2'⟩)
    · exact Or.inl (by omega)
    · exact Or.inl (by omega)
    · exact Or.inl (by omega)
    · exact Or.inr ⟨by omega, unitsLe_trans xs ys zs h1' h2'⟩

theorem unitsLe_antisymm : ∀ a b : List Nat,
    unitsLe a b = true → unitsLe b a = true → a = b
  | [], [] => fun _ _ => rfl
  | [], _ :: _ => fun _ h => by simp [unitsLe] at h
  | _ :: _, [] => fun h _ => by simp [unitsLe] at h
  | x :: xs, y :: ys => by
    simp only [unitsLe, Bool.or_eq_true, decide_eq_true_eq, Bool.and_eq_true, beq_iff_eq]
    rintro (h1 | ⟨h1, h1'⟩) (h2 | ⟨h2, h2'⟩)
    · omega
    · omega
    · omega
    · rw [h1, unitsLe_antisymm xs ys h1' h2']

theorem char_toNat_valid (c : Char) :
    c.toNat < 55296 ∨ (57343 < c.toNat ∧ c.toNat < 1114112) := by
  have h := c.valid
  simp only [UInt32.isValidChar, Nat.isValidChar] at h
  exact h

theorem char_eq_of_toNat_eq (c d : Char) (h : c.toNat = d.toNat) : c = d := by
  apply Char.ext
  apply UInt32.ext
  exact h

theorem utf16_injective : ∀ a b : List Char, utf16 a = utf16 b → a = b
  | [], [] => fun _ => rfl
  | [], d :: ds => fun h => by
    simp only [utf16, utf16Units] at h
    split at h <;> simp at h
  | c :: cs, [] => fun h => by
    simp only [utf16, utf16Units] at h
    split at h <;> simp at h
  | c :: cs, d :: ds => fun h => by
    have hc := char_toNat_valid c
    have hd := char_toNat_valid d
    simp only [utf16, utf16Units] at h
    by_cases h1 : c.toNat < 65536 <;> by_cases h2 : d.toNat < 65536
    · simp only [h1, h2, if_true, List.cons_append, List.nil_append, List.cons.injEq] at h
      rw [char_eq_of_toNat_eq c d h.1, utf16_injective cs ds h.2]
    · simp only [h1, h2, if_true, if_false, List.cons_append, List.nil_append,
        List.cons.injEq] at h
      omega
    · simp only [h1, h2, if_true, if_false, List.cons_append, List.nil_append,
        List.cons.injEq] at h
      omega
    · simp only [h1, h2, if_false, List.cons_append, List.nil_append, List.cons.injEq] at h
      have hcd : c.toNat = d.toNat := by omega
      rw [char_eq_of_toNat_eq c d hcd, utf16_injective cs ds h.2.2]

theorem string_eq_of_toList_eq (a b : String) (h : a.toList = b.toList) : a = b := by
  cases a; cases b
  simp only [String.toList] at h
  rw [h]

theorem jsStringLe_antisymm (a b : String) (h1 : jsStringLe a b) (h2 : jsStringLe b a) :
    a = b :=
  string_eq_of_toList_eq a b (utf16_injective _ _ (unitsLe_antisymm _ _ h1 h2))

/-- Sorting two arrangements of the same keys gives the same array. -/
theorem jsSort_eq_of_perm (k1 k2 : List String) (h : k1.Perm k2) : jsSort k1 = jsSort k2 := by
  haveI : IsAntisymm String jsStringLe := ⟨jsStringLe_antisymm⟩
  haveI : IsTotal String jsStringLe := ⟨fun a b => unitsLe_total _ _⟩
  haveI : IsTrans String jsStringLe := ⟨fun a b c => unitsLe_trans _ _ _⟩
  unfold jsSort
  apply List.eq_of_perm_of_sorted (r := jsStringLe)
  · exact ((List.perm_insertionSort jsStringLe k1).trans h).trans
      (List.perm_insertionSort jsStringLe k2).symm
  · exact List.sorted_insertionSort jsStringLe k1
  · exact List.sorted_insertionSort jsStringLe k2

theorem objGet_of_mem {V : Type} : ∀ (o : JsObject V) (k : String) (v : V),
    (objectKeys o).Nodup → (k, v) ∈ o → objGet o k = some v
  | [], _, _ => fun _ h => by simp at h
  | p :: rest, k, v => by
    intro hnd hmem
    simp only [objectKeys, List.map_cons, List.nodup_cons] at hnd
    rw [List.mem_cons] at hmem
    by_cases hk : p.1 = k
    · rcases hmem with h | h
      · subst h
        simp [objGet]
      · exfalso
        apply hnd.1
        rw [hk]
        exact List.mem_map.2 ⟨(k, v), h, rfl⟩
    · rcases hmem with h | h
      · subst h
        exact absurd rfl hk
      · have ih := objGet_of_mem rest k v hnd.2 h
        simp only [objGet] at ih ⊢
        rw [List.find?_cons_of_neg _ (by simpa using hk)]
        exact ih

theorem foldl_congr_mem {β γ : Type} (f g : β → γ → β) :
    ∀ (l : List γ) (b : β), (∀ x, x ∈ l → ∀ acc, f acc x = g acc x) →
      l.foldl f b = l.foldl g b
  | [], _ => fun _ => rfl
  | x :: xs, b => by
    intro h
    simp only [List.foldl_cons]
    rw [h x (List.mem_cons_self _ _) b]
    exact foldl_congr_mem f g xs _ (fun y hy => h y (List.mem_cons_of_mem _ hy))

end SortLemmas

section CacheClaims

variable {α : Type}

/-- C4: after `set(s, X)` at time `t`, followed by any calls on the cache that neither
set nor clear `s` (made no later than `t'`), `get(s)` at time `t'` returns `X` when
`t' - t < 300000` and `null` when `t' - t >= 300000`; and on a cache manager on which
`s` was never set, `get(s)` returns `null`. -/
theorem cache_get_after_set (c : Cache α) (s : String) (X : α) (t t' : Int) :
    (∀ ops : List (Int × CacheOp α),
      (∀ p, p ∈ ops → p.1 ≤ t' ∧ p.2.setsOrClears s = false) →
      (CacheManager.get (runCacheOps (CacheManager.set c t s (some X)) ops) t' s).1 =
        if t' - t < 300000 then some X else none) ∧
    (∀ ops : List (Int × CacheOp α),
      (∀ p, p ∈ ops → p.2.sets s = false) →
      (CacheManager.get (runCacheOps ([] : Cache α) ops) t' s).1 = none) := by
  constructor
  · intro ops hops
    have hinit1 : ∀ e', (s, e') ∈ CacheManager.set c t s (some X) →
        e' = { data := some X, timestamp := t } := by
      intro e' he'
      rcases (mem_mapSet_iff _ _ _ _ _).1 he' with ⟨_, h⟩ | ⟨h, _⟩
      · exact h
      · exact absurd rfl h
    have hinit2 : (∀ e', (s, e') ∉ CacheManager.set c t s (some X)) →
        cacheTimeout ≤ t' - (CacheEntry.mk (some X) t).timestamp := by
      intro h
      exact absurd (mem_mapSet_self c s _) (h _)
    obtain ⟨k1, k2⟩ := runCacheOps_keeps_entry s _ t' ops _ hops hinit1 hinit2
    have hto : cacheTimeout = 300000 := by decide
    simp only [CacheManager.get]
    cases hg : mapGet (runCacheOps (CacheManager.set c t s (some X)) ops) s with
    | none =>
      have := k2 ((mapGet_eq_none_iff _ _).1 hg)
      simp only [hto] at this
      have hnot : ¬ (t' - t < 300000) := by omega
      simp [hnot]
    | some cached =>
      have hE := k1 cached (mapGet_some_mem _ _ _ hg)
      subst hE
      simp only [hto]
      by_cases hf : t' - t < 300000
      · simp [hf]
      · simp [hf]
  · intro ops hops
    have habs := runCacheOps_keeps_absent s ops ([] : Cache α) hops (by simp)
    have hg := (mapGet_eq_none_iff _ s).2 habs
    simp [CacheManager.get, hg]

/-- Witness for C4: an entry stored at time 1000 is returned by `get` at time 300999
(after an unrelated `set` and a sweep) and `get` on an unused manager returns `null`. -/
theorem cache_get_after_set_witness :
    (CacheManager.get (runCacheOps (CacheManager.set ([] : Cache Nat) 1000 "sig" (some 7))
        [(2000, CacheOp.set "other" (some 1)), (3000, CacheOp.clearExpired)])
      300999 "sig").1 = (if (300999 : Int) - 1000 < 300000 then some 7 else none) ∧
    (CacheManager.get (runCacheOps ([] : Cache Nat) [(2000, CacheOp.set "other" (some 1))])
      300999 "sig").1 = none :=
  ⟨(cache_get_after_set ([] : Cache Nat) "sig" 7 1000 300999).1 _
      (by intro p hp; simp at hp; rcases hp with rfl | rfl <;> decide),
    (cache_get_after_set ([] : Cache Nat) "sig" 7 1000 300999).2 _
      (by intro p hp; simp at hp; subst hp; decide)⟩

/-- C5: two parameter objects (each with distinct property keys) that hold the same
key/value pairs, in whatever property order, get the same signature from
`generateKey` for every url. -/
theorem generateKey_order_independent (url : String) (p q : JsObject JsVal)
    (hp : (objectKeys p).Nodup) (hq : (objectKeys q).Nodup)
    (hsame : ∀ kv, kv ∈ p ↔ kv ∈ q) :
    CacheManager.generateKey url p = CacheManager.generateKey url q := by
  have hpn : p.Nodup := List.Nodup.of_map _ hp
  have hqn : q.Nodup := List.Nodup.of_map _ hq
  have hperm : p.Perm q := (List.perm_ext_iff_of_nodup hpn hqn).2 hsame
  have hkeys : jsSort (objectKeys p) = jsSort (objectKeys q) :=
    jsSort_eq_of_perm _ _ (hperm.map Prod.fst)
  have hget : ∀ k, k ∈ jsSort (objectKeys q) → objGet p k = objGet q k := by
    intro k hk
    have hk' : k ∈ objectKeys q := (List.perm_insertionSort jsStringLe _).mem_iff.1 hk
    obtain ⟨kv, hkv, rfl⟩ := List.mem_map.1 hk'
    rw [objGet_of_mem q kv.1 kv.2 hq hkv, objGet_of_mem p kv.1 kv.2 hp ((hsame kv).2 hkv)]
  unfold CacheManager.generateKey
  simp only
  rw [hkeys]
  congr 2
  apply foldl_congr_mem
  intro k hk acc
  rw [hget k hk]

/-- Witness for C5: `_page`/`_limit` given in either order get the same signature. -/
theorem generateKey_order_independent_witness :
    CacheManager.generateKey "https://jsonplaceholder.typicode.com/posts"
        [("_page", JsVal.num 1), ("_limit", JsVal.num 20)] =
      CacheManager.generateKey "https://jsonplaceholder.typicode.com/posts"
        [("_limit", JsVal.num 20), ("_page", JsVal.num 1)] :=
  generateKey_order_independent _ _ _ (by decide) (by decide)
    (by intro kv; simp only [List.mem_cons, List.mem_singleton, List.mem_nil_iff, or_false]
        exact or_comm)

end CacheClaims

section ServiceLemmas

variable {σ α : Type}

theorem withRetry_calls_pos (sleep : Nat → σ → σ) (op : σ → Except JsError α × σ)
    (N D : Nat) (s : σ) : 0 < (withRetry sleep op N D s).calls := by
  unfold withRetry
  simp only [withRetryLoop]
  split
  · exact Nat.one_pos
  · split
    · exact Nat.one_pos
    · simp [RetryRun.afterRetry]

theorem mapGet_mapDelete_of_ne {β : Type} (c : Cache β) (k k' : String) (h : k' ≠ k) :
    mapGet (mapDelete c k) k' = mapGet c k' := by
  induction c with
  | nil => rfl
  | cons p rest ih =>
    simp only [mapGet, mapDelete] at ih ⊢
    by_cases hp : p.1 = k
    · have hk' : ¬ p.1 = k' := fun h' => h (h'.symm.trans hp)
      rw [List.filter_cons_of_neg (by simpa using hp),
        List.find?_cons_of_neg _ (by simpa using hk')]
      exact ih
    · rw [List.filter_cons_of_pos (by simpa using hp)]
      by_cases hk' : p.1 = k'
      · rw [List.find?_cons_of_pos _ (by simpa using hk'),
          List.find?_cons_of_pos _ (by simpa using hk')]
      · rw [List.find?_cons_of_neg _ (by simpa using hk'),
          List.find?_cons_of_neg _ (by simpa using hk')]
        exact ih

/-- The result of `get` depends on the cache only through the entry under the key. -/
theorem cacheGet_result_congr {β : Type} (c c' : Cache β) (now : Int) (key : String)
    (h : mapGet c key = mapGet c' key) :
    (CacheManager.get c now key).1 = (CacheManager.get c' now key).1 := by
  unfold CacheManager.get
  rw [h]
  cases mapGet c' key with
  | none => rfl
  | some cached => by_cases hf : now - cached.timestamp < cacheTimeout <;> simp [hf]

/-- No list signature equals the pattern string `clearCache` passes as a key. -/
theorem listCacheKey_ne_pattern (p : ListParams) (t : String) :
    listCacheKey p ≠ BASE_URL ++ "/index?.*\"type\":\"" ++ t ++ "\"" := by
  intro h
  have hd := congrArg String.data h
  simp [listCacheKey, CacheManager.generateKey, BASE_URL, String.data_append] at hd

/-- A fresh entry under the request signature is returned without a network call. -/
theorem getNewsList_cache_hit (w : World σ) (p : ListParams) (cache : Cache NewsResult)
    (s : σ) (r : NewsResult) (ts : Int) (huse : p.useCache.getD true = true)
    (hentry : mapGet cache (listCacheKey p) = some { data := some r, timestamp := ts })
    (hfresh : w.now s - ts < cacheTimeout) :
    (getNewsList w p cache s).result = Except.ok r ∧
    (getNewsList w p cache s).networkCalls = 0 ∧
    (getNewsList w p cache s).cache = cache ∧
    (getNewsList w p cache s).world = s := by
  simp [getNewsList, huse, CacheManager.get, hentry, hfresh]

end ServiceLemmas

section SearchLemmas

variable {σ : Type}

theorem mockAuthors_nonempty (i : Fin 8) : mockAuthors.getD i.val "" ≠ "" := by
  revert i
  decide

theorem processPosts_author (type : String) (draw : Nat → PostDraw) :
    ∀ (items : List (Option Post)) (i : Nat) (as : List Article),
      processPosts type draw i items = some as → ∀ a, a ∈ as → a.author_name ≠ ""
  | [], _, as => by
    intro h a ha
    simp only [processPosts, Option.some.injEq] at h
    rw [← h] at ha
    simp at ha
  | none :: _, _, as => by
    intro h
    simp [processPosts] at h
  | some post :: rest, i, as => by
    intro h a ha
    simp only [processPosts, Option.map_eq_some'] at h
    obtain ⟨as', has', rfl⟩ := h
    rw [List.mem_cons] at ha
    rcases ha with rfl | ha
    · exact mockAuthors_nonempty _
    · exact processPosts_author type draw rest (i + 1) as' has' a ha

theorem processJSONPlaceholderData_author (draw : Nat → PostDraw) (response : RawResponse)
    (type : String) (a : Article)
    (ha : a ∈ (processJSONPlaceholderData draw response type).data) : a.author_name ≠ "" := by
  unfold processJSONPlaceholderData at ha
  cases response with
  | notArray => simp at ha
  | array items =>
    simp only at ha
    cases h : processPosts type draw 0 items with
    | none => rw [h] at ha; simp at ha
    | some as =>
      rw [h] at ha
      exact processPosts_author type draw items 0 as h a ha

/-- Every article of an uncached list fetch has an author name from `mockAuthors`,
which is never the empty string. -/
theorem getNewsList_uncached_author (w : World σ) (type : Option String)
    (page pageSize : Option Int) (cache : Cache NewsResult) (s : σ) (r : NewsResult)
    (h : (getNewsList w
      { type := type, page := page, pageSize := pageSize, useCache := some false }
      cache s).result = Except.ok r) :
    ∀ a, a ∈ r.data → a.author_name ≠ "" := by
  intro a ha
  simp only [getNewsList, Option.getD_some, Bool.false_eq_true, if_false] at h
  split at h
  · next response hrun =>
    simp only [Except.ok.injEq] at h
    rw [← h] at ha
    exact processJSONPlaceholderData_author _ _ _ a ha
  · cases h
  · cases h

theorem searchMatches_eq (lower : String → String) (kw : String) (a : Article)
    (ha : a.author_name ≠ "") :
    searchMatches lower kw a = decide (articleMatches lower kw a) := by
  simp only [searchMatches, jsIncludes, articleMatches, containsIgnoringCase, ha, ne_eq,
    not_false_eq_true, decide_True, Bool.true_and]
  by_cases h1 : (lower kw).toList <:+: (lower a.title).toList <;>
    by_cases h2 : (lower kw).toList <:+: (lower a.author_name).toList <;> simp [h1, h2]

theorem jsSlice_nonneg {α : Type} (l : List α) (a b : Nat) :
    jsSlice l (a : Int) ((a : Int) + (b : Int)) = (l.drop a).take b := by
  unfold jsSlice
  have h1 : ¬ ((a : Int) < 0) := by omega
  have h2 : ¬ ((a : Int) + (b : Int) < 0) := by omega
  simp only [h1, h2, if_false]
  by_cases hlen : l.length ≤ a
  · have hk : (min (a : Int) (l.length : Int)).toNat = l.length := by omega
    rw [hk, List.drop_eq_nil_of_le (Nat.le_refl _), List.drop_eq_nil_of_le hlen]
    simp
  · have hk : (min (a : Int) (l.length : Int)).toNat = a := by omega
    rw [hk]
    by_cases hb : a + b ≤ l.length
    · have hf : (min ((a : Int) + (b : Int)) (l.length : Int) - min (a : Int) (l.length : Int)).toNat
          = b := by omega
      rw [hf]
    · have hf : (min ((a : Int) + (b : Int)) (l.length : Int) - min (a : Int) (l.length : Int)).toNat
          = l.length - a := by omega
      rw [hf, List.take_of_length_le (by simp), List.take_of_length_le (by simp; omega)]

theorem mem_page_of_mem {α : Type} (l : List α) (k : Nat) (hk : 0 < k) (a : α) (ha : a ∈ l) :
    ∃ q : Nat, a ∈ (l.drop (q * k)).take k := by
  obtain ⟨i, hi⟩ := List.mem_iff_getElem?.1 ha
  refine ⟨i / k, List.mem_iff_getElem?.2 ⟨i % k, ?_⟩⟩
  rw [List.getElem?_take_of_lt (Nat.mod_lt i hk), List.getElem?_drop]
  have : i / k * k + i % k = i := by
    rw [Nat.mul_comm]; exact Nat.div_add_mod i k
  rw [this]
  exact hi

/-- What `searchNews` returns when the keyword is not blank and the list fetch
succeeded. -/
theorem searchNews_ok (lower : String → String) (w : World σ) (kw : String)
    (type : Option String) (page pageSize : Int) (cache : Cache NewsResult) (s : σ)
    (r : NewsResult) (hkw : trimIsEmpty kw = false)
    (hfetch : (getNewsList w
      { type := some (type.getD "top"), page := some 1, pageSize := some 100,
        useCache := some false } cache s).result = Except.ok r)
    (hsucc : r.success = true) :
    (searchNews lower w
      { keyword := some kw, type := type, page := some page, pageSize := some pageSize }
      cache s).result =
    Except.ok
      { success := true, message := none,
        data := jsSlice (r.data.filter (fun a => decide (articleMatches lower kw a)))
          ((page - 1) * pageSize) ((page - 1) * pageSize + pageSize),
        total := (r.data.filter (fun a => decide (articleMatches lower kw a))).length,
        page := some page, pageSize := some pageSize,
        hasMore := some (decide ((page - 1) * pageSize + pageSize <
          ((r.data.filter (fun a => decide (articleMatches lower kw a))).length : Int))),
        keyword := some kw } := by
  have hne : kw ≠ "" := by
    intro h
    rw [h] at hkw
    simp [trimIsEmpty] at hkw
  have hfilter : r.data.filter (searchMatches lower kw) =
      r.data.filter (fun a => decide (articleMatches lower kw a)) := by
    apply List.filter_congr
    intro a ha
    exact searchMatches_eq lower kw a (getNewsList_uncached_author w _ _ _ cache s r hfetch a ha)
  simp only [searchNews, Option.getD_some, hne, hkw, Bool.false_eq_true, or_self, if_false,
    hfetch, hsucc, hfilter]
  rfl

end SearchLemmas

section ServiceClaims

variable {σ : Type}

/-- C6 (the code departs from the claim): the signature `getNewsList` computes does not
depend on the category. It is the same for every two categories with the same page
and page size; in the example, a request for `guonei` right after a request for `top`
makes no network call and gets the result cached for `top`, whose articles carry the
label of `top` and not the label `国内` of `guonei`. -/
theorem listCacheKey_ignores_category :
    (∀ (c1 c2 : Option String) (page pageSize : Option Int) (u1 u2 : Option Bool),
      listCacheKey { type := c1, page := page, pageSize := pageSize, useCache := u1 } =
        listCacheKey { type := c2, page := page, pageSize := pageSize, useCache := u2 }) ∧
    exampleTopRun.networkCalls = 1 ∧
    exampleGuoneiRun.networkCalls = 0 ∧
    exampleGuoneiRun.result = exampleTopRun.result ∧
    (∃ r, exampleGuoneiRun.result = Except.ok r ∧ r.data ≠ [] ∧
      ∀ a, a ∈ r.data → a.category = CategoryValue.label "头条") ∧
    getCategoryByType "guonei" = CategoryValue.label "国内" := by
  refine ⟨fun _ _ _ _ _ _ => rfl, by decide, by decide, rfl, ⟨_, rfl, by decide, by decide⟩,
    by decide⟩

/-- C7 (the code departs from the claim): `clearCache(type)` with a non-empty type
leaves every list entry in place. The entry under any list signature is the same
before and after, so a following `getNewsList` gives the same result with the same
number of network calls as it would have given without the clear. -/
theorem clearCache_keeps_list_entries (t : String) (ht : t ≠ "") (w : World σ)
    (p : ListParams) (cache : Cache NewsResult) (s : σ) :
    mapGet (clearCache (some t) cache) (listCacheKey p) = mapGet cache (listCacheKey p) ∧
    (getNewsList w p (clearCache (some t) cache) s).result =
      (getNewsList w p cache s).result ∧
    (getNewsList w p (clearCache (some t) cache) s).networkCalls =
      (getNewsList w p cache s).networkCalls := by
  have hget : mapGet (clearCache (some t) cache) (listCacheKey p) =
      mapGet cache (listCacheKey p) := by
    have hpat : (BASE_URL ++ "/index?.*\"type\":\"" ++ t ++ "\"") ≠ "" := by
      intro h
      have hd := congrArg String.data h
      simp [BASE_URL, String.data_append] at hd
    simp only [clearCache, ht, ne_eq, not_false_eq_true, if_true, CacheManager.clear, hpat]
    exact mapGet_mapDelete_of_ne _ _ _ (listCacheKey_ne_pattern p t)
  have hres := cacheGet_result_congr _ _ (w.now s) _ hget
  refine ⟨hget, ?_, ?_⟩
  · by_cases huse : p.useCache.getD true = true
    · simp only [getNewsList, huse, if_true]
      cases h1 : CacheManager.get (clearCache (some t) cache) (w.now s) (listCacheKey p) with
      | mk d1 c1 =>
        cases h2 : CacheManager.get cache (w.now s) (listCacheKey p) with
        | mk d2 c2 =>
          rw [h1, h2] at hres
          simp only at hres
          subst hres
          cases d1 with
          | some cd => rfl
          | none =>
            simp only
            split <;> rfl
    · simp only [getNewsList, huse]
      simp only [Bool.false_eq_true, if_false]
      split <;> rfl
  · by_cases huse : p.useCache.getD true = true
    · simp only [getNewsList, huse, if_true]
      cases h1 : CacheManager.get (clearCache (some t) cache) (w.now s) (listCacheKey p) with
      | mk d1 c1 =>
        cases h2 : CacheManager.get cache (w.now s) (listCacheKey p) with
        | mk d2 c2 =>
          rw [h1, h2] at hres
          simp only at hres
          subst hres
          cases d1 with
          | some cd => rfl
          | none =>
            simp only
            split <;> rfl
    · simp only [getNewsList, huse]
      simp only [Bool.false_eq_true, if_false]
      split <;> rfl

/-- Witness for C7: after the list for `top` was cached, `clearCache('top')` followed by
the same request makes no network call and returns the entry cached before. -/
theorem clearCache_keeps_list_entries_witness :
    "top" ≠ "" ∧
    (getNewsList exampleWorld (firstPage "top" true)
      (clearCache (some "top") exampleTopRun.cache) exampleTopRun.world).networkCalls = 0 ∧
    (getNewsList exampleWorld (firstPage "top" true)
      (clearCache (some "top") exampleTopRun.cache) exampleTopRun.world).result =
        exampleTopRun.result :=
  ⟨by decide,
    (clearCache_keeps_list_entries "top" (by decide) exampleWorld (firstPage "top" true)
      exampleTopRun.cache exampleTopRun.world).2.2.trans (by decide),
    (clearCache_keeps_list_entries "top" (by decide) exampleWorld (firstPage "top" true)
      exampleTopRun.cache exampleTopRun.world).2.1.trans rfl⟩

/-- Counterexample to C8 as stated: a request with `useCache = false` whose network call
succeeds and whose response transforms to a result with `success = true` leaves the
cache without an entry under its signature. -/
theorem getNewsList_uncached_not_stored :
    ∃ r, exampleUncachedRun.result = Except.ok r ∧ r.success = true ∧
      exampleUncachedRun.networkCalls = 1 ∧
      mapGet exampleUncachedRun.cache (listCacheKey (firstPage "top" false)) = none :=
  ⟨_, rfl, by decide, by decide, by decide⟩

/-- C8 (amended): when `useCache` is true (or left out), the request went to the network
and `getNewsList` returned a result `r` with `success = true`, the cache afterwards
holds `r` under the request's signature with `timestamp` the clock reading at return,
and the same request made while that entry is younger than the timeout returns `r`
without a network call. When `useCache` is false the cache is left as it was. -/
theorem getNewsList_stores_on_success (w : World σ) (p : ListParams)
    (cache : Cache NewsResult) (s : σ) :
    (∀ r, p.useCache.getD true = true →
      (getNewsList w p cache s).networkCalls ≠ 0 →
      (getNewsList w p cache s).result = Except.ok r →
      r.success = true →
      mapGet (getNewsList w p cache s).cache (listCacheKey p) =
        some { data := some r, timestamp := w.now (getNewsList w p cache s).world } ∧
      ∀ s2, w.now s2 - w.now (getNewsList w p cache s).world < cacheTimeout →
        (getNewsList w p (getNewsList w p cache s).cache s2).result = Except.ok r ∧
        (getNewsList w p (getNewsList w p cache s).cache s2).networkCalls = 0) ∧
    (p.useCache = some false → (getNewsList w p cache s).cache = cache) := by
  constructor
  · intro r huse hcalls hres hsucc
    have hstored : mapGet (getNewsList w p cache s).cache (listCacheKey p) =
        some { data := some r, timestamp := w.now (getNewsList w p cache s).world } := by
      revert hcalls hres
      simp only [getNewsList, huse, if_true]
      cases h1 : CacheManager.get cache (w.now s) (listCacheKey p) with
      | mk d1 c1 =>
        cases d1 with
        | some cd => intro hcalls; exact absurd rfl hcalls
        | none =>
          simp only
          cases hrun : (withRetry w.sleep (httpClientGet w (BASE_URL ++ "/posts")
              (listRequestParams (p.page.getD 1) (p.pageSize.getD 20))) 2 1000 s).result with
          | returned response =>
            simp only
            intro _ hres
            have hr := Except.ok.inj hres
            rw [hr, hsucc]
            simp only [Bool.and_self, if_true, CacheManager.set]
            exact mapGet_mapSet_self _ _ _
          | threw e => intro _ hres; cases hres
          | threwUndefined => intro _ hres; cases hres
    refine ⟨hstored, ?_⟩
    intro s2 hfresh
    have hhit := getNewsList_cache_hit w p _ s2 r _ huse hstored hfresh
    exact ⟨hhit.1, hhit.2.1⟩
  · intro huse
    simp only [getNewsList, huse, Option.getD_some, Bool.false_eq_true, if_false,
      Bool.false_and]
    split <;> rfl

/-- Witness for C8 (amended): the example request for `top` with `useCache = true` is
stored with the clock reading 50 of its return, and repeated at clock reading 60000 it
is answered from the cache. -/
theorem getNewsList_stores_on_success_witness :
    ∃ r, exampleTopRun.result = Except.ok r ∧
      mapGet exampleTopRun.cache (listCacheKey (firstPage "top" true)) =
        some { data := some r, timestamp := 50 } ∧
      (getNewsList exampleWorld (firstPage "top" true) exampleTopRun.cache 60000).result =
        Except.ok r ∧
      (getNewsList exampleWorld (firstPage "top" true) exampleTopRun.cache 60000).networkCalls
        = 0 :=
  ⟨_, rfl,
    ((getNewsList_stores_on_success exampleWorld (firstPage "top" true) [] 0).1 _ rfl
      (by decide) rfl (by decide)).1,
    ((getNewsList_stores_on_success exampleWorld (firstPage "top" true) [] 0).1 _ rfl
      (by decide) rfl (by decide)).2 60000 (by decide)⟩

/-- C9: for a keyword that is not blank, `page >= 1`, `pageSize >= 1` and the article
list `S` of the uncached page-1/size-100 list fetch, `searchNews` returns
`success = true`, `total` = the number of articles of `S` whose title or author name
contains the keyword ignoring case, `data` = the matching articles at positions
`[(page-1)*pageSize, page*pageSize)` in the order of `S`, and
`hasMore = (page*pageSize < total)`; every returned article matches, and every
matching article of `S` is on some page. -/
theorem searchNews_filters_and_paginates (lower : String → String) (w : World σ)
    (kw : String) (type : Option String) (page pageSize : Int)
    (cache : Cache NewsResult) (s : σ) (r : NewsResult)
    (hkw : trimIsEmpty kw = false) (hpage : 1 ≤ page) (hsize : 1 ≤ pageSize)
    (hfetch : (getNewsList w
      { type := some (type.getD "top"), page := some 1, pageSize := some 100,
        useCache := some false } cache s).result = Except.ok r)
    (hsucc : r.success = true) :
    ∃ res, (searchNews lower w
        { keyword := some kw, type := type, page := some page, pageSize := some pageSize }
        cache s).result = Except.ok res ∧
      res.success = true ∧
      res.total = (r.data.filter (fun a => decide (articleMatches lower kw a))).length ∧
      res.data = ((r.data.filter (fun a => decide (articleMatches lower kw a))).drop
        ((page - 1) * pageSize).toNat).take pageSize.toNat ∧
      res.hasMore = some (decide (page * pageSize < (res.total : Int))) ∧
      (∀ a, a ∈ res.data → articleMatches lower kw a) ∧
      (∀ a, a ∈ r.data → articleMatches lower kw a →
        ∃ (q : Int) (res' : SearchResult), 1 ≤ q ∧
          (searchNews lower w
            { keyword := some kw, type := type, page := some q, pageSize := some pageSize }
            cache s).result = Except.ok res' ∧ a ∈ res'.data) := by
  have hslice : ∀ q : Int, 1 ≤ q →
      jsSlice (r.data.filter (fun a => decide (articleMatches lower kw a)))
        ((q - 1) * pageSize) ((q - 1) * pageSize + pageSize) =
      ((r.data.filter (fun a => decide (articleMatches lower kw a))).drop
        ((q - 1) * pageSize).toNat).take pageSize.toNat := by
    intro q hq
    have h0 : 0 ≤ (q - 1) * pageSize := Int.mul_nonneg (by omega) (by omega)
    have ha : (q - 1) * pageSize = (((q - 1) * pageSize).toNat : Int) :=
      (Int.toNat_of_nonneg h0).symm
    have hb : pageSize = ((pageSize.toNat : Nat) : Int) :=
      (Int.toNat_of_nonneg (by omega)).symm
    have := jsSlice_nonneg (r.data.filter (fun a => decide (articleMatches lower kw a)))
      ((q - 1) * pageSize).toNat pageSize.toNat
    rw [← ha, ← hb] at this
    exact this
  refine ⟨_, searchNews_ok lower w kw type page pageSize cache s r hkw hfetch hsucc,
    rfl, rfl, hslice page hpage, ?_, ?_, ?_⟩
  · have he : (page - 1) * pageSize + pageSize = page * pageSize := by
      rw [Int.sub_mul]; omega
    simp only [he]
  · intro a ha
    simp only [hslice page hpage] at ha
    have hm := List.mem_of_mem_drop (List.mem_of_mem_take ha)
    simpa using (List.mem_filter.1 hm).2
  · intro a ha hmatch
    have hmem : a ∈ r.data.filter (fun a => decide (articleMatches lower kw a)) :=
      List.mem_filter.2 ⟨ha, by simpa using hmatch⟩
    have hk : 0 < pageSize.toNat := by omega
    obtain ⟨q, hq⟩ := mem_page_of_mem _ pageSize.toNat hk a hmem
    refine ⟨(q : Int) + 1, _, by omega,
      searchNews_ok lower w kw type ((q : Int) + 1) pageSize cache s r hkw hfetch hsucc, ?_⟩
    simp only [hslice ((q : Int) + 1) (by omega)]
    have hidx : (((q : Int) + 1 - 1) * pageSize).toNat = q * pageSize.toNat := by
      have h1 : ((q : Int) + 1 - 1) = (q : Int) := by omega
      have h2 : pageSize = ((pageSize.toNat : Nat) : Int) :=
        (Int.toNat_of_nonneg (by omega)).symm
      rw [h1]
      conv_lhs => rw [h2]
      rw [← Int.natCast_mul]
      exact Int.toNat_natCast _
    rw [hidx]
    exact hq

/-- Witness for C9: on the example world, searching `ALPHA` (page 1, page size 50)
returns the one article whose title contains it, with `total = 1` and no more pages. -/
theorem searchNews_filters_and_paginates_witness :
    ∃ res, (searchNews asciiLower exampleWorld
        { keyword := some "ALPHA", type := some "top", page := some 1, pageSize := some 50 }
        [] 0).result = Except.ok res ∧
      res.success = true ∧ res.total = 1 ∧ res.data.length = 1 ∧
      res.hasMore = some false := by
  obtain ⟨res, h1, h2, h3, h4, h5, _, _⟩ :=
    searchNews_filters_and_paginates asciiLower exampleWorld "ALPHA" (some "top") 1 50 [] 0
      _ (by decide) (by decide) (by decide) rfl (by decide)
  refine ⟨res, h1, h2, ?_, ?_, ?_⟩
  · rw [h3]; decide
  · rw [h4]; decide
  · rw [h5, h3]; decide

end ServiceClaims

section HookLemmas

variable {σ : Type}

/-- No action `fetchNews` dispatches changes `currentCategory`. -/
theorem fetchNews_currentCategory (w : World σ) (category : String) (refresh : Bool)
    (state : AppState) (cache : Cache NewsResult) (s : σ) :
    (fetchNews w category refresh state cache s).state.currentCategory =
      state.currentCategory := by
  unfold fetchNews
  split
  · rfl
  · simp only
    split
    · split <;> rfl
    · rfl

/-- After `fetchNews` the pagination is the one before or the reset one. -/
theorem fetchNews_pagination (w : World σ) (category : String) (refresh : Bool)
    (state : AppState) (cache : Cache NewsResult) (s : σ) :
    (fetchNews w category refresh state cache s).state.pagination = state.pagination ∨
    (fetchNews w category refresh state cache s).state.pagination =
      { page := 1, hasMore := true } := by
  unfold fetchNews
  split
  · exact Or.inl rfl
  · simp only
    split
    · split
      · exact Or.inr rfl
      · exact Or.inl rfl
    · exact Or.inl rfl

/-- What `fetchNews(category, false)` does when `category` holds a non-empty list. -/
theorem fetchNews_early_return (w : World σ) (category : String) (state : AppState)
    (cache : Cache NewsResult) (s : σ) (l : List Article)
    (hdata : objGet state.newsData category = some l) (hl : l ≠ []) :
    fetchNews w category false state cache s =
      { state := { state with loading := false }, cache := cache, world := s,
        networkCalls := 0 } := by
  have hpos : 0 < l.length := List.length_pos.2 hl
  simp [fetchNews, newsDataLength, hdata, hpos, appReducer]

/-- What `fetchNews(category, false)` does when `category` holds nothing: it runs
`getNewsList` for page 1 of `category` with the cache in use. -/
theorem fetchNews_fetches (w : World σ) (category : String) (state : AppState)
    (cache : Cache NewsResult) (s : σ)
    (hnone : newsDataLength state.newsData category = 0) :
    (fetchNews w category false state cache s).networkCalls =
      (getNewsList w (firstPage category true) cache s).networkCalls ∧
    (fetchNews w category false state cache s).cache =
      (getNewsList w (firstPage category true) cache s).cache ∧
    (fetchNews w category false state cache s).world =
      (getNewsList w (firstPage category true) cache s).world := by
  simp [fetchNews, hnone, firstPage]

/-- What `loadMoreNews(category)` does when it is guarded. -/
theorem loadMoreNews_early_return (w : World σ) (category : String) (state : AppState)
    (cache : Cache NewsResult) (s : σ)
    (h : state.loading = true ∨ state.pagination.hasMore = false) :
    loadMoreNews w category state cache s =
      { state := { state with loading := false }, cache := cache, world := s,
        networkCalls := 0 } := by
  have hcond : (state.loading || !state.pagination.hasMore) = true := by
    rcases h with h | h <;> simp [h]
  simp only [loadMoreNews, hcond, if_true, appReducer]

end HookLemmas

section PaginationLemmas

variable {σ : Type}

theorem requestedPage_listRequest (page pageSize now : Int) :
    requestedPage (listRequest page pageSize now) = some (JsVal.num page) := rfl

theorem requestedLimit_listRequest (page pageSize now : Int) :
    requestedLimit (listRequest page pageSize now) = some (JsVal.num pageSize) := rfl

theorem httpClientGet_logged (w : World σ) (page pageSize : Int) (s : σ)
    (log : List HttpRequest) :
    httpClientGet w.logged (BASE_URL ++ "/posts") (listRequestParams page pageSize) (s, log) =
      ((w.transport (listRequest page pageSize (w.now s)) s).1,
        ((w.transport (listRequest page pageSize (w.now s)) s).2,
          log ++ [listRequest page pageSize (w.now s)])) := rfl

theorem processPosts_map_some (type : String) (draw : Nat → PostDraw) :
    ∀ (posts : List Post) (i : Nat),
      ∃ as, processPosts type draw i (posts.map some) = some as ∧ as.length = posts.length
  | [], _ => ⟨[], rfl, rfl⟩
  | post :: rest, i => by
    obtain ⟨as, has, hlen⟩ := processPosts_map_some type draw rest (i + 1)
    refine ⟨processPost type (draw i) post :: as, ?_, by simp [hlen]⟩
    simp [processPosts, has]

theorem processJSONPlaceholderData_posts (draw : Nat → PostDraw) (posts : List Post)
    (type : String) :
    (processJSONPlaceholderData draw (RawResponse.array (posts.map some)) type).success = true ∧
    (processJSONPlaceholderData draw (RawResponse.array (posts.map some)) type).data.length =
      posts.length := by
  obtain ⟨as, has, hlen⟩ := processPosts_map_some type draw posts 0
  simp [processJSONPlaceholderData, has, hlen]

/-- A list request that misses the cache and is answered with post records at the first
attempt: one request is logged, and the result is the successful transform of the
posts. -/
theorem getNewsList_logged_first_try (w : World σ) (p : ListParams)
    (cache : Cache NewsResult) (s : σ) (log : List HttpRequest) (posts : List Post)
    (hmiss : p.useCache = some false ∨ cache = [])
    (hresp : (w.transport (listRequest (p.page.getD 1) (p.pageSize.getD 20) (w.now s)) s).1 =
      Except.ok (RawResponse.array (posts.map some))) :
    ∃ r, (getNewsList w.logged p cache (s, log)).result = Except.ok r ∧
      r.success = true ∧ r.data.length = posts.length ∧
      (getNewsList w.logged p cache (s, log)).world.2 =
        log ++ [listRequest (p.page.getD 1) (p.pageSize.getD 20) (w.now s)] ∧
      (getNewsList w.logged p cache (s, log)).networkCalls = 1 := by
  have hlooked : (if p.useCache.getD true = true then
        CacheManager.get cache (w.logged.now (s, log)) (listCacheKey p)
      else (none, cache)) = (none, cache) := by
    rcases hmiss with h | h
    · simp [h]
    · subst h
      simp [CacheManager.get, mapGet]
  have hop := httpClientGet_logged w (p.page.getD 1) (p.pageSize.getD 20) s log
  rw [hresp] at hop
  have hrun := withRetryLoop_ok w.logged.sleep
    (httpClientGet w.logged (BASE_URL ++ "/posts")
      (listRequestParams (p.page.getD 1) (p.pageSize.getD 20)))
    2 1000 2 0 none (s, log) _ _ hop
  have hproc := processJSONPlaceholderData_posts
    (w.logged.draws ((w.transport (listRequest (p.page.getD 1) (p.pageSize.getD 20)
      (w.now s)) s).2, log ++ [listRequest (p.page.getD 1) (p.pageSize.getD 20) (w.now s)]))
    posts (p.type.getD "top")
  refine ⟨_, ?_, hproc.1, hproc.2, ?_, ?_⟩
  · simp only [getNewsList, hlooked, withRetry, hrun]
  · simp only [getNewsList, hlooked, withRetry, hrun]
  · simp only [getNewsList, hlooked, withRetry, hrun]

theorem newsDataLength_empty (category : String) (hcat : category ∉ objectPrototypeKeys) :
    newsDataLength [] category = 0 := by
  simp only [objectPrototypeKeys, List.mem_cons, List.mem_singleton, List.mem_nil_iff,
    or_false, not_or] at hcat
  simp [newsDataLength, objGet, inheritedLength, hcat]

/-- The first `fetchNews(category)` of a session, answered with post records: page 1 is
the one request, and the pagination is the reset one. -/
theorem fetchNews_logged_first_page (w : World σ) (category : String)
    (hcat : category ∉ objectPrototypeKeys) (s : σ) (posts : List Post)
    (hresp : (w.transport (listRequest 1 20 (w.now s)) s).1 =
      Except.ok (RawResponse.array (posts.map some))) :
    (fetchNews w.logged category false initialState [] (s, [])).state.loading = false ∧
    (fetchNews w.logged category false initialState [] (s, [])).state.pagination =
      { page := 1, hasMore := true } ∧
    (fetchNews w.logged category false initialState [] (s, [])).world.2 =
      [listRequest 1 20 (w.now s)] := by
  have hnone : newsDataLength initialState.newsData category = 0 :=
    newsDataLength_empty category hcat
  obtain ⟨r, hres, hsucc, _, hlog, _⟩ := getNewsList_logged_first_try w
    { type := some category, page := some 1, pageSize := some 20, useCache := some (!false) }
    [] s [] posts (Or.inr rfl) hresp
  simp only [Option.getD_some, List.nil_append, Bool.not_false] at hlog hres
  simp only [fetchNews, hnone, Bool.not_false, hres, hsucc]
  simpa [appReducer] using hlog

/-- A `loadMoreNews(category)` that is not guarded and is answered with post records:
the next page is the one request logged, nothing stays in flight, a full page keeps
`hasMore` and moves to the next page, a short page ends the list. -/
theorem loadMoreNews_logged_page (w : World σ) (category : String) (state : AppState)
    (cache : Cache NewsResult) (s : σ) (log : List HttpRequest) (posts : List Post)
    (hl : state.loading = false) (hm : state.pagination.hasMore = true)
    (hresp : (w.transport (listRequest (state.pagination.page + 1) 20 (w.now s)) s).1 =
      Except.ok (RawResponse.array (posts.map some))) :
    (loadMoreNews w.logged category state cache (s, log)).state.loading = false ∧
    (loadMoreNews w.logged category state cache (s, log)).world.2 =
      log ++ [listRequest (state.pagination.page + 1) 20 (w.now s)] ∧
    (posts.length = 20 →
      (loadMoreNews w.logged category state cache (s, log)).state.pagination =
        { page := state.pagination.page + 1, hasMore := true }) ∧
    (posts.length < 20 →
      (loadMoreNews w.logged category state cache (s, log)).state.pagination.hasMore =
        false) := by
  obtain ⟨r, hres, hsucc, hlen, hlog, _⟩ := getNewsList_logged_first_try w
    { type := some category, page := some (state.pagination.page + 1), pageSize := some 20,
      useCache := some false }
    cache s log posts (Or.inl rfl) hresp
  simp only [Option.getD_some] at hlog
  simp only [loadMoreNews, hl, hm, Bool.not_true, Bool.or_self, Bool.false_eq_true,
    if_false, hres, hsucc, hlog, hlen, Bool.true_and]
  refine ⟨?_, trivial, ?_, ?_⟩
  · split <;> rfl
  · intro h20
    simp [h20, appReducer]
  · intro hlt
    by_cases h0 : posts.length > 0
    · have hne : ¬ posts.length = 20 := by omega
      simp [h0, hne, appReducer]
    · simp [h0, appReducer]

theorem range_map_succ {β : Type} (f : Nat → β) (m : Nat) :
    (List.range (m + 1)).map f = (List.range m).map f ++ [f m] := by
  rw [List.range_succ, List.map_append]
  rfl

/-- The state of a session after `n` calls of `loadMoreNews`, for a provider with `k`
full pages: nothing is in flight, the pages requested are `1 .. min (n+1) (k+1)`,
and the pagination stands at page `n + 1` with more to come while `n < k` and has
`hasMore = false` from `n = k` on. -/
theorem scrollSession_invariant (w : World σ) (k : Nat) (hk : 1 ≤ k)
    (hprov : fullPagesProvider w k) (category : String)
    (hcat : category ∉ objectPrototypeKeys) (s : σ) :
    ∀ n : Nat,
      (scrollSession w category s n).state.loading = false ∧
      pagesRequested (scrollSession w category s n) =
        (List.range (min (n + 1) (k + 1))).map (fun i : Nat => some (JsVal.num ((i : Int) + 1))) ∧
      (n < k → (scrollSession w category s n).state.pagination =
        { page := (n : Int) + 1, hasMore := true }) ∧
      (k ≤ n → (scrollSession w category s n).state.pagination.hasMore = false) := by
  intro n
  induction n with
  | zero =>
    obtain ⟨posts, hp, _, _⟩ := hprov (listRequest 1 20 (w.now s)) s 1
      (requestedPage_listRequest _ _ _) (by omega) (by omega)
    obtain ⟨h1, h2, h3⟩ := fetchNews_logged_first_page w category hcat s posts hp
    have hmin : min (0 + 1) (k + 1) = 1 := by omega
    refine ⟨h1, ?_, ?_, ?_⟩
    · rw [hmin]
      simp only [pagesRequested, scrollSession, loadMoreTimes, h3]
      rfl
    · intro _
      simp only [scrollSession, loadMoreTimes, h2]
      rfl
    · intro h
      omega
  | succ n ih =>
    obtain ⟨hload, hlog, hlt, hge⟩ := ih
    have hstep : scrollSession w category s (n + 1) =
        thenLoadMore w.logged category (scrollSession w category s n) := rfl
    rw [hstep]
    rcases hworld : (scrollSession w category s n).world with ⟨s', log'⟩
    have hlog' : log'.map requestedPage =
        (List.range (min (n + 1) (k + 1))).map (fun i : Nat => some (JsVal.num ((i : Int) + 1))) := by
      rw [← hlog]
      simp only [pagesRequested, hworld]
    by_cases hnk : n < k
    · have hpag := hlt hnk
      have hmore : (scrollSession w category s n).state.pagination.hasMore = true := by
        rw [hpag]
      have hpage : (scrollSession w category s n).state.pagination.page + 1 =
          (n : Int) + 1 + 1 := by
        rw [hpag]
      obtain ⟨posts, hp, h20, hshort⟩ := hprov
        (listRequest ((n : Int) + 1 + 1) 20 (w.now s')) s' ((n : Int) + 1 + 1)
        (requestedPage_listRequest _ _ _) (by omega) (by omega)
      rw [← hpage] at hp
      obtain ⟨g1, g2, g3, g4⟩ := loadMoreNews_logged_page w category
        (scrollSession w category s n).state (scrollSession w category s n).cache s' log'
        posts hload hmore hp
      have hmin1 : min (n + 1) (k + 1) = n + 1 := by omega
      have hmin2 : min (n + 1 + 1) (k + 1) = n + 1 + 1 := by omega
      refine ⟨?_, ?_, ?_, ?_⟩
      · simp only [thenLoadMore, hworld]
        exact g1
      · simp only [pagesRequested, thenLoadMore, hworld, g2, List.map_append, hlog',
          List.map_cons, List.map_nil, requestedPage_listRequest, hpage]
        rw [hmin1, hmin2, range_map_succ _ (n + 1)]
        push_cast
        rfl
      · intro hlt'
        simp only [thenLoadMore, hworld]
        rw [g3 (h20 (by omega)), hpage]
        simp
      · intro hge'
        simp only [thenLoadMore, hworld]
        exact g4 (hshort (by omega))
    · have hfalse := hge (by omega)
      have hrun := loadMoreNews_early_return w.logged category
        (scrollSession w category s n).state (scrollSession w category s n).cache (s', log')
        (Or.inr hfalse)
      have hmin1 : min (n + 1) (k + 1) = k + 1 := by omega
      have hmin2 : min (n + 1 + 1) (k + 1) = k + 1 := by omega
      refine ⟨?_, ?_, ?_, ?_⟩
      · simp only [thenLoadMore, hworld, hrun]
      · simp only [pagesRequested, thenLoadMore, hworld, hrun, hlog']
        rw [hmin1, hmin2]
      · intro h
        omega
      · intro _
        simp only [thenLoadMore, hworld, hrun]
        exact hfalse

theorem find_map_replace {V : Type} (k : String) (v : V) :
    ∀ o : JsObject V, o.any (fun p => p.1 == k) = true →
      (o.map (fun p => if p.1 == k then (k, v) else p)).find? (fun p => p.1 == k) =
        some (k, v)
  | [], h => by simp at h
  | p :: rest, h => by
    by_cases hp : p.1 = k
    · simp [hp]
    · have hrest : rest.any (fun p => p.1 == k) = true := by
        simpa [hp] using h
      have ih := find_map_replace k v rest hrest
      have hb : (p.1 == k) = false := by simpa using hp
      simp only [List.map_cons, hb, Bool.false_eq_true, if_false]
      rw [List.find?_cons_of_neg _ (by simpa using hp)]
      exact ih

theorem find_insertIndexKey {V : Type} (n : Nat) (k : String) (v : V) :
    ∀ o : JsObject V, o.any (fun p => p.1 == k) = false →
      (insertIndexKey n k v o).find? (fun p => p.1 == k) = some (k, v)
  | [], _ => by simp [insertIndexKey]
  | p :: rest, h => by
    have hp : ¬ p.1 = k := by
      intro hp
      simp [hp] at h
    have hrest : rest.any (fun p => p.1 == k) = false := by
      simpa [hp] using h
    simp only [insertIndexKey]
    split
    · split
      · rw [List.find?_cons_of_neg _ (by simpa using hp)]
        exact find_insertIndexKey n k v rest hrest
      · simp
    · simp

/-- A property that was just written reads back as the value written. -/
theorem objGet_objSet_self {V : Type} (o : JsObject V) (k : String) (v : V) :
    objGet (objSet o k v) k = some v := by
  unfold objGet objSet
  by_cases hany : o.any (fun p => p.1 == k) = true
  · simp only [hany, if_true]
    rw [find_map_replace k v o hany]
    rfl
  · have hfalse : o.any (fun p => p.1 == k) = false := Bool.eq_false_iff.2 hany
    simp only [hfalse, Bool.false_eq_true, if_false]
    split
    · rw [find_insertIndexKey _ k v o hfalse]
      rfl
    · have hnone : o.find? (fun p => p.1 == k) = none := by
        rw [List.find?_eq_none]
        intro p hp hk
        have : o.any (fun p => p.1 == k) = true := List.any_eq_true.2 ⟨p, hp, hk⟩
        rw [hfalse] at this
        exact absurd this (by simp)
      rw [List.find?_append, hnone]
      simp

/-- Every request `withRetry` makes for a list page on the logged world is logged, and
each is the request for that page and page size at some clock reading. -/
theorem withRetryLoop_logged (w : World σ) (page pageSize : Int) (N D : Nat) :
    ∀ (fuel i : Nat) (le : Option JsError) (s : σ) (log : List HttpRequest),
      ∃ reqs : List HttpRequest,
        (withRetryLoop w.logged.sleep
          (httpClientGet w.logged (BASE_URL ++ "/posts") (listRequestParams page pageSize))
          N D fuel i le (s, log)).final.2 = log ++ reqs ∧
        reqs.length = (withRetryLoop w.logged.sleep
          (httpClientGet w.logged (BASE_URL ++ "/posts") (listRequestParams page pageSize))
          N D fuel i le (s, log)).calls ∧
        ∀ req, req ∈ reqs → ∃ now, req = listRequest page pageSize now := by
  intro fuel
  induction fuel with
  | zero =>
    intro i le s log
    exact ⟨[], by simp [withRetryLoop], by simp [withRetryLoop], by simp⟩
  | succ n ih =>
    intro i le s log
    have hop := httpClientGet_logged w page pageSize s log
    cases hr : (w.transport (listRequest page pageSize (w.now s)) s).1 with
    | ok v =>
      rw [hr] at hop
      rw [withRetryLoop_ok _ _ N D n i le _ _ v hop]
      exact ⟨[listRequest page pageSize (w.now s)], rfl, rfl, by
        intro req hreq
        exact ⟨w.now s, by simpa using hreq⟩⟩
    | error e =>
      rw [hr] at hop
      by_cases hstop : i = N ∨ e.code = ErrorCode.num 401 ∨ e.code = ErrorCode.num 403
      · rw [withRetryLoop_stop _ _ N D n i le _ _ e hop hstop]
        exact ⟨[listRequest page pageSize (w.now s)], rfl, rfl, by
          intro req hreq
          exact ⟨w.now s, by simpa using hreq⟩⟩
      · have hi : i ≠ N := fun h => hstop (Or.inl h)
        have hret : e.retryable :=
          ⟨fun h => hstop (Or.inr (Or.inl h)), fun h => hstop (Or.inr (Or.inr h))⟩
        rw [withRetryLoop_retry _ _ N D n i le _ _ e hi hop hret]
        obtain ⟨reqs, h1, h2, h3⟩ := ih (i + 1) (some e)
          (w.sleep (D * 2 ^ i) (w.transport (listRequest page pageSize (w.now s)) s).2)
          (log ++ [listRequest page pageSize (w.now s)])
        refine ⟨listRequest page pageSize (w.now s) :: reqs, ?_, ?_, ?_⟩
        · simp only [RetryRun.afterRetry]
          rw [show log ++ listRequest page pageSize (w.now s) :: reqs =
            log ++ [listRequest page pageSize (w.now s)] ++ reqs by simp]
          exact h1
        · simp only [RetryRun.afterRetry, List.length_cons]
          rw [h2]
          rfl
        · intro req hreq
          rcases List.mem_cons.1 hreq with rfl | hreq
          · exact ⟨w.now s, rfl⟩
          · exact h3 req hreq

/-- An uncached list request on the logged world logs at least one request, and every
request it logs asks for its page and page size. -/
theorem getNewsList_logged_requests (w : World σ) (type : Option String)
    (page pageSize : Int) (cache : Cache NewsResult) (s : σ) (log : List HttpRequest) :
    ∃ reqs : List HttpRequest,
      (getNewsList w.logged
        { type := type, page := some page, pageSize := some pageSize, useCache := some false }
        cache (s, log)).world.2 = log ++ reqs ∧
      reqs ≠ [] ∧
      ∀ req, req ∈ reqs →
        requestedPage req = some (JsVal.num page) ∧
        requestedLimit req = some (JsVal.num pageSize) := by
  obtain ⟨reqs, h1, h2, h3⟩ := withRetryLoop_logged w page pageSize 2 1000 (2 + 1) 0 none s log
  have hpos := withRetry_calls_pos w.logged.sleep
    (httpClientGet w.logged (BASE_URL ++ "/posts") (listRequestParams page pageSize)) 2 1000
    (s, log)
  refine ⟨reqs, ?_, ?_, ?_⟩
  · simp only [getNewsList, Option.getD_some, Bool.false_eq_true, if_false, withRetry]
    split <;> exact h1
  · intro hnil
    rw [hnil] at h2
    simp only [withRetry] at hpos
    simp only [List.length_nil] at h2
    omega
  · intro req hreq
    obtain ⟨now, rfl⟩ := h3 req hreq
    exact ⟨rfl, rfl⟩

end PaginationLemmas

section StorageLemmas

theorem objGet_setItem_self (items : List (String × StoredItem)) (k : String)
    (v : StoredItem) : objGet (setItem items k v) k = some v := by
  unfold objGet setItem
  by_cases hany : items.any (fun p => p.1 == k) = true
  · simp only [hany, if_true]
    rw [find_map_replace k v items hany]
    rfl
  · have hfalse : items.any (fun p => p.1 == k) = false := Bool.eq_false_iff.2 hany
    simp only [hfalse, Bool.false_eq_true, if_false]
    have hnone : items.find? (fun p => p.1 == k) = none := by
      rw [List.find?_eq_none]
      intro p hp hk
      have : items.any (fun p => p.1 == k) = true := List.any_eq_true.2 ⟨p, hp, hk⟩
      rw [hfalse] at this
      exact absurd this (by simp)
    rw [List.find?_append, hnone]
    simp

/-- On a storage that works, what `Storage.set` wrote is what `Storage.get` reads. -/
theorem storage_get_set (store : LocalStorage) (k : String) (v d : JsonValue)
    (hf : store.failing = false) (hq : store.full = false) :
    Storage.get (Storage.set store k v) k d = v := by
  simp [Storage.get, Storage.set, hf, hq, objGet_setItem_self]

theorem storage_set_flags (store : LocalStorage) (k : String) (v : JsonValue) :
    (Storage.set store k v).failing = store.failing ∧
    (Storage.set store k v).full = store.full := by
  unfold Storage.set
  split <;> exact ⟨rfl, rfl⟩

theorem someUniquekey_records (F : List FavoriteRecord) (key : String) :
    someUniquekey (F.map JsonElem.record) key =
      Except.ok (F.any (fun item => decide (item.uniquekey = key))) := by
  induction F with
  | nil => rfl
  | cons r rest ih =>
    simp only [List.map_cons, someUniquekey, List.any_cons]
    by_cases h : r.uniquekey = key
    · simp [h]
    · simp [h, ih]

theorem jsSlice_zero {α : Type} (l : List α) (n : Nat) : jsSlice l 0 (n : Int) = l.take n := by
  have h := jsSlice_nonneg l 0 n
  simpa using h

theorem contains_str_map (R : List String) (id : String) :
    (R.map JsonElem.str).contains (JsonElem.str id) = decide (id ∈ R) := by
  induction R with
  | nil => rfl
  | cons x xs ih =>
    simp only [List.map_cons, List.contains_cons, ih, List.mem_cons]
    by_cases h : id = x <;> simp [h]

theorem filter_str_map (H : List String) (k : String) :
    (H.map JsonElem.str).filter (fun item => decide (item ≠ JsonElem.str k)) =
      (H.filter (fun x => decide (x ≠ k))).map JsonElem.str := by
  rw [List.filter_map]
  congr 1
  apply List.filter_congr
  intro x _
  simp

theorem take_append_take {α : Type} (A B : List α) (n : Nat) :
    (A ++ B.take n).take n = (A ++ B).take n := by
  rw [List.take_append_eq_append_take, List.take_append_eq_append_take, List.take_take]
  congr 2
  omega

theorem length_filter_ne_of_nodup (H : List String) (k : String) (hn : H.Nodup)
    (hk : k ∈ H) : (H.filter (fun x => decide (x ≠ k))).length + 1 = H.length := by
  have hf : H.filter (fun x => decide (x ≠ k)) = H.filter (fun x => x != k) := by
    apply List.filter_congr
    intro x _
    by_cases h : x = k <;> simp [h]
  rw [hf, ← hn.erase_eq_filter k, List.length_erase_of_mem hk]
  have := List.length_pos_of_mem hk
  omega

/-- The `slice(0, max)` taken when the array is longer than `max` is the first `max`
elements in either case. -/
theorem cap_eq_take {α : Type} (l : List α) (n : Nat) :
    (if l.length > n then jsSlice l 0 (n : Int) else l) = l.take n := by
  split
  · exact jsSlice_zero l n
  · rw [List.take_of_length_le (by omega)]

/-- What `SearchHistoryManager.add` stores for a keyword that is not blank, over a stored
list of strings. -/
theorem searchHistory_add_store (H : List String) (k : String) (store : LocalStorage)
    (hget : SearchHistoryManager.getAll store = JsonValue.array (H.map JsonElem.str))
    (hk : trimIsEmpty k = false) :
    (SearchHistoryManager.add store k).store =
      Storage.set store SearchHistoryManager.KEY
        (JsonValue.array
          (((k :: H.filter (fun x => decide (x ≠ k))).take 10).map JsonElem.str)) := by
  have hcap := cap_eq_take
    (JsonElem.str k :: (H.filter (fun x => decide (x ≠ k))).map JsonElem.str) 10
  simp only [SearchHistoryManager.add, hk, Bool.false_eq_true, if_false, hget,
    filter_str_map, SearchHistoryManager.MAX_HISTORY]
  rw [hcap, ← List.map_cons, List.map_take]

theorem searchHistory_add_flags (store : LocalStorage) (k : String) :
    (SearchHistoryManager.add store k).store.failing = store.failing ∧
    (SearchHistoryManager.add store k).store.full = store.full := by
  unfold SearchHistoryManager.add
  split
  · exact ⟨rfl, rfl⟩
  · split
    · exact storage_set_flags _ _ _
    · exact ⟨rfl, rfl⟩
    · exact ⟨rfl, rfl⟩

/-- Adding pairwise distinct, non-blank keywords that are not in the stored history `H`
leaves the first ten of the keywords, last added first, followed by `H`. -/
theorem addAll_distinct : ∀ (ks H : List String) (store : LocalStorage),
    store.failing = false → store.full = false →
    SearchHistoryManager.getAll store = JsonValue.array (H.map JsonElem.str) →
    H.length ≤ 10 →
    ks.Nodup → (∀ x, x ∈ ks → x ∉ H ∧ trimIsEmpty x = false) →
    SearchHistoryManager.getAll (SearchHistoryManager.addAll store ks) =
      JsonValue.array (((ks.reverse ++ H).take 10).map JsonElem.str)
  | [], H, store => by
    intro _ _ hget hlen _ _
    simp only [SearchHistoryManager.addAll, List.foldl_nil, List.reverse_nil, List.nil_append]
    rw [hget, List.take_of_length_le hlen]
  | k :: ks, H, store => by
    intro hf hq hget _ hnd hks
    have hkH := (hks k (List.mem_cons_self _ _)).1
    have hkb := (hks k (List.mem_cons_self _ _)).2
    have hfilter : H.filter (fun x => decide (x ≠ k)) = H := by
      rw [List.filter_eq_self]
      intro x hx
      have : x ≠ k := fun h => hkH (h ▸ hx)
      simpa using this
    have hstore := searchHistory_add_store H k store hget hkb
    rw [hfilter] at hstore
    have hflags := searchHistory_add_flags store k
    have hget' : SearchHistoryManager.getAll (SearchHistoryManager.add store k).store =
        JsonValue.array (((k :: H).take 10).map JsonElem.str) := by
      rw [hstore]
      exact storage_get_set store _ _ _ hf hq
    have hnd' := (List.nodup_cons.1 hnd)
    have ih := addAll_distinct ks ((k :: H).take 10) (SearchHistoryManager.add store k).store
      (hflags.1.trans hf) (hflags.2.trans hq) hget' (List.length_take_le _ _) hnd'.2 (by
        intro x hx
        refine ⟨?_, (hks x (List.mem_cons_of_mem _ hx)).2⟩
        intro hmem
        rcases List.mem_cons.1 (List.mem_of_mem_take hmem) with h | h
        · exact hnd'.1 (h ▸ hx)
        · exact (hks x (List.mem_cons_of_mem _ hx)).1 h)
    have hfold : SearchHistoryManager.addAll store (k :: ks) =
        SearchHistoryManager.addAll (SearchHistoryManager.add store k).store ks := rfl
    rw [hfold, ih, take_append_take]
    simp

end StorageLemmas

section HookClaims

variable {σ : Type}

/-- C10 (the code departs from the claim): when `newsData[category]` is a non-empty
list, `fetchNews(category, false)` makes no network call and leaves the cache and the
outside world alone, but the `finally` block still dispatches `SET_LOADING false`:
the state afterwards is the state before with `loading` set to false, so it equals
the state before exactly when `loading` was false. -/
theorem fetchNews_with_data (w : World σ) (category : String) (state : AppState)
    (cache : Cache NewsResult) (s : σ) (l : List Article)
    (hdata : objGet state.newsData category = some l) (hl : l ≠ []) :
    (fetchNews w category false state cache s).networkCalls = 0 ∧
    (fetchNews w category false state cache s).cache = cache ∧
    (fetchNews w category false state cache s).world = s ∧
    (fetchNews w category false state cache s).state = { state with loading := false } ∧
    ((fetchNews w category false state cache s).state = state ↔ state.loading = false) := by
  have hpos : 0 < l.length := List.length_pos.2 hl
  have hrun : fetchNews w category false state cache s =
      { state := { state with loading := false }, cache := cache, world := s,
        networkCalls := 0 } := by
    simp [fetchNews, newsDataLength, hdata, hpos, appReducer]
  rw [hrun]
  refine ⟨rfl, rfl, rfl, rfl, ?_⟩
  constructor
  · intro h
    have := congrArg AppState.loading h
    exact this.symm
  · intro h
    cases state
    simp only at h
    simp [h]

/-- Witness for C10: with one article under `top` and `loading = true`,
`fetchNews('top', false)` makes no network call and turns `loading` to false. -/
theorem fetchNews_with_data_witness :
    (fetchNews exampleWorld "top" false exampleLoadingState [] 0).networkCalls = 0 ∧
    exampleLoadingState.loading = true ∧
    (fetchNews exampleWorld "top" false exampleLoadingState [] 0).state.loading = false ∧
    (fetchNews exampleWorld "top" false exampleLoadingState [] 0).state ≠
      exampleLoadingState := by
  have h := fetchNews_with_data exampleWorld "top" exampleLoadingState [] 0
    [exampleArticle] rfl (by simp)
  refine ⟨h.1, rfl, ?_, ?_⟩
  · rw [h.2.2.2.1]
  · intro heq
    have := h.2.2.2.2.1 heq
    exact absurd this (by decide)

/-- C11 (the code departs from the claim): when `loading` is true or
`pagination.hasMore` is false, `loadMoreNews(category)` makes no network call and
leaves the cache and the outside world alone, but the `finally` block still
dispatches `SET_LOADING false`: the state afterwards is the state before with
`loading` set to false, so it equals the state before exactly when `loading` was
false. -/
theorem loadMoreNews_guarded (w : World σ) (category : String) (state : AppState)
    (cache : Cache NewsResult) (s : σ)
    (h : state.loading = true ∨ state.pagination.hasMore = false) :
    (loadMoreNews w category state cache s).networkCalls = 0 ∧
    (loadMoreNews w category state cache s).cache = cache ∧
    (loadMoreNews w category state cache s).world = s ∧
    (loadMoreNews w category state cache s).state = { state with loading := false } ∧
    ((loadMoreNews w category state cache s).state = state ↔ state.loading = false) := by
  rw [loadMoreNews_early_return w category state cache s h]
  refine ⟨rfl, rfl, rfl, rfl, ?_⟩
  constructor
  · intro h'
    have := congrArg AppState.loading h'
    exact this.symm
  · intro h'
    cases state
    simp only at h'
    simp [h']

/-- Witness for C11: with a load in flight (`loading = true`), `loadMoreNews('top')`
makes no network call and turns `loading` to false. -/
theorem loadMoreNews_guarded_witness :
    (loadMoreNews exampleWorld "top" exampleLoadingState [] 0).networkCalls = 0 ∧
    exampleLoadingState.loading = true ∧
    (loadMoreNews exampleWorld "top" exampleLoadingState [] 0).state.loading = false ∧
    (loadMoreNews exampleWorld "top" exampleLoadingState [] 0).state ≠
      exampleLoadingState := by
  have h := loadMoreNews_guarded exampleWorld "top" exampleLoadingState [] 0 (Or.inl rfl)
  refine ⟨h.1, rfl, ?_, ?_⟩
  · rw [h.2.2.2.1]
  · intro heq
    have := h.2.2.2.2.1 heq
    exact absurd this (by decide)

/-- C15: from a state with `loading = false` and `hasMore = true`, if the service call
for the next page raises, then after `loadMoreNews(category)` the lists of every
category and the pagination are as before, `error` is `'加载更多失败'` and `loading`
is false. -/
theorem loadMoreNews_failure (w : World σ) (category : String) (state : AppState)
    (cache : Cache NewsResult) (s : σ) (e : JsError)
    (hl : state.loading = false) (hm : state.pagination.hasMore = true)
    (hfail : (getNewsList w
      { type := some category, page := some (state.pagination.page + 1),
        pageSize := some 20, useCache := some false } cache s).result = Except.error e) :
    (loadMoreNews w category state cache s).state.newsData = state.newsData ∧
    (loadMoreNews w category state cache s).state.pagination = state.pagination ∧
    (loadMoreNews w category state cache s).state.error = some "加载更多失败" ∧
    (loadMoreNews w category state cache s).state.loading = false := by
  simp only [loadMoreNews, hl, hm, Bool.not_true, Bool.or_self, Bool.false_eq_true,
    if_false, hfail, appReducer, LOAD_MORE_ERROR, and_self]

/-- Witness for C15: in the world where every request is rejected, `loadMoreNews('top')`
keeps the loaded list and the pagination and sets the load-more error. -/
theorem loadMoreNews_failure_witness :
    (loadMoreNews failingWorld "top" exampleLoadedState [] 0).state.newsData =
      exampleLoadedState.newsData ∧
    (loadMoreNews failingWorld "top" exampleLoadedState [] 0).state.pagination =
      exampleLoadedState.pagination ∧
    (loadMoreNews failingWorld "top" exampleLoadedState [] 0).state.error =
      some "加载更多失败" ∧
    (loadMoreNews failingWorld "top" exampleLoadedState [] 0).state.loading = false :=
  loadMoreNews_failure failingWorld "top" exampleLoadedState [] 0
    (errorWithFallback "服务器内部错误" API_ERROR) rfl rfl rfl

/-- C16: `switchCategory(c)` with `c` the current category dispatches nothing and
fetches nothing. Otherwise `currentCategory` becomes `c`, the pagination becomes
`{page: 1, hasMore: true}` and `fetchNews(c)` runs: when `c` holds no list it calls
`getNewsList` for page 1 of `c`; when `c` holds a non-empty list, that list (and the
whole of `newsData`) is left as it was, `pagination.page` is 1 and no network call is
made. -/
theorem switchCategory_spec (w : World σ) (c : String) (state : AppState)
    (cache : Cache NewsResult) (s : σ) :
    (c = state.currentCategory →
      (switchCategory w c state cache s).state = state ∧
      (switchCategory w c state cache s).cache = cache ∧
      (switchCategory w c state cache s).world = s ∧
      (switchCategory w c state cache s).networkCalls = 0) ∧
    (c ≠ state.currentCategory →
      (switchCategory w c state cache s).state.currentCategory = c ∧
      (switchCategory w c state cache s).state.pagination = { page := 1, hasMore := true } ∧
      (newsDataLength state.newsData c = 0 →
        (switchCategory w c state cache s).networkCalls =
          (getNewsList w (firstPage c true) cache s).networkCalls ∧
        (switchCategory w c state cache s).cache =
          (getNewsList w (firstPage c true) cache s).cache ∧
        (switchCategory w c state cache s).world =
          (getNewsList w (firstPage c true) cache s).world) ∧
      (∀ l, objGet state.newsData c = some l → l ≠ [] →
        objGet (switchCategory w c state cache s).state.newsData c = some l ∧
        (switchCategory w c state cache s).state.newsData = state.newsData ∧
        (switchCategory w c state cache s).state.pagination.page = 1 ∧
        (switchCategory w c state cache s).networkCalls = 0)) := by
  constructor
  · intro h
    simp [switchCategory, h]
  · intro h
    have hsw : switchCategory w c state cache s =
        fetchNews w c false
          (appReducer (appReducer state (Action.SET_CURRENT_CATEGORY c))
            Action.RESET_PAGINATION) cache s := by
      simp [switchCategory, h]
    rw [hsw]
    refine ⟨?_, ?_, ?_, ?_⟩
    · rw [fetchNews_currentCategory]
      rfl
    · rcases fetchNews_pagination w c false
        (appReducer (appReducer state (Action.SET_CURRENT_CATEGORY c))
          Action.RESET_PAGINATION) cache s with hp | hp
      · rw [hp]; rfl
      · exact hp
    · intro hnone
      exact fetchNews_fetches w c _ cache s hnone
    · intro l hdata hl
      have hdata' : objGet (appReducer (appReducer state (Action.SET_CURRENT_CATEGORY c))
          Action.RESET_PAGINATION).newsData c = some l := hdata
      rw [fetchNews_early_return w c _ cache s l hdata' hl]
      exact ⟨hdata, rfl, rfl, rfl⟩

/-- Witness for C16: switching from `top` to `keji`, which holds one article while the
pagination stands at page 3, leaves the list of `keji` as it was, resets the
pagination to page 1 and makes no network call. -/
theorem switchCategory_spec_witness :
    "keji" ≠ exampleTwoCategoryState.currentCategory ∧
    (switchCategory exampleWorld "keji" exampleTwoCategoryState [] 0).state.currentCategory
      = "keji" ∧
    (switchCategory exampleWorld "keji" exampleTwoCategoryState [] 0).state.pagination =
      { page := 1, hasMore := true } ∧
    objGet (switchCategory exampleWorld "keji" exampleTwoCategoryState [] 0).state.newsData
      "keji" = some [exampleArticle] ∧
    (switchCategory exampleWorld "keji" exampleTwoCategoryState [] 0).networkCalls = 0 :=
  ⟨by decide,
    ((switchCategory_spec exampleWorld "keji" exampleTwoCategoryState [] 0).2
      (by decide)).1,
    ((switchCategory_spec exampleWorld "keji" exampleTwoCategoryState [] 0).2
      (by decide)).2.1,
    (((switchCategory_spec exampleWorld "keji" exampleTwoCategoryState [] 0).2
      (by decide)).2.2.2 [exampleArticle] rfl (by simp)).1,
    (((switchCategory_spec exampleWorld "keji" exampleTwoCategoryState [] 0).2
      (by decide)).2.2.2 [exampleArticle] rfl (by simp)).2.2.2⟩

/-- C18: for a favorites list `F` and an article `a` whose uniquekey does not occur in
`F`, `toggleFavorite(a)` returns the added message, `toggleFavorite(a)` on the
resulting state returns the removed message, and the favorites are `F` again; on no
state does `toggleFavorite` return the already-in-favorites message. -/
theorem toggleFavorite_round_trip (state : AppState) (a : Article) (t1 t2 : String) :
    ((∀ item, item ∈ state.favorites → item.uniquekey ≠ a.uniquekey) →
      (useFavorites.toggleFavorite state a t1).1 = "已添加到收藏" ∧
      (useFavorites.toggleFavorite (useFavorites.toggleFavorite state a t1).2 a t2).1 =
        "已从收藏中移除" ∧
      (useFavorites.toggleFavorite (useFavorites.toggleFavorite state a t1).2 a t2).2.favorites
        = state.favorites ∧
      (useFavorites.toggleFavorite (useFavorites.toggleFavorite state a t1).2 a t2).2.favorites.length
        = state.favorites.length) ∧
    (useFavorites.toggleFavorite state a t1).1 ≠ "已经在收藏列表中" := by
  constructor
  · intro hnot
    have hany : state.favorites.any (fun item => decide (item.uniquekey = a.uniquekey)) =
        false := by
      rw [List.any_eq_false]
      intro item hitem
      simpa using hnot item hitem
    have h1 : useFavorites.toggleFavorite state a t1 =
        (FAVORITE_ADDED,
          { state with
            favorites := { toArticle := a, favoriteTime := t1 } :: state.favorites }) := by
      simp [useFavorites.toggleFavorite, useFavorites.addFavorite, hany, appReducer]
    have hfilter : state.favorites.filter (fun item => !decide (item.uniquekey = a.uniquekey))
        = state.favorites := by
      rw [List.filter_eq_self]
      intro item hitem
      simpa using hnot item hitem
    have h2 : useFavorites.toggleFavorite
        { state with favorites := { toArticle := a, favoriteTime := t1 } :: state.favorites }
        a t2 = (FAVORITE_REMOVED, state) := by
      simp [useFavorites.toggleFavorite, useFavorites.removeFavorite, appReducer, hfilter]
    rw [h1]
    simp only [h2]
    refine ⟨by decide, by decide, ?_⟩
    simp
  · have hr : FAVORITE_REMOVED ≠ "已经在收藏列表中" := by decide
    have ha : FAVORITE_ADDED ≠ "已经在收藏列表中" := by decide
    unfold useFavorites.toggleFavorite useFavorites.removeFavorite useFavorites.addFavorite
    simp only
    split
    · exact hr
    · next h =>
      simp only [h]
      exact ha

/-- Witness for C18: toggling the example article twice on the initial state says
added, then removed, and leaves no favorite. -/
theorem toggleFavorite_round_trip_witness :
    (useFavorites.toggleFavorite initialState exampleArticle "t1").1 = "已添加到收藏" ∧
    (useFavorites.toggleFavorite
      (useFavorites.toggleFavorite initialState exampleArticle "t1").2
      exampleArticle "t2").1 = "已从收藏中移除" ∧
    (useFavorites.toggleFavorite
      (useFavorites.toggleFavorite initialState exampleArticle "t1").2
      exampleArticle "t2").2.favorites = initialState.favorites :=
  ⟨((toggleFavorite_round_trip initialState exampleArticle "t1" "t2").1
      (by intro item h; exact absurd h (List.not_mem_nil item))).1,
    ((toggleFavorite_round_trip initialState exampleArticle "t1" "t2").1
      (by intro item h; exact absurd h (List.not_mem_nil item))).2.1,
    ((toggleFavorite_round_trip initialState exampleArticle "t1" "t2").1
      (by intro item h; exact absurd h (List.not_mem_nil item))).2.2.1⟩

/-- C12: from a state with `loading = false` and `pagination = {page: p, hasMore: true}`
(for a category that does not name a member of `Object.prototype`),
`loadMoreNews(category)` requests page `p + 1` with page size 20 and nothing else.
If the service succeeds with a non-empty list, `newsData[category]` becomes the old
list followed by the new items, `page` becomes `p + 1` and `hasMore` becomes
`(N = 20)`; if it succeeds with no items, `newsData` and `page` are unchanged and
`hasMore` becomes false. -/
theorem loadMoreNews_next_page (w : World σ) (category : String) (state : AppState)
    (cache : Cache NewsResult) (s : σ) (log : List HttpRequest)
    (hl : state.loading = false) (hm : state.pagination.hasMore = true)
    (_hcat : category ∉ objectPrototypeKeys) :
    (∃ reqs : List HttpRequest,
      (loadMoreNews w.logged category state cache (s, log)).world.2 = log ++ reqs ∧
      reqs ≠ [] ∧
      ∀ req, req ∈ reqs →
        requestedPage req = some (JsVal.num (state.pagination.page + 1)) ∧
        requestedLimit req = some (JsVal.num 20)) ∧
    (∀ r, (getNewsList w
        { type := some category, page := some (state.pagination.page + 1),
          pageSize := some 20, useCache := some false } cache s).result = Except.ok r →
      r.success = true →
      (r.data ≠ [] →
        objGet (loadMoreNews w category state cache s).state.newsData category =
          some ((objGet state.newsData category).getD [] ++ r.data) ∧
        (loadMoreNews w category state cache s).state.pagination.page =
          state.pagination.page + 1 ∧
        (loadMoreNews w category state cache s).state.pagination.hasMore =
          decide (r.data.length = 20)) ∧
      (r.data = [] →
        (loadMoreNews w category state cache s).state.newsData = state.newsData ∧
        (loadMoreNews w category state cache s).state.pagination.page =
          state.pagination.page ∧
        (loadMoreNews w category state cache s).state.pagination.hasMore = false)) := by
  constructor
  · obtain ⟨reqs, h1, h2, h3⟩ := getNewsList_logged_requests w (some category)
      (state.pagination.page + 1) 20 cache s log
    refine ⟨reqs, ?_, h2, h3⟩
    simp only [loadMoreNews, hl, hm, Bool.not_true, Bool.or_self, Bool.false_eq_true,
      if_false]
    exact h1
  · intro r hres hsucc
    constructor
    · intro hne
      have hpos : 0 < r.data.length := List.length_pos.2 hne
      simp only [loadMoreNews, hl, hm, Bool.not_true, Bool.or_self, Bool.false_eq_true,
        if_false, hres, hsucc, hpos, gt_iff_lt, decide_True, Bool.and_self, if_true,
        appReducer, Option.getD_some]
      simp [objGet_objSet_self]
    · intro hnil
      simp only [loadMoreNews, hl, hm, Bool.not_true, Bool.or_self, Bool.false_eq_true,
        if_false, hres, hsucc, hnil, List.length_nil, gt_iff_lt, Nat.lt_irrefl,
        decide_False, Bool.and_false, appReducer, Option.getD_some, Option.getD_none]
      simp

/-- Witness for C12: with one article loaded and page 1 current, `loadMoreNews('top')`
in the example world requests page 2 and appends the two articles of the answer. -/
theorem loadMoreNews_next_page_witness :
    (∃ reqs : List HttpRequest,
      (loadMoreNews exampleWorld.logged "top" exampleLoadedState [] (0, [])).world.2 =
        [] ++ reqs ∧
      reqs ≠ [] ∧
      ∀ req, req ∈ reqs →
        requestedPage req = some (JsVal.num (exampleLoadedState.pagination.page + 1)) ∧
        requestedLimit req = some (JsVal.num 20)) ∧
    ((objGet (loadMoreNews exampleWorld "top" exampleLoadedState [] 0).state.newsData
        "top").map List.length = some 3 ∧
      (loadMoreNews exampleWorld "top" exampleLoadedState [] 0).state.pagination =
        { page := 2, hasMore := false }) :=
  ⟨(loadMoreNews_next_page exampleWorld "top" exampleLoadedState [] 0 [] rfl rfl
      (by decide)).1,
    by decide, by decide⟩

/-- Counterexample to C13 as stated: in the example world `fetchNews('top')` fetches a
page of two items, fewer than 20, and `hasMore` is true afterwards; and for a
provider that answers page 2 with 21 items, `loadMoreNews('top')` leaves
`hasMore = false` although the fetch did not return fewer than 20 items. -/
theorem hasMore_after_fetch_counterexample :
    (∃ r, (getNewsList exampleWorld (firstPage "top" true) [] 0).result = Except.ok r ∧
      r.success = true ∧ r.data.length = 2 ∧
      (fetchNews exampleWorld "top" false initialState [] 0).state.pagination.hasMore = true) ∧
    (∃ r, (getNewsList (countWorld (fun _ => 21))
        { type := some "top", page := some 2, pageSize := some 20, useCache := some false }
        [] 0).result = Except.ok r ∧
      r.success = true ∧ r.data.length = 21 ∧
      (loadMoreNews (countWorld (fun _ => 21)) "top" exampleLoadedState [] 0).state.pagination.hasMore
        = false) :=
  ⟨⟨_, rfl, by decide, by decide, by decide⟩, ⟨_, rfl, by decide, by decide, by decide⟩⟩

/-- C13 (amended): after a successful page fetch by `loadMoreNews` that returned at most
20 items, `hasMore` is false exactly when the fetch returned fewer than 20 items;
after a successful fetch by `fetchNews` the pagination is `{page: 1, hasMore: true}`
whatever the number of items; and `page` changes only to `page + 1` after a successful
non-empty fetch of page `page + 1` (in `loadMoreNews`) or to 1 (in `fetchNews`). -/
theorem pagination_invariant (w : World σ) (category : String) (state : AppState)
    (cache : Cache NewsResult) (s : σ) :
    (state.loading = false → state.pagination.hasMore = true →
      ∀ r, (getNewsList w
          { type := some category, page := some (state.pagination.page + 1),
            pageSize := some 20, useCache := some false } cache s).result = Except.ok r →
        r.success = true → r.data.length ≤ 20 →
        ((loadMoreNews w category state cache s).state.pagination.hasMore = false ↔
          r.data.length < 20)) ∧
    (∀ (refresh : Bool) (r : NewsResult),
      (refresh = true ∨ newsDataLength state.newsData category = 0) →
      (getNewsList w
          { type := some category, page := some 1, pageSize := some 20,
            useCache := some (!refresh) } cache s).result = Except.ok r →
      r.success = true →
      (fetchNews w category refresh state cache s).state.pagination =
        { page := 1, hasMore := true }) ∧
    ((loadMoreNews w category state cache s).state.pagination.page = state.pagination.page ∨
      ((loadMoreNews w category state cache s).state.pagination.page =
          state.pagination.page + 1 ∧
        ∃ r, (getNewsList w
          { type := some category, page := some (state.pagination.page + 1),
            pageSize := some 20, useCache := some false } cache s).result = Except.ok r ∧
          r.success = true ∧ r.data ≠ [])) ∧
    (∀ refresh : Bool,
      (fetchNews w category refresh state cache s).state.pagination.page =
        state.pagination.page ∨
      (fetchNews w category refresh state cache s).state.pagination.page = 1) := by
  refine ⟨?_, ?_, ?_, ?_⟩
  · intro hl hm r hres hsucc hle
    by_cases h0 : 0 < r.data.length
    · simp only [loadMoreNews, hl, hm, Bool.not_true, Bool.or_self, Bool.false_eq_true,
        if_false, hres, hsucc, h0, gt_iff_lt, decide_True, Bool.and_self, if_true,
        appReducer, Option.getD_some, decide_eq_false_iff_not]
      omega
    · have hz : r.data.length = 0 := by omega
      simp only [loadMoreNews, hl, hm, Bool.not_true, Bool.or_self, Bool.false_eq_true,
        if_false, hres, hsucc, hz, gt_iff_lt, Nat.lt_irrefl, decide_False, Bool.and_false,
        appReducer, Option.getD_some]
      simp
  · intro refresh r hcond hres hsucc
    have hguard : (!refresh && decide (newsDataLength state.newsData category > 0)) = false := by
      rcases hcond with h | h
      · simp [h]
      · simp [h]
    simp only [fetchNews, hguard, Bool.false_eq_true, if_false, hres, hsucc, if_true,
      appReducer]
  · by_cases hg : state.loading = true ∨ state.pagination.hasMore = false
    · left
      rw [loadMoreNews_early_return w category state cache s hg]
    · have hl : state.loading = false := by
        cases h : state.loading
        · rfl
        · exact absurd (Or.inl h) hg
      have hm : state.pagination.hasMore = true := by
        cases h : state.pagination.hasMore
        · exact absurd (Or.inr h) hg
        · rfl
      cases hres : (getNewsList w
          { type := some category, page := some (state.pagination.page + 1),
            pageSize := some 20, useCache := some false } cache s).result with
      | error e =>
        left
        simp only [loadMoreNews, hl, hm, Bool.not_true, Bool.or_self, Bool.false_eq_true,
          if_false, hres, appReducer]
      | ok r =>
        by_cases hok : r.success = true ∧ 0 < r.data.length
        · right
          refine ⟨?_, r, rfl, hok.1, List.length_pos.1 hok.2⟩
          simp only [loadMoreNews, hl, hm, Bool.not_true, Bool.or_self, Bool.false_eq_true,
            if_false, hres, hok.1, hok.2, gt_iff_lt, decide_True, Bool.and_self, if_true,
            appReducer, Option.getD_some]
        · left
          have hcond : (r.success && decide (r.data.length > 0)) = false := by
            cases hs : r.success
            · simp
            · have : ¬ 0 < r.data.length := fun h => hok ⟨hs, h⟩
              simp [this]
          simp only [loadMoreNews, hl, hm, Bool.not_true, Bool.or_self, Bool.false_eq_true,
            if_false, hres, hcond, appReducer, Option.getD_none]
  · intro refresh
    rcases fetchNews_pagination w category refresh state cache s with h | h
    · left; rw [h]
    · right; rw [h]

/-- Witness for C13 (amended): in the example world, `loadMoreNews('top')` after page 1
fetches two items and leaves `hasMore = false`. -/
theorem pagination_invariant_witness :
    ∃ r, (getNewsList exampleWorld
        { type := some "top", page := some (exampleLoadedState.pagination.page + 1),
          pageSize := some 20, useCache := some false } [] 0).result = Except.ok r ∧
      r.data.length < 20 ∧
      (loadMoreNews exampleWorld "top" exampleLoadedState [] 0).state.pagination.hasMore =
        false :=
  ⟨_, rfl, by decide,
    ((pagination_invariant exampleWorld "top" exampleLoadedState [] 0).1 rfl rfl _ rfl
      (by decide) (by decide)).2 (by decide)⟩

/-- C14: for `k >= 1` and a provider with `k` full pages of 20 and a shorter page
`k + 1`, a session that starts with `fetchNews(category)` on the initial state and
an empty cache and goes on with `n` sequential calls of `loadMoreNews(category)` has
requested exactly the pages `1, 2, ..., min (n+1) (k+1)`, in this order: no page
twice and never page `k + 2`; and `hasMore` is true exactly while `n < k`, so it is
true after the fetches of pages `1 .. k` and false from the fetch of page `k + 1` on. -/
theorem pagination_terminates (w : World σ) (k : Nat) (hk : 1 ≤ k)
    (hprov : fullPagesProvider w k) (category : String)
    (hcat : category ∉ objectPrototypeKeys) (s : σ) (n : Nat) :
    pagesRequested (scrollSession w category s n) =
      (List.range (min (n + 1) (k + 1))).map (fun i : Nat => some (JsVal.num ((i : Int) + 1))) ∧
    (pagesRequested (scrollSession w category s n)).Nodup ∧
    some (JsVal.num ((k : Int) + 2)) ∉ pagesRequested (scrollSession w category s n) ∧
    ((scrollSession w category s n).state.pagination.hasMore = true ↔ n < k) := by
  obtain ⟨_, hlog, hlt, hge⟩ := scrollSession_invariant w k hk hprov category hcat s n
  refine ⟨hlog, ?_, ?_, ?_⟩
  · rw [hlog]
    apply List.Nodup.map _ (List.nodup_range _)
    intro i j hij
    simp only [Option.some.injEq, JsVal.num.injEq] at hij
    omega
  · rw [hlog]
    intro hmem
    obtain ⟨i, hi, heq⟩ := List.mem_map.1 hmem
    simp only [Option.some.injEq, JsVal.num.injEq] at heq
    have := List.mem_range.1 hi
    omega
  · constructor
    · intro htrue
      by_contra hnot
      have := hge (by omega)
      rw [this] at htrue
      exact absurd htrue (by decide)
    · intro h
      rw [hlt h]

/-- Witness for C14: with two full pages and a third page of three posts, a session of
`fetchNews('top')` and five `loadMoreNews('top')` has requested pages 1, 2 and 3 and
ends with `hasMore = false`. -/
theorem pagination_terminates_witness :
    pagesRequested (scrollSession (countWorld twoFullPages) "top" 0 5) =
      [some (JsVal.num 1), some (JsVal.num 2), some (JsVal.num 3)] ∧
    ((scrollSession (countWorld twoFullPages) "top" 0 5).state.pagination.hasMore = true ↔
      5 < 2) := by
  have hprov : fullPagesProvider (countWorld twoFullPages) 2 := by
    intro req s j hreq h1 h2
    refine ⟨List.replicate (twoFullPages j) examplePost, ?_, ?_, ?_⟩
    · simp only [countWorld, hreq]
    · intro h
      have h' : j ≤ 2 := by omega
      simp [twoFullPages, h']
    · intro h
      have h' : ¬ j ≤ 2 := by omega
      simp [twoFullPages, h']
  have h := pagination_terminates (countWorld twoFullPages) 2 (by decide) hprov "top"
    (by decide) 0 5
  exact ⟨h.1.trans (by decide), h.2.2.2⟩

/-- C17: for a favorites list with pairwise distinct uniquekeys and an article `a`, both
`FavoriteManager.add(a)` (on a storage that works) and the hook's `addFavorite(a)`
leave the list unchanged when an entry has the uniquekey of `a`, and otherwise
produce the list whose first element is `a` with a `favoriteTime` and whose tail is
the old list; in both cases the resulting list has pairwise distinct uniquekeys. -/
theorem favorites_add_spec (F : List FavoriteRecord) (a : Article) (t : String)
    (hF : (F.map (fun item => item.uniquekey)).Nodup) :
    (∀ store : LocalStorage, store.failing = false → store.full = false →
      FavoriteManager.getAll store = JsonValue.array (F.map JsonElem.record) →
      (FavoriteManager.add store a t).result = Except.ok () ∧
      ((∃ item, item ∈ F ∧ item.uniquekey = a.uniquekey) →
        (FavoriteManager.add store a t).store = store) ∧
      ((∀ item, item ∈ F → item.uniquekey ≠ a.uniquekey) →
        FavoriteManager.getAll (FavoriteManager.add store a t).store =
          JsonValue.array
            (({ toArticle := a, favoriteTime := t } :: F).map JsonElem.record)) ∧
      ∃ F' : List FavoriteRecord,
        FavoriteManager.getAll (FavoriteManager.add store a t).store =
          JsonValue.array (F'.map JsonElem.record) ∧
        (F'.map (fun item => item.uniquekey)).Nodup) ∧
    (∀ state : AppState, state.favorites = F →
      ((∃ item, item ∈ F ∧ item.uniquekey = a.uniquekey) →
        (useFavorites.addFavorite state a t).2 = state) ∧
      ((∀ item, item ∈ F → item.uniquekey ≠ a.uniquekey) →
        (useFavorites.addFavorite state a t).2.favorites =
          { toArticle := a, favoriteTime := t } :: F) ∧
      ((useFavorites.addFavorite state a t).2.favorites.map
        (fun item => item.uniquekey)).Nodup) := by
  have hnodup : (∀ item, item ∈ F → item.uniquekey ≠ a.uniquekey) →
      ((({ toArticle := a, favoriteTime := t } : FavoriteRecord) :: F).map
        (fun item => item.uniquekey)).Nodup := by
    intro hnot
    simp only [List.map_cons, List.nodup_cons]
    refine ⟨?_, hF⟩
    intro hmem
    obtain ⟨item, hitem, hkey⟩ := List.mem_map.1 hmem
    exact hnot item hitem hkey
  have hany_true : (∃ item, item ∈ F ∧ item.uniquekey = a.uniquekey) →
      F.any (fun item => decide (item.uniquekey = a.uniquekey)) = true := by
    rintro ⟨item, hitem, hkey⟩
    exact List.any_eq_true.2 ⟨item, hitem, by simpa using hkey⟩
  have hany_false : (∀ item, item ∈ F → item.uniquekey ≠ a.uniquekey) →
      F.any (fun item => decide (item.uniquekey = a.uniquekey)) = false := by
    intro hnot
    rw [List.any_eq_false]
    intro item hitem
    simpa using hnot item hitem
  constructor
  · intro store hf hq hget
    by_cases hex : ∃ item, item ∈ F ∧ item.uniquekey = a.uniquekey
    · have hrun : FavoriteManager.add store a t = { result := Except.ok (), store := store } := by
        simp only [FavoriteManager.add, hget, someUniquekey_records, hany_true hex]
      rw [hrun]
      refine ⟨rfl, fun _ => rfl, ?_, F, hget, hF⟩
      intro hnot
      obtain ⟨item, hitem, hkey⟩ := hex
      exact absurd hkey (hnot item hitem)
    · have hnot : ∀ item, item ∈ F → item.uniquekey ≠ a.uniquekey := by
        intro item hitem hkey
        exact hex ⟨item, hitem, hkey⟩
      have hrun : FavoriteManager.add store a t =
          { result := Except.ok (),
            store := Storage.set store FavoriteManager.KEY
              (JsonValue.array (JsonElem.record { toArticle := a, favoriteTime := t } ::
                F.map JsonElem.record)) } := by
        simp only [FavoriteManager.add, hget, someUniquekey_records, hany_false hnot]
      have hstored : FavoriteManager.getAll (FavoriteManager.add store a t).store =
          JsonValue.array
            (({ toArticle := a, favoriteTime := t } :: F).map JsonElem.record) := by
        rw [hrun]
        simp only [FavoriteManager.getAll, List.map_cons]
        exact storage_get_set store _ _ _ hf hq
      refine ⟨by rw [hrun], fun h => absurd h hex, fun _ => hstored, _, hstored, hnodup hnot⟩
  · intro state hstate
    subst hstate
    refine ⟨?_, ?_, ?_⟩
    · intro hex
      simp [useFavorites.addFavorite, hany_true hex]
    · intro hnot
      simp [useFavorites.addFavorite, hany_false hnot, appReducer]
    · by_cases hex : ∃ item, item ∈ state.favorites ∧ item.uniquekey = a.uniquekey
      · simp only [useFavorites.addFavorite, hany_true hex, Bool.not_true, Bool.false_eq_true,
          if_false]
        exact hF
      · have hnot : ∀ item, item ∈ state.favorites → item.uniquekey ≠ a.uniquekey := by
          intro item hitem hkey
          exact hex ⟨item, hitem, hkey⟩
        simp only [useFavorites.addFavorite, hany_false hnot, Bool.not_false, if_true,
          appReducer]
        exact hnodup hnot

/-- Witness for C17: adding the example article to empty favorites, through the manager
on an empty working storage and through the hook on the initial state, gives the
one-element list. -/
theorem favorites_add_spec_witness :
    FavoriteManager.getAll
        (FavoriteManager.add { items := [], failing := false, full := false }
          exampleArticle "t").store =
      JsonValue.array [JsonElem.record { toArticle := exampleArticle, favoriteTime := "t" }] ∧
    (useFavorites.addFavorite initialState exampleArticle "t").2.favorites =
      [{ toArticle := exampleArticle, favoriteTime := "t" }] :=
  ⟨((favorites_add_spec [] exampleArticle "t" List.nodup_nil).1
      { items := [], failing := false, full := false } rfl rfl rfl).2.2.1
      (by intro item h; exact absurd h (List.not_mem_nil item)),
    ((favorites_add_spec [] exampleArticle "t" List.nodup_nil).2 initialState rfl).2.1
      (by intro item h; exact absurd h (List.not_mem_nil item))⟩

/-- C19: on a storage that works, for a stored history `H` and a keyword `k` that is
not blank, the history after `SearchHistoryManager.add(k)` is the first 10 elements of
`k` followed by `H` without `k`: `k` is at the front, occurs once, the length is at
most 10, re-adding a keyword of a duplicate-free `H` does not grow the list, and
adding 11 pairwise distinct non-blank keywords to an empty history leaves the 10 most
recent, most recent first. -/
theorem searchHistory_add_spec (H : List String) (k : String) (store : LocalStorage)
    (hf : store.failing = false) (hq : store.full = false)
    (hget : SearchHistoryManager.getAll store = JsonValue.array (H.map JsonElem.str))
    (hk : trimIsEmpty k = false) :
    SearchHistoryManager.getAll (SearchHistoryManager.add store k).store =
      JsonValue.array
        (((k :: H.filter (fun x => decide (x ≠ k))).take 10).map JsonElem.str) ∧
    ((k :: H.filter (fun x => decide (x ≠ k))).take 10).head? = some k ∧
    ((k :: H.filter (fun x => decide (x ≠ k))).take 10).count k = 1 ∧
    ((k :: H.filter (fun x => decide (x ≠ k))).take 10).length ≤ 10 ∧
    (H.Nodup → k ∈ H →
      ((k :: H.filter (fun x => decide (x ≠ k))).take 10).length ≤ H.length) ∧
    (∀ (ks : List String) (store0 : LocalStorage),
      ks.length = 11 → ks.Nodup → (∀ x, x ∈ ks → trimIsEmpty x = false) →
      store0.failing = false → store0.full = false →
      SearchHistoryManager.getAll store0 = JsonValue.array [] →
      SearchHistoryManager.getAll (SearchHistoryManager.addAll store0 ks) =
        JsonValue.array ((ks.reverse.take 10).map JsonElem.str) ∧
      (ks.reverse.take 10).length = 10) := by
  refine ⟨?_, ?_, ?_, ?_, ?_, ?_⟩
  · rw [searchHistory_add_store H k store hget hk]
    exact storage_get_set store _ _ _ hf hq
  · rfl
  · have hnot : k ∉ (H.filter (fun x => decide (x ≠ k))).take 9 := by
      intro hmem
      have := (List.mem_filter.1 (List.mem_of_mem_take hmem)).2
      simp at this
    have htake : (k :: H.filter (fun x => decide (x ≠ k))).take 10 =
        k :: (H.filter (fun x => decide (x ≠ k))).take 9 := rfl
    rw [htake, List.count_cons_self, List.count_eq_zero_of_not_mem hnot]
  · exact List.length_take_le _ _
  · intro hn hmem
    have hlen := length_filter_ne_of_nodup H k hn hmem
    rw [List.length_take, List.length_cons]
    omega
  · intro ks store0 hlen hnd hblank hf0 hq0 hget0
    have h := addAll_distinct ks [] store0 hf0 hq0 hget0 (by simp) hnd
      (fun x hx => ⟨List.not_mem_nil x, hblank x hx⟩)
    rw [List.append_nil] at h
    refine ⟨h, ?_⟩
    rw [List.length_take, List.length_reverse, hlen]
    rfl

/-- Witness for C19: adding `b` to the stored history `a, b` moves it to the front, and
adding eleven distinct keywords to an empty history leaves the last ten, newest
first. -/
theorem searchHistory_add_spec_witness :
    SearchHistoryManager.getAll
        (SearchHistoryManager.add
          (Storage.set emptyStorage SearchHistoryManager.KEY
            (JsonValue.array [JsonElem.str "a", JsonElem.str "b"])) "b").store =
      JsonValue.array [JsonElem.str "b", JsonElem.str "a"] ∧
    SearchHistoryManager.getAll (SearchHistoryManager.addAll emptyStorage elevenKeywords) =
      JsonValue.array
        ((["k11", "k10", "k9", "k8", "k7", "k6", "k5", "k4", "k3", "k2"]).map
          JsonElem.str) :=
  ⟨(searchHistory_add_spec ["a", "b"] "b"
      (Storage.set emptyStorage SearchHistoryManager.KEY
        (JsonValue.array [JsonElem.str "a", JsonElem.str "b"]))
      rfl rfl rfl (by decide)).1,
    ((searchHistory_add_spec [] "x" emptyStorage rfl rfl rfl (by decide)).2.2.2.2.2
      elevenKeywords emptyStorage rfl (by decide) (by decide) rfl rfl rfl).1⟩

/-- C20: on a storage that works, for a stored read list `R` of length at most 100 and
an id, after `markAsRead(id)` the stored list has length at most 100 and `isRead(id)`
is true; if the id was not in `R` the new list is the first 100 elements of the id
followed by `R` (and if it was, the list is `R`); `isRead(id)` is true exactly when
the id is an element of the stored list, and it leaves the storage as it is. -/
theorem readHistory_spec (R : List String) (id : String) (store : LocalStorage)
    (hf : store.failing = false) (hq : store.full = false)
    (hget : Storage.get store ReadHistoryManager.KEY (JsonValue.array []) =
      JsonValue.array (R.map JsonElem.str))
    (hlen : R.length ≤ 100) :
    (∃ R' : List String,
      Storage.get (ReadHistoryManager.markAsRead store id).store ReadHistoryManager.KEY
        (JsonValue.array []) = JsonValue.array (R'.map JsonElem.str) ∧
      R'.length ≤ 100 ∧
      (id ∉ R → R' = (id :: R).take 100) ∧
      (id ∈ R → R' = R)) ∧
    (ReadHistoryManager.markAsRead store id).result = Except.ok () ∧
    (ReadHistoryManager.isRead (ReadHistoryManager.markAsRead store id).store id).result =
      Except.ok true ∧
    (ReadHistoryManager.isRead store id).result = Except.ok (decide (id ∈ R)) ∧
    (ReadHistoryManager.isRead store id).store = store := by
  have hisRead : (ReadHistoryManager.isRead store id).result = Except.ok (decide (id ∈ R)) := by
    simp only [ReadHistoryManager.isRead, hget, readIncludes, contains_str_map]
  by_cases hmem : id ∈ R
  · have hrun : ReadHistoryManager.markAsRead store id =
        { result := Except.ok (), store := store } := by
      simp only [ReadHistoryManager.markAsRead, hget, readIncludes, contains_str_map, hmem,
        decide_True]
    rw [hrun]
    refine ⟨⟨R, hget, hlen, fun h => absurd hmem h, fun _ => rfl⟩, rfl, ?_, hisRead, rfl⟩
    rw [hisRead]
    simp [hmem]
  · have hcap := cap_eq_take (JsonElem.str id :: R.map JsonElem.str) 100
    have hrun : ReadHistoryManager.markAsRead store id =
        { result := Except.ok (),
          store := Storage.set store ReadHistoryManager.KEY
            (JsonValue.array (((id :: R).take 100).map JsonElem.str)) } := by
      simp only [ReadHistoryManager.markAsRead, hget, readIncludes, contains_str_map, hmem,
        decide_False, ReadHistoryManager.MAX_HISTORY]
      rw [hcap, ← List.map_cons, List.map_take]
    have hstored : Storage.get (ReadHistoryManager.markAsRead store id).store
        ReadHistoryManager.KEY (JsonValue.array []) =
        JsonValue.array (((id :: R).take 100).map JsonElem.str) := by
      rw [hrun]
      exact storage_get_set store _ _ _ hf hq
    refine ⟨⟨(id :: R).take 100, hstored, List.length_take_le _ _, fun _ => rfl,
      fun h => absurd h hmem⟩, by rw [hrun], ?_, hisRead, rfl⟩
    simp only [ReadHistoryManager.isRead, hstored, readIncludes, contains_str_map]
    have : id ∈ (id :: R).take 100 := by
      have htake : (id :: R).take 100 = id :: R.take 99 := rfl
      rw [htake]
      exact List.mem_cons_self _ _
    simp [this]

/-- Witness for C20: marking `n2` as read on the stored list `n1` puts it in front, and
it then reads as read. -/
theorem readHistory_spec_witness :
    (∃ R' : List String,
      Storage.get
        (ReadHistoryManager.markAsRead
          (Storage.set emptyStorage ReadHistoryManager.KEY
            (JsonValue.array [JsonElem.str "n1"])) "n2").store
        ReadHistoryManager.KEY (JsonValue.array []) = JsonValue.array (R'.map JsonElem.str) ∧
      R'.length ≤ 100 ∧
      ("n2" ∉ ["n1"] → R' = ("n2" :: ["n1"]).take 100) ∧
      ("n2" ∈ ["n1"] → R' = ["n1"])) ∧
    (ReadHistoryManager.isRead
      (Storage.set emptyStorage ReadHistoryManager.KEY
        (JsonValue.array [JsonElem.str "n1"])) "n2").result =
      Except.ok (decide ("n2" ∈ ["n1"])) :=
  ⟨(readHistory_spec ["n1"] "n2"
      (Storage.set emptyStorage ReadHistoryManager.KEY (JsonValue.array [JsonElem.str "n1"]))
      rfl rfl rfl (by decide)).1,
    (readHistory_spec ["n1"] "n2"
      (Storage.set emptyStorage ReadHistoryManager.KEY (JsonValue.array [JsonElem.str "n1"]))
      rfl rfl rfl (by decide)).2.2.2.1⟩

end HookClaims

section InterceptorClaims

variable {σ α : Type}

/-- A first attempt that fails is followed by no wait exactly when its error is not
retryable, for `maxRetries ≥ 1`. -/
theorem withRetry_waits_nil_iff (sleep : Nat → σ → σ) (op : σ → Except JsError α × σ)
    (N D : Nat) (s s' : σ) (e : JsError) (hN : 1 ≤ N) (h : op s = (Except.error e, s')) :
    (withRetry sleep op N D s).waits = [] ↔ ¬ e.retryable := by
  unfold withRetry
  by_cases hr : e.retryable
  · rw [withRetryLoop_retry sleep op N D N 0 none s s' e (by omega) h hr]
    simp [RetryRun.afterRetry, hr]
  · have hstop : (0 : Nat) = N ∨ e.code = ErrorCode.num 401 ∨ e.code = ErrorCode.num 403 := by
      unfold JsError.retryable at hr
      by_cases h1 : e.code = ErrorCode.num 401
      · exact Or.inr (Or.inl h1)
      · by_cases h3 : e.code = ErrorCode.num 403
        · exact Or.inr (Or.inr h3)
        · exact absurd ⟨h1, h3⟩ hr
    rw [withRetryLoop_stop sleep op N D N 0 none s s' e h hstop]
    simp [hr]

/-- C24 (as the code behaves): for an error without a response whose code is
`'ECONNABORTED'`, the interceptor yields the timeout message only when no request
object is attached; with a request attached, as for a real timeout, it yields the
generic network message. In both cases the code is `'NETWORK_ERROR'`, which
`withRetry` retries. -/
theorem interceptor_timeout_classification (request : Bool) :
    (responseErrorInterceptor
        { response := none, request := request, code := some "ECONNABORTED" }).message =
      (if request then NETWORK_ERROR else TIMEOUT_MESSAGE) ∧
    (responseErrorInterceptor
        { response := none, request := request, code := some "ECONNABORTED" }).code =
      ErrorCode.str "NETWORK_ERROR" ∧
    (responseErrorInterceptor
        { response := none, request := request, code := some "ECONNABORTED" }).retryable ∧
    (responseErrorInterceptor timeoutError).message = NETWORK_ERROR ∧
    NETWORK_ERROR ≠ TIMEOUT_MESSAGE := by
  refine ⟨?_, rfl, ?_, rfl, by decide⟩
  · cases request <;> rfl
  · simp [JsError.retryable, responseErrorInterceptor]

/-- C25: for a failed response with a status `c` (HTTP statuses are not 0), the
normalized error has code `c` and the message of the status table, the generic
message carrying `c` for every status outside the table; the error is not retryable
exactly for 401 and 403, and then a failed first attempt of `withRetry` is followed
by no wait. -/
theorem interceptor_status_classification (c : Int) (request : Bool) (code : Option String)
    (hc : c ≠ 0) :
    (responseErrorInterceptor { response := some c, request := request, code := code }).code =
      ErrorCode.num c ∧
    (responseErrorInterceptor { response := some c, request := request, code := code }).message =
      statusMessage c ∧
    statusMessage 400 = "请求参数错误" ∧
    statusMessage 401 = "API密钥无效" ∧
    statusMessage 403 = "访问被拒绝" ∧
    statusMessage 404 = "接口不存在" ∧
    statusMessage 429 = "请求过于频繁，请稍后重试" ∧
    statusMessage 500 = "服务器内部错误" ∧
    (c ≠ 400 → c ≠ 401 → c ≠ 403 → c ≠ 404 → c ≠ 429 → c ≠ 500 →
      statusMessage c = "服务器错误 (" ++ toString c ++ ")") ∧
    (¬ (responseErrorInterceptor
        { response := some c, request := request, code := code }).retryable ↔
      c = 401 ∨ c = 403) ∧
    (∀ (sleep : Nat → σ → σ) (op : σ → Except JsError α × σ) (N D : Nat) (s s' : σ),
      1 ≤ N →
      op s = (Except.error (responseErrorInterceptor
        { response := some c, request := request, code := code }), s') →
      ((withRetry sleep op N D s).waits = [] ↔ c = 401 ∨ c = 403)) := by
  have hcode : (responseErrorInterceptor
      { response := some c, request := request, code := code }).code = ErrorCode.num c := by
    simp [responseErrorInterceptor, hc]
  have hretry : ¬ (responseErrorInterceptor
        { response := some c, request := request, code := code }).retryable ↔
      c = 401 ∨ c = 403 := by
    unfold JsError.retryable
    rw [hcode]
    constructor
    · intro h
      by_cases h1 : c = 401
      · exact Or.inl h1
      · by_cases h3 : c = 403
        · exact Or.inr h3
        · exfalso
          apply h
          constructor
          · intro h'; exact h1 (ErrorCode.num.inj h')
          · intro h'; exact h3 (ErrorCode.num.inj h')
    · rintro (h | h) ⟨h1, h3⟩
      · exact h1 (by rw [h])
      · exact h3 (by rw [h])
  refine ⟨hcode, rfl, rfl, rfl, rfl, rfl, rfl, rfl, ?_, hretry, ?_⟩
  · intro h0 h1 h3 h4 h9 h5
    simp [statusMessage, h0, h1, h3, h4, h9, h5]
  · intro sleep op N D s s' hN hop
    rw [withRetry_waits_nil_iff sleep op N D s s' _ hN hop]
    exact hretry

theorem interceptor_status_classification_witness :
    (responseErrorInterceptor { response := some 503, request := true, code := none }).code =
      ErrorCode.num 503 ∧
    statusMessage 503 = "服务器错误 (503)" ∧
    (unauthorizedOp 0).1 = Except.error (responseErrorInterceptor
      { response := some 401, request := true, code := none }) ∧
    (withRetry noSleep unauthorizedOp 3 1000 0).waits = [] := by
  have h503 := @interceptor_status_classification Nat Nat 503 true none (by decide)
  have h401 := @interceptor_status_classification Nat Nat 401 true none (by decide)
  refine ⟨h503.1, ?_, rfl, ?_⟩
  · exact h503.2.2.2.2.2.2.2.2.1 (by decide) (by decide) (by decide) (by decide) (by decide)
      (by decide)
  · exact (h401.2.2.2.2.2.2.2.2.2.2 noSleep unauthorizedOp 3 1000 0 1 (by decide) rfl).2
      (Or.inl rfl)

end InterceptorClaims

section StorageFaultLemmas

theorem storage_get_noValue (store : LocalStorage) (key : String) (d : JsonValue)
    (h : noValueUnder store key) : Storage.get store key d = d := by
  unfold Storage.get
  rcases h with h | h | ⟨raw, h⟩
  · simp [h]
  · rw [h]; simp
  · rw [h]; simp

theorem storage_get_eq_tryCatch (store : LocalStorage) (key : String) (d : JsonValue) :
    Storage.get store key d = tryCatch (Storage.getBody store key d) (fun _ => d) := by
  unfold Storage.get Storage.getBody localStorageGetItem tryCatch
  cases hf : store.failing
  · simp only [Bool.false_eq_true, if_false]
    cases hitem : objGet store.items key with
    | none => rfl
    | some item =>
      cases item with
      | json v => simp [jsonParse]
      | text raw =>
        by_cases hraw : raw = ""
        · simp [hraw]
        · simp [hraw, jsonParse]
  · simp

theorem storage_set_eq_tryCatch (store : LocalStorage) (key : String) (v : JsonValue) :
    Storage.set store key v = tryCatch (Storage.setBody store key v) (fun _ => store) := by
  unfold Storage.set Storage.setBody localStorageSetItem tryCatch
  cases hf : store.failing <;> cases hq : store.full <;> simp

theorem storage_remove_eq_tryCatch (store : LocalStorage) (key : String) :
    Storage.remove store key = tryCatch (Storage.removeBody store key) (fun _ => store) := by
  unfold Storage.remove Storage.removeBody localStorageRemoveItem tryCatch
  cases hf : store.failing <;> simp

end StorageFaultLemmas

section StorageClaims

/-- C21 (counterexample): on the stored read list `["n1", "n2"]`, `markAsRead("n2")`
leaves the list as it is, so `"n2"` is not its first element afterwards. -/
theorem markAsRead_existing_counterexample :
    Storage.get readStore ReadHistoryManager.KEY (JsonValue.array []) =
      JsonValue.array [JsonElem.str "n1", JsonElem.str "n2"] ∧
    Storage.get (ReadHistoryManager.markAsRead readStore "n2").store ReadHistoryManager.KEY
        (JsonValue.array []) =
      JsonValue.array [JsonElem.str "n1", JsonElem.str "n2"] ∧
    [JsonElem.str "n1", JsonElem.str "n2"].head? ≠ some (JsonElem.str "n2") := by
  refine ⟨rfl, rfl, by decide⟩

/-- C21 (amended): for every stored read list `R` and every id that already occurs in
`R`, `markAsRead(id)` returns normally and leaves the storage, and so the list, its
order and its length, as they are: the existing entry keeps its position. -/
theorem markAsRead_existing_unchanged (R : List String) (id : String) (store : LocalStorage)
    (hget : Storage.get store ReadHistoryManager.KEY (JsonValue.array []) =
      JsonValue.array (R.map JsonElem.str))
    (hmem : id ∈ R) :
    (ReadHistoryManager.markAsRead store id).result = Except.ok () ∧
    (ReadHistoryManager.markAsRead store id).store = store ∧
    Storage.get (ReadHistoryManager.markAsRead store id).store ReadHistoryManager.KEY
      (JsonValue.array []) = JsonValue.array (R.map JsonElem.str) := by
  have hrun : ReadHistoryManager.markAsRead store id =
      { result := Except.ok (), store := store } := by
    simp only [ReadHistoryManager.markAsRead, hget, readIncludes, contains_str_map, hmem,
      decide_True]
  rw [hrun]
  exact ⟨rfl, rfl, hget⟩

theorem markAsRead_existing_unchanged_witness :
    (ReadHistoryManager.markAsRead readStore "n2").result = Except.ok () ∧
    (ReadHistoryManager.markAsRead readStore "n2").store = readStore ∧
    Storage.get (ReadHistoryManager.markAsRead readStore "n2").store ReadHistoryManager.KEY
      (JsonValue.array []) = JsonValue.array (["n1", "n2"].map JsonElem.str) :=
  markAsRead_existing_unchanged ["n1", "n2"] "n2" readStore rfl (by decide)

/-- C23: `Storage.get`, `Storage.set` and `Storage.remove` are their `try` blocks with
every exception caught, so they return for every store. `get` returns the default when
the access throws, the key is absent or the text is empty or cannot be parsed, and
the parsed value otherwise; `set` and `remove` leave the store unchanged when the
write throws (storage disabled or quota exceeded), and otherwise `set` stores the
value. -/
theorem storage_never_raises (store : LocalStorage) (key : String) (d v : JsonValue) :
    Storage.get store key d = tryCatch (Storage.getBody store key d) (fun _ => d) ∧
    Storage.set store key v = tryCatch (Storage.setBody store key v) (fun _ => store) ∧
    Storage.remove store key = tryCatch (Storage.removeBody store key) (fun _ => store) ∧
    (noValueUnder store key → Storage.get store key d = d) ∧
    (∀ x, store.failing = false → objGet store.items key = some (StoredItem.json x) →
      Storage.getBody store key d = Except.ok x ∧ Storage.get store key d = x) ∧
    (∀ e, Storage.setBody store key v = Except.error e → Storage.set store key v = store) ∧
    (store.failing = true ∨ store.full = true →
      (∃ e, Storage.setBody store key v = Except.error e) ∧ Storage.set store key v = store) ∧
    (store.failing = false → store.full = false →
      Storage.get (Storage.set store key v) key d = v) ∧
    (∀ e, Storage.removeBody store key = Except.error e → Storage.remove store key = store) ∧
    (store.failing = true →
      (∃ e, Storage.removeBody store key = Except.error e) ∧
        Storage.remove store key = store) := by
  refine ⟨storage_get_eq_tryCatch store key d, storage_set_eq_tryCatch store key v,
    storage_remove_eq_tryCatch store key, storage_get_noValue store key d, ?_, ?_, ?_,
    storage_get_set store key v d, ?_, ?_⟩
  · intro x hf hx
    simp [Storage.getBody, localStorageGetItem, Storage.get, hf, hx, jsonParse]
  · intro e he
    rw [storage_set_eq_tryCatch, he]
    rfl
  · intro h
    constructor
    · unfold Storage.setBody localStorageSetItem
      rcases h with h | h
      · simp [h]
      · cases hf : store.failing <;> simp [h]
    · unfold Storage.set
      rcases h with h | h <;> simp [h]
  · intro e he
    rw [storage_remove_eq_tryCatch, he]
    rfl
  · intro h
    constructor
    · unfold Storage.removeBody localStorageRemoveItem
      simp [h]
    · unfold Storage.remove
      simp [h]

theorem storage_never_raises_witness :
    Storage.get (storeWith "theme" (StoredItem.text "not json")) "theme" (JsonValue.str "light") =
      JsonValue.str "light" ∧
    Storage.get readStore ReadHistoryManager.KEY (JsonValue.array []) =
      JsonValue.array [JsonElem.str "n1", JsonElem.str "n2"] ∧
    Storage.set { readStore with full := true } "theme" (JsonValue.str "dark") =
      { readStore with full := true } ∧
    Storage.remove disabledStorage "theme" = disabledStorage :=
  ⟨(storage_never_raises (storeWith "theme" (StoredItem.text "not json")) "theme"
      (JsonValue.str "light") JsonValue.null).2.2.2.1 (Or.inr (Or.inr ⟨"not json", rfl⟩)),
    ((storage_never_raises readStore ReadHistoryManager.KEY (JsonValue.array [])
      JsonValue.null).2.2.2.2.1 _ rfl rfl).2,
    ((storage_never_raises { readStore with full := true } "theme" JsonValue.null
      (JsonValue.str "dark")).2.2.2.2.2.2.1 (Or.inr rfl)).2,
    ((storage_never_raises disabledStorage "theme" JsonValue.null
      JsonValue.null).2.2.2.2.2.2.2.2.2 rfl).2⟩

/-- C29 (as the code behaves): when the storage yields no value under a manager's key
(the access throws, the key is absent, or the text is empty or cannot be parsed), the
manager's methods return normally and act as on the empty list. When the stored text
parses to a value that is not a list, nothing checks its shape: the favorite and
search methods throw the `TypeError` of the missing array method and leave the
storage as it is, except that `SearchHistoryManager.add` returns before the read for
a blank keyword and `FavoriteManager.count` throws only on `null`; the read methods
throw likewise, except on a stored string, whose own `includes` answers. -/
theorem managers_stored_content (store : LocalStorage) (article : Article)
    (nowIso uniquekey keyword : String) :
    (noValueUnder store FavoriteManager.KEY →
      (FavoriteManager.isFavorite store uniquekey).result = Except.ok false ∧
      (FavoriteManager.isFavorite store uniquekey).store = store ∧
      (FavoriteManager.count store).result = Except.ok (some 0) ∧
      (FavoriteManager.remove store uniquekey).result = Except.ok () ∧
      (FavoriteManager.remove store uniquekey).store =
        Storage.set store FavoriteManager.KEY (JsonValue.array []) ∧
      (FavoriteManager.add store article nowIso).result = Except.ok () ∧
      (FavoriteManager.add store article nowIso).store =
        Storage.set store FavoriteManager.KEY
          (JsonValue.array [JsonElem.record { toArticle := article, favoriteTime := nowIso }])) ∧
    (noValueUnder store SearchHistoryManager.KEY →
      (SearchHistoryManager.add store keyword).result = Except.ok () ∧
      (SearchHistoryManager.add store keyword).store =
        (if trimIsEmpty keyword then store
         else Storage.set store SearchHistoryManager.KEY
           (JsonValue.array [JsonElem.str keyword])) ∧
      (SearchHistoryManager.remove store keyword).result = Except.ok () ∧
      (SearchHistoryManager.remove store keyword).store =
        Storage.set store SearchHistoryManager.KEY (JsonValue.array [])) ∧
    (noValueUnder store ReadHistoryManager.KEY →
      (ReadHistoryManager.isRead store uniquekey).result = Except.ok false ∧
      (ReadHistoryManager.isRead store uniquekey).store = store ∧
      (ReadHistoryManager.markAsRead store uniquekey).result = Except.ok () ∧
      (ReadHistoryManager.markAsRead store uniquekey).store =
        Storage.set store ReadHistoryManager.KEY (JsonValue.array [JsonElem.str uniquekey])) ∧
    ((FavoriteManager.getAll store).isArray = false →
      (FavoriteManager.isFavorite store uniquekey).result =
        Except.error (nonListError (FavoriteManager.getAll store)) ∧
      (FavoriteManager.add store article nowIso).result =
        Except.error (nonListError (FavoriteManager.getAll store)) ∧
      (FavoriteManager.add store article nowIso).store = store ∧
      (FavoriteManager.remove store uniquekey).result =
        Except.error (nonListError (FavoriteManager.getAll store)) ∧
      (FavoriteManager.remove store uniquekey).store = store ∧
      (FavoriteManager.getAll store = JsonValue.null →
        (FavoriteManager.count store).result = Except.error nullReceiver) ∧
      (FavoriteManager.getAll store ≠ JsonValue.null →
        ∃ n, (FavoriteManager.count store).result = Except.ok n)) ∧
    ((SearchHistoryManager.getAll store).isArray = false →
      (SearchHistoryManager.add store keyword).result =
        (if trimIsEmpty keyword then Except.ok ()
         else Except.error (nonListError (SearchHistoryManager.getAll store))) ∧
      (SearchHistoryManager.add store keyword).store = store ∧
      (SearchHistoryManager.remove store keyword).result =
        Except.error (nonListError (SearchHistoryManager.getAll store)) ∧
      (SearchHistoryManager.remove store keyword).store = store) ∧
    ((Storage.get store ReadHistoryManager.KEY (JsonValue.array [])).isArray = false →
      (ReadHistoryManager.isRead store uniquekey).store = store ∧
      (ReadHistoryManager.markAsRead store uniquekey).store = store ∧
      (∀ text, Storage.get store ReadHistoryManager.KEY (JsonValue.array []) =
          JsonValue.str text →
        (ReadHistoryManager.isRead store uniquekey).result =
          Except.ok (jsIncludes text uniquekey) ∧
        (ReadHistoryManager.markAsRead store uniquekey).result =
          (if jsIncludes text uniquekey then Except.ok ()
           else Except.error notAFunction)) ∧
      ((∀ text, Storage.get store ReadHistoryManager.KEY (JsonValue.array []) ≠
          JsonValue.str text) →
        (ReadHistoryManager.isRead store uniquekey).result =
          Except.error (nonListError
            (Storage.get store ReadHistoryManager.KEY (JsonValue.array []))) ∧
        (ReadHistoryManager.markAsRead store uniquekey).result =
          Except.error (nonListError
            (Storage.get store ReadHistoryManager.KEY (JsonValue.array []))))) := by
  refine ⟨?_, ?_, ?_, ?_, ?_, ?_⟩
  · intro h
    have hget := storage_get_noValue store FavoriteManager.KEY (JsonValue.array []) h
    simp [FavoriteManager.isFavorite, FavoriteManager.count, FavoriteManager.remove,
      FavoriteManager.add, FavoriteManager.getAll, hget, someUniquekey, filterUniquekey]
  · intro h
    have hget := storage_get_noValue store SearchHistoryManager.KEY (JsonValue.array []) h
    by_cases ht : trimIsEmpty keyword = true
    · simp [SearchHistoryManager.add, SearchHistoryManager.remove, SearchHistoryManager.getAll,
        hget, ht]
    · simp [SearchHistoryManager.add, SearchHistoryManager.remove, SearchHistoryManager.getAll,
        hget, ht, SearchHistoryManager.MAX_HISTORY]
  · intro h
    have hget := storage_get_noValue store ReadHistoryManager.KEY (JsonValue.array []) h
    simp [ReadHistoryManager.isRead, ReadHistoryManager.markAsRead, hget, readIncludes,
      ReadHistoryManager.MAX_HISTORY]
  · intro h
    unfold FavoriteManager.isFavorite FavoriteManager.add FavoriteManager.remove
      FavoriteManager.count
    cases hv : FavoriteManager.getAll store <;> rw [hv] at h <;>
      simp [JsonValue.isArray, nonListError] at h ⊢
  · intro h
    unfold SearchHistoryManager.add SearchHistoryManager.remove
    cases hv : SearchHistoryManager.getAll store <;> rw [hv] at h <;>
      by_cases ht : trimIsEmpty keyword = true <;>
      simp [JsonValue.isArray, nonListError, ht] at h ⊢
  · intro h
    unfold ReadHistoryManager.isRead ReadHistoryManager.markAsRead
    cases hv : Storage.get store ReadHistoryManager.KEY (JsonValue.array []) <;>
      rw [hv] at h <;> simp [JsonValue.isArray, nonListError, readIncludes] at h ⊢
    rename_i text
    by_cases hi : jsIncludes text uniquekey = true <;> simp [hi]

theorem managers_stored_content_witness :
    (FavoriteManager.isFavorite emptyStorage "news_1_1").result = Except.ok false ∧
    (FavoriteManager.count disabledStorage).result = Except.ok (some 0) ∧
    (SearchHistoryManager.add
      (storeWith SearchHistoryManager.KEY (StoredItem.text "not json")) "react").store =
      storeWith SearchHistoryManager.KEY
        (StoredItem.json (JsonValue.array [JsonElem.str "react"])) ∧
    (ReadHistoryManager.isRead
      (storeWith ReadHistoryManager.KEY (StoredItem.text "")) "news_1_1").result =
      Except.ok false ∧
    (FavoriteManager.isFavorite
      (storeWith FavoriteManager.KEY (StoredItem.json JsonValue.null)) "news_1_1").result =
      Except.error nullReceiver ∧
    (FavoriteManager.add
      (storeWith FavoriteManager.KEY (StoredItem.json JsonValue.null)) exampleArticle
        "2023-11-14T22:13:20.000Z").result = Except.error nullReceiver ∧
    (SearchHistoryManager.add
      (storeWith SearchHistoryManager.KEY (StoredItem.json JsonValue.object)) "react").result =
      Except.error notAFunction ∧
    (SearchHistoryManager.add
      (storeWith SearchHistoryManager.KEY (StoredItem.json JsonValue.object)) "  ").result =
      Except.ok () ∧
    (ReadHistoryManager.isRead
      (storeWith ReadHistoryManager.KEY (StoredItem.json (JsonValue.num 5))) "news_1_1").result =
      Except.error notAFunction :=
  ⟨((managers_stored_content emptyStorage exampleArticle "" "news_1_1" "react").1
      (Or.inr (Or.inl rfl))).1,
    ((managers_stored_content disabledStorage exampleArticle "" "news_1_1" "react").1
      (Or.inl rfl)).2.2.1,
    (((managers_stored_content
      (storeWith SearchHistoryManager.KEY (StoredItem.text "not json")) exampleArticle ""
      "news_1_1" "react").2.1 (Or.inr (Or.inr ⟨"not json", rfl⟩))).2.1).trans (by decide),
    ((managers_stored_content
      (storeWith ReadHistoryManager.KEY (StoredItem.text "")) exampleArticle ""
      "news_1_1" "react").2.2.1 (Or.inr (Or.inr ⟨"", rfl⟩))).1,
    ((managers_stored_content
      (storeWith FavoriteManager.KEY (StoredItem.json JsonValue.null)) exampleArticle
      "2023-11-14T22:13:20.000Z" "news_1_1" "react").2.2.2.1 rfl).1,
    ((managers_stored_content
      (storeWith FavoriteManager.KEY (StoredItem.json JsonValue.null)) exampleArticle
      "2023-11-14T22:13:20.000Z" "news_1_1" "react").2.2.2.1 rfl).2.1,
    (((managers_stored_content
      (storeWith SearchHistoryManager.KEY (StoredItem.json JsonValue.object)) exampleArticle
      "" "news_1_1" "react").2.2.2.2.1 rfl).1).trans rfl,
    (((managers_stored_content
      (storeWith SearchHistoryManager.KEY (StoredItem.json JsonValue.object)) exampleArticle
      "" "news_1_1" "  ").2.2.2.2.1 rfl).1).trans rfl,
    (((managers_stored_content
      (storeWith ReadHistoryManager.KEY (StoredItem.json (JsonValue.num 5))) exampleArticle
      "" "news_1_1" "react").2.2.2.2.2 rfl).2.2.2 (fun _ h => by cases h)).1⟩

end StorageClaims

section ReducerLemmas

theorem find_map_replace_of_ne {V : Type} (k k' : String) (v : V) (hne : k' ≠ k) :
    ∀ o : JsObject V,
      ((o.map (fun p => if p.1 == k then (k, v) else p)).find? (fun p => p.1 == k')).map
          Prod.snd =
        (o.find? (fun p => p.1 == k')).map Prod.snd
  | [] => rfl
  | p :: rest => by
    have ih := find_map_replace_of_ne k k' v hne rest
    have hkk : (k == k') = false := by
      simpa using fun h : k = k' => hne h.symm
    by_cases hp : p.1 = k
    · have hb : (p.1 == k) = true := by simpa using hp
      have hb' : (p.1 == k') = false := by
        simpa using fun h : p.1 = k' => hne (h.symm.trans hp)
      simp only [List.map_cons, hb, if_true, List.find?_cons, hkk, hb']
      exact ih
    · have hb : (p.1 == k) = false := by simpa using hp
      simp only [List.map_cons, hb, Bool.false_eq_true, if_false, List.find?_cons]
      cases hq : (p.1 == k')
      · exact ih
      · rfl

theorem find_insertIndexKey_of_ne {V : Type} (n : Nat) (k k' : String) (v : V)
    (hne : k' ≠ k) :
    ∀ o : JsObject V,
      (insertIndexKey n k v o).find? (fun p => p.1 == k') = o.find? (fun p => p.1 == k')
  | [] => by
    have hkk : (k == k') = false := by
      simpa using fun h : k = k' => hne h.symm
    simp [insertIndexKey, hkk]
  | p :: rest => by
    have ih := find_insertIndexKey_of_ne n k k' v hne rest
    have hkk : (k == k') = false := by
      simpa using fun h : k = k' => hne h.symm
    simp only [insertIndexKey]
    split
    · split
      · simp only [List.find?_cons]
        cases hq : (p.1 == k')
        · exact ih
        · rfl
      · simp only [List.find?_cons, hkk]
    · simp only [List.find?_cons, hkk]

/-- A property write leaves every other property as it is. -/
theorem objGet_objSet_of_ne {V : Type} (o : JsObject V) (k k' : String) (v : V)
    (hne : k' ≠ k) : objGet (objSet o k v) k' = objGet o k' := by
  unfold objGet objSet
  split
  · exact find_map_replace_of_ne k k' v hne o
  · split
    · rw [find_insertIndexKey_of_ne _ k k' v hne o]
    · have hkk : (k == k') = false := by
        simpa using fun h : k = k' => hne h.symm
      rw [List.find?_append]
      simp [hkk]

theorem appReducerChecked_append (s : AppState) (c : String) (d : List Article)
    (h : readsAsList s.newsData c) :
    appReducerChecked s (Action.APPEND_NEWS_DATA c d) =
      Except.ok (appReducer s (Action.APPEND_NEWS_DATA c d)) := by
  simp [appReducerChecked, h]

theorem appReducerChecked_of_not_append (s : AppState) (a : Action)
    (h : ∀ c d, a ≠ Action.APPEND_NEWS_DATA c d) :
    appReducerChecked s a = Except.ok (appReducer s a) := by
  cases a <;> first | rfl | exact absurd rfl (h _ _)

end ReducerLemmas

section ReducerClaims

/-- C22: an action whose type is not one of the 19 declared types is a no-op; every
other action returns a state, that of `appReducer`, where for `APPEND_NEWS_DATA` the
state is well formed in that `newsData[category]` reads as a list or as `undefined`. -/
theorem appReducer_total (s : AppState) (a : Action) :
    (a.type ∉ declaredActionTypes → appReducerChecked s a = Except.ok s) ∧
    ((∀ c d, a = Action.APPEND_NEWS_DATA c d → readsAsList s.newsData c) →
      appReducerChecked s a = Except.ok (appReducer s a)) := by
  constructor
  · intro h
    cases a with
    | other t => rfl
    | _ => exact absurd (by simp [Action.type, declaredActionTypes]) h
  · intro h
    cases a with
    | APPEND_NEWS_DATA c d => exact appReducerChecked_append s c d (h c d rfl)
    | _ => rfl

theorem appReducer_total_witness :
    appReducerChecked exampleLoadedState (Action.other "UNKNOWN") =
      Except.ok exampleLoadedState ∧
    appReducerChecked exampleLoadedState (Action.APPEND_NEWS_DATA "keji" [exampleArticle]) =
      Except.ok (appReducer exampleLoadedState
        (Action.APPEND_NEWS_DATA "keji" [exampleArticle])) :=
  ⟨(appReducer_total exampleLoadedState (Action.other "UNKNOWN")).1 (by decide),
    (appReducer_total exampleLoadedState (Action.APPEND_NEWS_DATA "keji" [exampleArticle])).2
      (fun c _ h => by
        have hc : "keji" = c := (Action.APPEND_NEWS_DATA.inj h).1
        rw [← hc]
        exact Or.inr (by decide))⟩

/-- C27: `SET_NEWS_DATA` sets `newsData[c]` to `d`, and `APPEND_NEWS_DATA`, on a state
where `newsData[c]` reads as a list or as `undefined`, sets it to the old list (the
empty list if `c` was absent) followed by `d`; both return normally, leave
`newsData[c']` unchanged for every other category, set `loading` to false and
`error` to null, and leave every other field as it is. -/
theorem reducer_category_isolation (s : AppState) (c : String) (d : List Article) :
    (appReducerChecked s (Action.SET_NEWS_DATA c d) =
        Except.ok (appReducer s (Action.SET_NEWS_DATA c d)) ∧
      objGet (appReducer s (Action.SET_NEWS_DATA c d)).newsData c = some d ∧
      (∀ c', c' ≠ c →
        objGet (appReducer s (Action.SET_NEWS_DATA c d)).newsData c' = objGet s.newsData c') ∧
      appReducer s (Action.SET_NEWS_DATA c d) =
        { s with
          newsData := (appReducer s (Action.SET_NEWS_DATA c d)).newsData,
          loading := false, error := none }) ∧
    (readsAsList s.newsData c →
      appReducerChecked s (Action.APPEND_NEWS_DATA c d) =
        Except.ok (appReducer s (Action.APPEND_NEWS_DATA c d)) ∧
      objGet (appReducer s (Action.APPEND_NEWS_DATA c d)).newsData c =
        some ((objGet s.newsData c).getD [] ++ d) ∧
      (∀ c', c' ≠ c →
        objGet (appReducer s (Action.APPEND_NEWS_DATA c d)).newsData c' =
          objGet s.newsData c') ∧
      appReducer s (Action.APPEND_NEWS_DATA c d) =
        { s with
          newsData := (appReducer s (Action.APPEND_NEWS_DATA c d)).newsData,
          loading := false, error := none }) := by
  refine ⟨⟨rfl, ?_, ?_, rfl⟩, fun h => ⟨appReducerChecked_append s c d h, ?_, ?_, rfl⟩⟩
  · exact objGet_objSet_self s.newsData c d
  · intro c' hne
    exact objGet_objSet_of_ne s.newsData c c' d hne
  · exact objGet_objSet_self s.newsData c _
  · intro c' hne
    exact objGet_objSet_of_ne s.newsData c c' _ hne

theorem reducer_category_isolation_witness :
    objGet (appReducer exampleLoadingState
      (Action.APPEND_NEWS_DATA "keji" [exampleArticle])).newsData "keji" =
      some ((objGet exampleLoadingState.newsData "keji").getD [] ++ [exampleArticle]) ∧
    objGet (appReducer exampleLoadingState
      (Action.APPEND_NEWS_DATA "keji" [exampleArticle])).newsData "top" =
      objGet exampleLoadingState.newsData "top" :=
  ⟨((reducer_category_isolation exampleLoadingState "keji" [exampleArticle]).2
      (Or.inr (by decide))).2.1,
    ((reducer_category_isolation exampleLoadingState "keji" [exampleArticle]).2
      (Or.inr (by decide))).2.2.1 "top" (by decide)⟩

/-- C28 (counterexample): on a state whose only favorite is the example favorite,
`ADD_FAVORITE` with that same record yields two favorites with the same `uniquekey`. -/
theorem add_favorite_duplicate_counterexample :
    distinctFavorites exampleFavoriteState.favorites ∧
    (appReducer exampleFavoriteState (Action.ADD_FAVORITE exampleFavorite)).favorites =
      [exampleFavorite, exampleFavorite] ∧
    ¬ distinctFavorites
      (appReducer exampleFavoriteState (Action.ADD_FAVORITE exampleFavorite)).favorites := by
  refine ⟨?_, rfl, ?_⟩
  · simp [distinctFavorites, exampleFavoriteState]
  · simp [distinctFavorites, exampleFavoriteState, appReducer]

/-- C28 (amended): the reducer keeps favorites pairwise distinct by `uniquekey` for
every action, provided that the payload of `ADD_FAVORITE` has a `uniquekey` no
current favorite has (what the `addFavorite` hook checks before it dispatches) and
that the payload of `SET_FAVORITES` is itself pairwise distinct. -/
theorem reducer_preserves_distinct_favorites (s : AppState) (a : Action)
    (h : distinctFavorites s.favorites)
    (hadd : ∀ r, a = Action.ADD_FAVORITE r →
      useFavorites.isFavorite s r.uniquekey = false)
    (hset : ∀ F, a = Action.SET_FAVORITES F → distinctFavorites F) :
    distinctFavorites (appReducer s a).favorites := by
  cases a with
  | SET_FAVORITES F => exact hset F rfl
  | ADD_FAVORITE r =>
    have hr := hadd r rfl
    unfold distinctFavorites at h ⊢
    simp only [appReducer, List.map_cons, List.nodup_cons]
    refine ⟨?_, h⟩
    intro hmem
    obtain ⟨f, hf, hfk⟩ := List.mem_map.1 hmem
    have : useFavorites.isFavorite s r.uniquekey = true := by
      unfold useFavorites.isFavorite
      exact List.any_eq_true.2 ⟨f, hf, by simpa using hfk⟩
    rw [hr] at this
    exact Bool.false_ne_true this
  | REMOVE_FAVORITE k =>
    unfold distinctFavorites at h ⊢
    exact List.Nodup.sublist ((List.filter_sublist s.favorites).map _) h
  | _ => exact h

theorem reducer_preserves_distinct_favorites_witness :
    distinctFavorites exampleFavoriteState.favorites ∧
    distinctFavorites
      (appReducer exampleFavoriteState
        (Action.ADD_FAVORITE
          { toArticle := processPost "top" laterDraw
              { id := 1, title := "Alpha launch", body := "b1", userId := 1 },
            favoriteTime := "" })).favorites :=
  ⟨by simp [distinctFavorites, exampleFavoriteState],
    reducer_preserves_distinct_favorites exampleFavoriteState _
      (by simp [distinctFavorites, exampleFavoriteState])
      (fun r h => by
        rw [← Action.ADD_FAVORITE.inj h]
        decide)
      (fun F h => by cases h)⟩

end ReducerClaims

section TransformLemmas

/-- The transform of a list of post records, position by position. -/
theorem processPosts_get (type : String) (draw : Nat → PostDraw) :
    ∀ (posts : List Post) (i : Nat),
      ∃ as, processPosts type draw i (posts.map some) = some as ∧
        as.length = posts.length ∧
        ∀ j post, posts.get? j = some post →
          as.get? j = some (processPost type (draw (i + j)) post)
  | [], _ => ⟨[], rfl, rfl, fun j post h => by simp at h⟩
  | p :: rest, i => by
    obtain ⟨as, has, hlen, hget⟩ := processPosts_get type draw rest (i + 1)
    refine ⟨processPost type (draw i) p :: as, ?_, by simp [hlen], ?_⟩
    · simp [processPosts, has]
    · intro j post h
      cases j with
      | zero =>
        simp only [List.get?_cons_zero, Option.some.injEq] at h
        simp [h]
      | succ j =>
        simp only [List.get?_cons_succ] at h
        have := hget j post h
        simp only [List.get?_cons_succ, this]
        congr 3
        omega

theorem processJSONPlaceholderData_get (draw : Nat → PostDraw) (posts : List Post)
    (type : String) :
    (processJSONPlaceholderData draw (RawResponse.array (posts.map some)) type).success = true ∧
    (processJSONPlaceholderData draw (RawResponse.array (posts.map some)) type).total =
      posts.length ∧
    (processJSONPlaceholderData draw (RawResponse.array (posts.map some)) type).data.length =
      posts.length ∧
    ∀ j post, posts.get? j = some post →
      (processJSONPlaceholderData draw (RawResponse.array (posts.map some)) type).data.get? j =
        some (processPost type (draw j) post) := by
  obtain ⟨as, has, hlen, hget⟩ := processPosts_get type draw posts 0
  simp only [processJSONPlaceholderData, has, hlen, true_and]
  intro j post h
  have := hget j post h
  rw [Nat.zero_add] at this
  exact this

theorem getCategoryByType_inherited (t : String) (h : t ∈ objectPrototypeKeys) :
    getCategoryByType t = CategoryValue.inheritedMember t := by
  simp only [objectPrototypeKeys, List.mem_cons, List.mem_singleton, List.not_mem_nil,
    or_false] at h
  rcases h with h | h | h | h | h | h | h | h | h | h | h | h <;> subst h <;> rfl

theorem getCategoryByType_unknown (t : String) (h1 : t ∉ objectKeys categoryMap)
    (h2 : t ∉ objectPrototypeKeys) : getCategoryByType t = CategoryValue.label "头条" := by
  have hnone : objGet categoryMap t = none := by
    unfold objGet
    rw [Option.map_eq_none', List.find?_eq_none]
    intro p hp hk
    apply h1
    have : p.1 = t := by simpa using hk
    rw [← this]
    exact List.mem_map.2 ⟨p, hp, rfl⟩
  simp [getCategoryByType, hnone, h2]

end TransformLemmas

section TransformClaims

/-- C26 (as the code behaves): for `n` post records and a type `t` the transform
succeeds with `total = n` and `n` articles, the `i`-th with the title and body of the
`i`-th post and the category `getCategoryByType t`; that is the label of `t` for the
nine keys and `头条` for every other type except the names of the members of
`Object.prototype` (`constructor`, `toString`, ...), for which it is that inherited
member; a response that is not a list gives the `暂无数据` result. -/
theorem transform_output (draw : Nat → PostDraw) (posts : List Post) (t : String) :
    (processJSONPlaceholderData draw (RawResponse.array (posts.map some)) t).success = true ∧
    (processJSONPlaceholderData draw (RawResponse.array (posts.map some)) t).total =
      posts.length ∧
    (processJSONPlaceholderData draw (RawResponse.array (posts.map some)) t).data.length =
      posts.length ∧
    (∀ i post, posts.get? i = some post →
      ∃ a, (processJSONPlaceholderData draw (RawResponse.array (posts.map some)) t).data.get? i =
          some a ∧
        a.title = post.title ∧ a.body = post.body ∧ a.category = getCategoryByType t) ∧
    (getCategoryByType "top" = CategoryValue.label "头条" ∧
      getCategoryByType "guonei" = CategoryValue.label "国内" ∧
      getCategoryByType "guoji" = CategoryValue.label "国际" ∧
      getCategoryByType "yule" = CategoryValue.label "娱乐" ∧
      getCategoryByType "tiyu" = CategoryValue.label "体育" ∧
      getCategoryByType "junshi" = CategoryValue.label "军事" ∧
      getCategoryByType "keji" = CategoryValue.label "科技" ∧
      getCategoryByType "caijing" = CategoryValue.label "财经" ∧
      getCategoryByType "shishang" = CategoryValue.label "时尚") ∧
    (t ∉ objectKeys categoryMap → t ∉ objectPrototypeKeys →
      getCategoryByType t = CategoryValue.label "头条") ∧
    (t ∈ objectPrototypeKeys → getCategoryByType t = CategoryValue.inheritedMember t) ∧
    processJSONPlaceholderData draw RawResponse.notArray t =
      { success := false, message := some "暂无数据", data := [], total := 0, stat := none } := by
  obtain ⟨hs, ht, hl, hg⟩ := processJSONPlaceholderData_get draw posts t
  refine ⟨hs, ht, hl, ?_, ⟨rfl, rfl, rfl, rfl, rfl, rfl, rfl, rfl, rfl⟩,
    getCategoryByType_unknown t, getCategoryByType_inherited t, rfl⟩
  intro i post h
  exact ⟨_, hg i post h, rfl, rfl, rfl⟩

theorem transform_output_witness :
    "constructor" ∉ objectKeys categoryMap ∧
    getCategoryByType "constructor" = CategoryValue.inheritedMember "constructor" ∧
    (∃ a, (processJSONPlaceholderData (fun _ => exampleDraw)
        (RawResponse.array ([examplePost].map some)) "constructor").data.get? 0 = some a ∧
      a.title = examplePost.title ∧ a.body = examplePost.body ∧
      a.category = getCategoryByType "constructor") ∧
    getCategoryByType "sports" = CategoryValue.label "头条" :=
  ⟨by decide,
    (transform_output (fun _ => exampleDraw) [examplePost] "constructor").2.2.2.2.2.2.1
      (by decide),
    (transform_output (fun _ => exampleDraw) [examplePost] "constructor").2.2.2.1 0
      examplePost rfl,
    (transform_output (fun _ => exampleDraw) [examplePost] "sports").2.2.2.2.2.1
      (by decide) (by decide)⟩

end TransformClaims

section UniquekeyLemmas

theorem digitChar_value (k : Nat) (h : k < 10) :
    (Nat.digitChar k).toNat - 48 = k ∧ (Nat.digitChar k).isDigit = true := by
  interval_cases k <;> decide

/-- The decimal digits `Nat.toDigitsCore` puts in front of `ds` denote `n`. -/
theorem toDigitsCore_decode (fuel : Nat) : ∀ (n : Nat) (ds : List Char), n < fuel →
    ∃ pre, Nat.toDigitsCore 10 fuel n ds = pre ++ ds ∧ digitsValue pre = n ∧
      ∀ c ∈ pre, c.isDigit = true := by
  induction fuel with
  | zero => intro n ds h; omega
  | succ fuel ih =>
    intro n ds h
    have hd := digitChar_value (n % 10) (Nat.mod_lt _ (by decide))
    by_cases h0 : n / 10 = 0
    · refine ⟨[Nat.digitChar (n % 10)], ?_, ?_, ?_⟩
      · simp [Nat.toDigitsCore, h0]
      · simp only [digitsValue, List.foldl_cons, List.foldl_nil]
        rw [hd.1]; omega
      · intro c hc
        simp only [List.mem_singleton] at hc
        rw [hc]; exact hd.2
    · obtain ⟨pre, hpre, hval, hall⟩ :=
        ih (n / 10) (Nat.digitChar (n % 10) :: ds) (by omega)
      refine ⟨pre ++ [Nat.digitChar (n % 10)], ?_, ?_, ?_⟩
      · simp [Nat.toDigitsCore, h0, hpre]
      · unfold digitsValue at hval ⊢
        rw [List.foldl_append, hval]
        simp only [List.foldl_cons, List.foldl_nil]
        rw [hd.1]; omega
      · intro c hc
        rcases List.mem_append.1 hc with hc | hc
        · exact hall c hc
        · simp only [List.mem_singleton] at hc
          rw [hc]; exact hd.2

theorem natRepr_decode (n : Nat) :
    digitsValue (Nat.repr n).data = n ∧ ∀ c ∈ (Nat.repr n).data, c.isDigit = true := by
  obtain ⟨pre, hpre, hval, hall⟩ := toDigitsCore_decode (n + 1) n [] (by omega)
  have : (Nat.repr n).data = pre := by
    simp [Nat.repr, Nat.toDigits, hpre, List.asString]
  rw [this]; exact ⟨hval, hall⟩

theorem intToString_cases (i : Int) :
    (∃ n : Nat, i = n ∧ (toString i).data = (Nat.repr n).data) ∨
    (∃ n : Nat, i = Int.negSucc n ∧ (toString i).data = '-' :: (Nat.repr (n + 1)).data) := by
  cases i with
  | ofNat n => exact Or.inl ⟨n, rfl, rfl⟩
  | negSucc n => exact Or.inr ⟨n, rfl, rfl⟩

/-- The decimal rendering of integers is injective. -/
theorem intToString_injective (i j : Int) (h : (toString i).data = (toString j).data) :
    i = j := by
  rcases intToString_cases i with ⟨n, hn, hi⟩ | ⟨n, hn, hi⟩ <;>
    rcases intToString_cases j with ⟨m, hm, hj⟩ | ⟨m, hm, hj⟩
  · rw [hi, hj] at h
    have := (natRepr_decode n).1
    rw [h, (natRepr_decode m).1] at this
    rw [hn, hm, this]
  · exfalso
    rw [hi, hj] at h
    have hmem : '-' ∈ (Nat.repr n).data := by rw [h]; simp
    have := (natRepr_decode n).2 _ hmem
    revert this; decide
  · exfalso
    rw [hi, hj] at h
    have hmem : '-' ∈ (Nat.repr m).data := by rw [← h]; simp
    have := (natRepr_decode m).2 _ hmem
    revert this; decide
  · rw [hi, hj] at h
    have hd : (Nat.repr (n + 1)).data = (Nat.repr (m + 1)).data := by
      simpa using h
    have := (natRepr_decode (n + 1)).1
    rw [hd, (natRepr_decode (m + 1)).1] at this
    have hnm : n = m := by omega
    rw [hn, hm, hnm]

theorem underscore_not_mem_intToString (i : Int) : '_' ∉ (toString i).data := by
  intro hc
  rcases intToString_cases i with ⟨n, _, hi⟩ | ⟨n, _, hi⟩
  · rw [hi] at hc
    have := (natRepr_decode n).2 _ hc
    revert this; decide
  · rw [hi] at hc
    rcases List.mem_cons.1 hc with hc | hc
    · revert hc; decide
    · have := (natRepr_decode (n + 1)).2 _ hc
      revert this; decide

theorem append_cons_unique {α : Type} (x : α) :
    ∀ (A A' B B' : List α), x ∉ A → x ∉ A' → A ++ x :: B = A' ++ x :: B' → A = A' ∧ B = B'
  | [], [], B, B', _, _, h => by
    simp only [List.nil_append, List.cons.injEq, true_and] at h
    exact ⟨rfl, h⟩
  | [], a :: A', B, B', _, h2, h => by
    simp only [List.nil_append, List.cons_append, List.cons.injEq] at h
    exact absurd (by rw [h.1]; exact List.mem_cons_self _ _) h2
  | a :: A, [], B, B', h1, _, h => by
    simp only [List.nil_append, List.cons_append, List.cons.injEq] at h
    exact absurd (by rw [← h.1]; exact List.mem_cons_self _ _) h1
  | a :: A, a' :: A', B, B', h1, h2, h => by
    simp only [List.cons_append, List.cons.injEq] at h
    obtain ⟨hA, hB⟩ := append_cons_unique x A A' B B'
      (fun hm => h1 (List.mem_cons_of_mem _ hm)) (fun hm => h2 (List.mem_cons_of_mem _ hm)) h.2
    exact ⟨by rw [h.1, hA], hB⟩

/-- The `uniquekey` template determines the post id and the clock reading. -/
theorem uniquekey_injective (i i' t t' : Int)
    (h : "news_" ++ toString i ++ "_" ++ toString t =
      "news_" ++ toString i' ++ "_" ++ toString t') : i = i' ∧ t = t' := by
  have hdata := congrArg String.data h
  simp only [String.data_append, List.append_assoc] at hdata
  have hrest := List.append_cancel_left hdata
  simp only [List.singleton_append] at hrest
  obtain ⟨hA, hB⟩ := append_cons_unique '_' _ _ _ _ (underscore_not_mem_intToString i)
    (underscore_not_mem_intToString i') hrest
  exact ⟨intToString_injective i i' hA, intToString_injective t t' hB⟩

theorem processPost_uniquekey_ne (type1 type2 : String) (d1 d2 : PostDraw) (p1 p2 : Post)
    (h : p1.id ≠ p2.id ∨ d1.now ≠ d2.now) :
    (processPost type1 d1 p1).uniquekey ≠ (processPost type2 d2 p2).uniquekey := by
  intro heq
  obtain ⟨hi, ht⟩ := uniquekey_injective p1.id p2.id d1.now d2.now heq
  rcases h with h | h
  · exact h hi
  · exact h ht

/-- The read list stored after `markAsRead(id)` on a working storage. -/
theorem markAsRead_stored_list (R : List String) (id : String) (store : LocalStorage)
    (hf : store.failing = false) (hq : store.full = false)
    (hget : Storage.get store ReadHistoryManager.KEY (JsonValue.array []) =
      JsonValue.array (R.map JsonElem.str)) :
    Storage.get (ReadHistoryManager.markAsRead store id).store ReadHistoryManager.KEY
        (JsonValue.array []) =
      JsonValue.array ((if id ∈ R then R else (id :: R).take 100).map JsonElem.str) := by
  by_cases hmem : id ∈ R
  · have hrun : ReadHistoryManager.markAsRead store id =
        { result := Except.ok (), store := store } := by
      simp only [ReadHistoryManager.markAsRead, hget, readIncludes, contains_str_map, hmem,
        decide_True]
    rw [hrun, if_pos hmem]
    exact hget
  · have hcap := cap_eq_take (JsonElem.str id :: R.map JsonElem.str) 100
    have hrun : ReadHistoryManager.markAsRead store id =
        { result := Except.ok (),
          store := Storage.set store ReadHistoryManager.KEY
            (JsonValue.array (((id :: R).take 100).map JsonElem.str)) } := by
      simp only [ReadHistoryManager.markAsRead, hget, readIncludes, contains_str_map, hmem,
        decide_False, ReadHistoryManager.MAX_HISTORY]
      rw [hcap, ← List.map_cons, List.map_take]
    rw [hrun, if_neg hmem]
    exact storage_get_set store _ _ _ hf hq

end UniquekeyLemmas

section UniquekeyClaims

/-- C30: the `uniquekey` is `news_`, the post id, `_` and the clock reading of the
transform. In one batch two posts with distinct ids get distinct uniquekeys; the same
post transformed at two different clock readings gets two different uniquekeys, so
after the article of the earlier transform is favorited (or marked read), `isFavorite`
(or `isRead`) is true for its uniquekey and false for the uniquekey of the later
transform, which no stored entry has. -/
theorem uniquekey_depends_on_clock (type1 type2 : String) (d1 d2 : PostDraw) (post : Post) :
    (processPost type1 d1 post).uniquekey =
      "news_" ++ toString post.id ++ "_" ++ toString d1.now ∧
    (∀ (draw : Nat → PostDraw) (posts : List Post) (i j : Nat) (pi pj : Post),
      posts.get? i = some pi → posts.get? j = some pj → pi.id ≠ pj.id →
      ∃ ai aj,
        (processJSONPlaceholderData draw (RawResponse.array (posts.map some)) type1).data.get? i =
          some ai ∧
        (processJSONPlaceholderData draw (RawResponse.array (posts.map some)) type1).data.get? j =
          some aj ∧
        ai.uniquekey ≠ aj.uniquekey) ∧
    (d1.now ≠ d2.now →
      (processPost type1 d1 post).uniquekey ≠ (processPost type2 d2 post).uniquekey ∧
      (∀ (s : AppState) (nowIso : String),
        useFavorites.isFavorite s (processPost type2 d2 post).uniquekey = false →
        useFavorites.isFavorite (useFavorites.addFavorite s (processPost type1 d1 post) nowIso).2
          (processPost type1 d1 post).uniquekey = true ∧
        useFavorites.isFavorite (useFavorites.addFavorite s (processPost type1 d1 post) nowIso).2
          (processPost type2 d2 post).uniquekey = false) ∧
      (∀ (store : LocalStorage) (R : List String),
        store.failing = false → store.full = false →
        Storage.get store ReadHistoryManager.KEY (JsonValue.array []) =
          JsonValue.array (R.map JsonElem.str) →
        (processPost type2 d2 post).uniquekey ∉ R →
        (ReadHistoryManager.isRead
          (ReadHistoryManager.markAsRead store (processPost type1 d1 post).uniquekey).store
          (processPost type1 d1 post).uniquekey).result = Except.ok true ∧
        (ReadHistoryManager.isRead
          (ReadHistoryManager.markAsRead store (processPost type1 d1 post).uniquekey).store
          (processPost type2 d2 post).uniquekey).result = Except.ok false)) := by
  refine ⟨rfl, ?_, ?_⟩
  · intro draw posts i j pi pj hi hj hne
    obtain ⟨_, _, _, hg⟩ := processJSONPlaceholderData_get draw posts type1
    exact ⟨_, _, hg i pi hi, hg j pj hj,
      processPost_uniquekey_ne type1 type1 (draw i) (draw j) pi pj (Or.inl hne)⟩
  · intro hnow
    have hne := processPost_uniquekey_ne type1 type2 d1 d2 post post (Or.inr hnow)
    refine ⟨hne, ?_, ?_⟩
    · intro s nowIso hfresh
      unfold useFavorites.isFavorite at hfresh ⊢
      unfold useFavorites.addFavorite
      by_cases hany : s.favorites.any
          (fun item => decide (item.uniquekey = (processPost type1 d1 post).uniquekey)) = true
      · simp only [hany, Bool.not_true, Bool.false_eq_true, if_false]
        exact ⟨trivial, hfresh⟩
      · have hfalse := Bool.eq_false_iff.2 hany
        simp only [hfalse, Bool.not_false, if_true, appReducer, List.any_cons, hfresh,
          Bool.or_false, decide_eq_true_eq, decide_True, Bool.true_or, true_and]
        simpa using hne
    · intro store R hf hq hget hfresh
      have hstored := markAsRead_stored_list R (processPost type1 d1 post).uniquekey store
        hf hq hget
      simp only [ReadHistoryManager.isRead, hstored, readIncludes, contains_str_map]
      by_cases hmem : (processPost type1 d1 post).uniquekey ∈ R
      · simp only [if_pos hmem]
        simp [hmem, hfresh]
      · simp only [if_neg hmem]
        have htake : ((processPost type1 d1 post).uniquekey :: R).take 100 =
            (processPost type1 d1 post).uniquekey :: R.take 99 := rfl
        rw [htake]
        have hnot : (processPost type2 d2 post).uniquekey ∉
            (processPost type1 d1 post).uniquekey :: R.take 99 := by
          intro hm
          rcases List.mem_cons.1 hm with hm | hm
          · exact hne hm.symm
          · exact hfresh (List.mem_of_mem_take hm)
        simp [hnot]

theorem uniquekey_depends_on_clock_witness :
    exampleDraw.now ≠ laterDraw.now ∧
    (processPost "top" exampleDraw examplePost).uniquekey ≠
      (processPost "top" laterDraw examplePost).uniquekey ∧
    useFavorites.isFavorite
      (useFavorites.addFavorite initialState (processPost "top" exampleDraw examplePost) "").2
      (processPost "top" laterDraw examplePost).uniquekey = false ∧
    (ReadHistoryManager.isRead
      (ReadHistoryManager.markAsRead emptyStorage
        (processPost "top" exampleDraw examplePost).uniquekey).store
      (processPost "top" laterDraw examplePost).uniquekey).result = Except.ok false :=
  ⟨by decide,
    ((uniquekey_depends_on_clock "top" "top" exampleDraw laterDraw examplePost).2.2
      (by decide)).1,
    (((uniquekey_depends_on_clock "top" "top" exampleDraw laterDraw examplePost).2.2
      (by decide)).2.1 initialState "" rfl).2,
    (((uniquekey_depends_on_clock "top" "top" exampleDraw laterDraw examplePost).2.2
      (by decide)).2.2 emptyStorage [] rfl rfl rfl (by simp)).2⟩

end UniquekeyClaims

end NewsHub
